import Mathlib

/-!
# oxherdcpp: lifecycle, message processing and supervision

A shallow embedding of `include/oxherdcpp/actor/actor_state.h`,
`include/oxherdcpp/actor/simple_finite_state_machine.h`, `src/actor/actor.cpp`,
`include/oxherdcpp/actor/supervision/supervision_strategy.h`,
`src/actor/supervision/supervision_strategy.cpp`,
`include/oxherdcpp/actor/actor_context.h` and `src/actor/actor_context.cpp`,
with the properties that the specification states about them.
-/

namespace oxherdcpp

/-! ## Lifecycle states and events (`actor_state.h`) -/

/-- The alternatives of the `std::variant` that `ActorState` derives from, in the
order of the template argument list (the first one is the default). -/
inductive State where
  | CreatedState
  | InitializingState
  | StartingState
  | RunningState
  | StoppingState
  | StoppedState
  | TerminatingState
  | TerminatedState
  | PausedState
  deriving DecidableEq, Repr, Inhabited

/-- The event structs of `actor_state.h`. -/
inductive Event where
  | InitializeEvent
  | StartEvent
  | StartedEvent
  | StopEvent
  | StoppedEvent
  | TerminateEvent
  | TerminatedEventReached
  | PauseEvent
  | ResumeEvent
  | FailureEvent
  deriving DecidableEq, Repr

/-- `ActorState` is the state machine itself: the variant holding the current state. -/
abbrev ActorState := State

namespace ActorState

/-- `constexpr ActorState() = default;` a default-constructed variant holds its
first alternative. -/
def init : ActorState := State.CreatedState

/-- The overload set `ActorState::On`, after overload resolution: a non-template
overload wins over the templates, the templates on `TerminateEvent` and
`FailureEvent` are more specialised than the catch-all, and the catch-all
returns `std::nullopt`. -/
def On : State → Event → Option State
  | .CreatedState, .InitializeEvent => some .InitializingState
  | .InitializingState, .StartEvent => some .StartingState
  | .StartingState, .StartedEvent => some .RunningState
  | .RunningState, .StopEvent => some .StoppingState
  | .StoppingState, .StoppedEvent => some .StoppedState
  | .StoppedState, .StartEvent => some .StartingState
  | _, .TerminateEvent => some .TerminatingState
  | .TerminatingState, .TerminatedEventReached => some .TerminatedState
  | .RunningState, .PauseEvent => some .PausedState
  | .PausedState, .ResumeEvent => some .RunningState
  | .PausedState, .StopEvent => some .StoppingState
  | _, .FailureEvent => some .StoppingState
  | _, _ => none

/-- `GeneralFiniteStateMachine::Dispatch`: visit the current state with `On` and
assign the result when there is one. -/
def Dispatch (self : ActorState) (event : Event) : ActorState :=
  match On self event with
  | some result => result
  | none => self

/-- `GeneralFiniteStateMachine::HasCurrentState<U>`. -/
def HasCurrentState (self : ActorState) (u : State) : Bool :=
  decide (self = u)

/-- `ActorState::IsStopped`. -/
def IsStopped (self : ActorState) : Bool := HasCurrentState self .StoppedState

/-- `ActorState::IsRunning`. -/
def IsRunning (self : ActorState) : Bool := HasCurrentState self .RunningState

/-- `ActorState::IsPaused`. -/
def IsPaused (self : ActorState) : Bool := HasCurrentState self .PausedState

/-- `ActorState::IsTerminated`. -/
def IsTerminated (self : ActorState) : Bool := HasCurrentState self .TerminatedState

end ActorState

/-- The transition table of section 4.1 of the specification, row by row, as
triples (state, event, target); the two `any` rows are expanded separately. -/
def specTable : List (State × Event × State) :=
  [ (.CreatedState, .InitializeEvent, .InitializingState),
    (.InitializingState, .StartEvent, .StartingState),
    (.StartingState, .StartedEvent, .RunningState),
    (.StoppedState, .StartEvent, .StartingState),
    (.RunningState, .StopEvent, .StoppingState),
    (.RunningState, .PauseEvent, .PausedState),
    (.PausedState, .ResumeEvent, .RunningState),
    (.PausedState, .StopEvent, .StoppingState),
    (.StoppingState, .StoppedEvent, .StoppedState),
    (.TerminatingState, .TerminatedEventReached, .TerminatedState) ]


/-! ## Messages (`message.h`, `events.h`, `types.h`) -/

/-- `using MessageTypeID = std::size_t;` -/
abbrev MessageTypeID := Nat

/-- `using ActorId = std::size_t;` -/
abbrev ActorId := Nat

/-- What a `std::exception_ptr` refers to: the dynamic type of the exception in
flight and its text. -/
structure ExceptionPtr where
  type_id : Nat
  what : String
  deriving DecidableEq, Repr

/-- The message variants that reach `Actor::ProcessMessage`: the five lifecycle
commands and `ActorFailureEvent` of `events.h` (with its four data members), and
variants declared by user code, each with the value `GetTypeHash` gives its
type and with its payload. -/
inductive BaseMessage where
  | GoStartActor
  | GoStopActor
  | GoPauseActor
  | GoResumeActor
  | GoTerminateActor
  | ActorFailureEvent (actor_id : ActorId) (actor_name : String) (cause : ExceptionPtr)
      (failed_message : BaseMessage)
  | UserMessage (type_id : MessageTypeID) (payload : Nat)
  deriving DecidableEq, Repr

/-- The values of `GetTypeHash<T>()` for the variants of `events.h`.  The
function hashes `__PRETTY_FUNCTION__` with `std::hash`, so the values are
taken as given. -/
structure TypeHash where
  GoStartActor : MessageTypeID
  GoStopActor : MessageTypeID
  GoPauseActor : MessageTypeID
  GoResumeActor : MessageTypeID
  GoTerminateActor : MessageTypeID
  ActorFailureEvent : MessageTypeID
  deriving DecidableEq, Repr

/-- The type identifiers of the five lifecycle commands, in the order in which
`InitializeMessageHandlers` registers them. -/
def TypeHash.lifecycle (th : TypeHash) : List MessageTypeID :=
  [th.GoStartActor, th.GoStopActor, th.GoPauseActor, th.GoResumeActor, th.GoTerminateActor]

/-- `Message<Derived>::GetTypeId`, the override of the pure virtual of
`BaseMessage`: `GetTypeHash<Derived>()`. -/
def BaseMessage.GetTypeId (th : TypeHash) : BaseMessage → MessageTypeID
  | .GoStartActor => th.GoStartActor
  | .GoStopActor => th.GoStopActor
  | .GoPauseActor => th.GoPauseActor
  | .GoResumeActor => th.GoResumeActor
  | .GoTerminateActor => th.GoTerminateActor
  | .ActorFailureEvent _ _ _ _ => th.ActorFailureEvent
  | .UserMessage type_id _ => type_id

/-! ## Actor (`actor.h`, `actor.cpp`, `actor_context.h`) -/

/-- A `Wptr<Actor>`: the actor it was built from, by identifier, or nothing when
it was built from a null pointer. -/
abbrev Wptr := Option ActorId

/-- `Wptr::lock()`: the target while it still has an owner. -/
def Wptr.lock (alive : ActorId → Bool) : Wptr → Option ActorId
  | some target => if alive target then some target else none
  | none => none

/-- The part of `ActorContext` that `Actor` reads: the weak handle to the parent. -/
structure ActorContext where
  parent_ : Wptr
  deriving DecidableEq, Repr

/-- `ActorContext::GetParent`. -/
def ActorContext.GetParent (self : ActorContext) : Wptr := self.parent_

/-- The data members of `Actor` that message processing reads or writes, and
`derived`, the members a derived class adds.  The handler table is rebuilt
from `InitializeMessageHandlers`, which is its only writer. -/
structure Actor (U : Type) where
  name_ : String
  actor_id_ : ActorId
  context_ : Option ActorContext
  state_ : ActorState
  derived : U

namespace Actor

variable {U : Type}

/-- The constructor `Actor::Actor(executor, name, actor_id)`: no context yet and
a default-constructed state. -/
def new (name : String) (actor_id : ActorId) (derived : U) : Actor U :=
  { name_ := name, actor_id_ := actor_id, context_ := none, state_ := ActorState.init,
    derived := derived }

/-- `Actor::GetState`. -/
def GetState (self : Actor U) : ActorState := self.state_

/-- `Actor::SetContext`. -/
def SetContext (self : Actor U) (context : ActorContext) : Actor U :=
  { self with context_ := some context }

/-- `Actor::GetId`. -/
def GetId (self : Actor U) : ActorId := self.actor_id_

/-- `Actor::GetName`. -/
def GetName (self : Actor U) : String := self.name_

/-- `Actor::GetContext`: throws `std::runtime_error` when no context is installed. -/
def GetContext (self : Actor U) : Except String ActorContext :=
  match self.context_ with
  | none => .error "Context is not set"
  | some context => .ok context

end Actor

/-- The nine virtual hooks of `Actor`. -/
inductive Hook where
  | OnInitialize
  | OnStart
  | OnStarted
  | OnStop
  | OnStopped
  | OnPause
  | OnResume
  | OnTerminate
  | OnTerminated
  deriving DecidableEq, Repr

/-- What a derived class supplies: the bodies of the nine hooks and of
`Behaviour`.  A body reads the actor (its state through `GetState`, its name,
its identifier) and updates the members of the derived class; `Behaviour` may
in addition leave by an exception.  Hooks return normally and user code fires
no lifecycle event itself. -/
structure UserCode (U : Type) where
  hooks : Hook → Actor U → U
  Behaviour : BaseMessage → Actor U → U × Option ExceptionPtr

/-- The hooks of `Actor` itself, all empty, with a `Behaviour` that does nothing. -/
def UserCode.default (U : Type) : UserCode U :=
  { hooks := fun _ self => self.derived, Behaviour := fun _ self => (self.derived, none) }

/-- What an actor does that an observer can see, in the order it happens: a hook
is entered (with the state `GetState` shows at that moment), `Behaviour` is
entered with a message, `Receive` is called on another actor. -/
inductive Effect where
  | hook (h : Hook) (seen : State)
  | behaviour (message : BaseMessage)
  | receive (target : ActorId) (message : BaseMessage)
  deriving DecidableEq, Repr

/-- The hooks entered, in order. -/
def hooksRun : List Effect → List Hook
  | [] => []
  | .hook h _ :: rest => h :: hooksRun rest
  | _ :: rest => hooksRun rest

/-- The messages `Behaviour` was entered with, in order. -/
def behaviourCalls : List Effect → List BaseMessage
  | [] => []
  | .behaviour m :: rest => m :: behaviourCalls rest
  | _ :: rest => behaviourCalls rest

/-- The calls of `Receive` on other actors, in order. -/
def sent : List Effect → List (ActorId × BaseMessage)
  | [] => []
  | .receive target m :: rest => (target, m) :: sent rest
  | _ :: rest => sent rest

/-- An actor together with the record of what it has done so far. -/
structure Exec (U : Type) where
  actor : Actor U
  trace : List Effect

namespace Exec

variable {U : Type}

/-- The statement `state_.Dispatch(event);`. -/
def Dispatch (x : Exec U) (event : Event) : Exec U :=
  { x with actor := { x.actor with state_ := ActorState.Dispatch x.actor.state_ event } }

/-- A call of one of the virtual hooks. -/
def call (uc : UserCode U) (x : Exec U) (h : Hook) : Exec U :=
  { actor := { x.actor with derived := uc.hooks h x.actor },
    trace := x.trace ++ [Effect.hook h x.actor.state_] }

end Exec

/-- How the body of `ProcessMessage` ends: it returns, or an exception leaves it
(the completion token of `Receive` is `noexcept`, so the process then ends in
`std::terminate`). -/
inductive Outcome (U : Type) where
  | returned (x : Exec U)
  | threw (what : String) (x : Exec U)

/-- The actor and its record when the body ended. -/
def Outcome.exec {U : Type} : Outcome U → Exec U
  | .returned x => x
  | .threw _ x => x

/-- The member functions that the closures of `system_message_handlers_` call. -/
inductive SystemHandler where
  | HandleGoStart
  | HandleGoStop
  | HandleGoPause
  | HandleGoResume
  | HandleGoTerminate
  deriving DecidableEq, Repr

/-- `MessageHandlerMap`, a `std::unordered_map` from type identifier to handler. -/
abbrev MessageHandlerMap := MessageTypeID → Option SystemHandler

/-- The statement `map[key] = handler;`: insert or overwrite. -/
def MessageHandlerMap.assign (m : MessageHandlerMap) (key : MessageTypeID)
    (handler : SystemHandler) : MessageHandlerMap :=
  fun k => if k = key then some handler else m k

/-- `Actor::InitializeMessageHandlers`: five assignments into the empty map. -/
def InitializeMessageHandlers (th : TypeHash) : MessageHandlerMap :=
  let m : MessageHandlerMap := fun _ => none
  let m := m.assign th.GoStartActor .HandleGoStart
  let m := m.assign th.GoStopActor .HandleGoStop
  let m := m.assign th.GoPauseActor .HandleGoPause
  let m := m.assign th.GoResumeActor .HandleGoResume
  let m := m.assign th.GoTerminateActor .HandleGoTerminate
  m

section Handlers

variable {U : Type}

/-- `Actor::HandleGoStart`. -/
def HandleGoStart (uc : UserCode U) (x : Exec U) : Exec U :=
  let x :=
    if ActorState.HasCurrentState x.actor.state_ .CreatedState then
      (x.Dispatch .InitializeEvent).call uc .OnInitialize
    else x
  let x :=
    if ActorState.HasCurrentState x.actor.state_ .InitializingState
        || ActorState.HasCurrentState x.actor.state_ .StoppedState then
      (x.Dispatch .StartEvent).call uc .OnStart
    else x
  let x :=
    if ActorState.HasCurrentState x.actor.state_ .StartingState then
      (x.Dispatch .StartedEvent).call uc .OnStarted
    else x
  x

/-- `Actor::HandleGoStop`. -/
def HandleGoStop (uc : UserCode U) (x : Exec U) : Exec U :=
  let x :=
    if ActorState.HasCurrentState x.actor.state_ .RunningState
        || ActorState.HasCurrentState x.actor.state_ .PausedState
        || ActorState.HasCurrentState x.actor.state_ .StartingState then
      (x.Dispatch .StopEvent).call uc .OnStop
    else x
  let x :=
    if ActorState.HasCurrentState x.actor.state_ .StoppingState then
      (x.Dispatch .StoppedEvent).call uc .OnStopped
    else x
  x

/-- `Actor::HandleGoPause`. -/
def HandleGoPause (uc : UserCode U) (x : Exec U) : Exec U :=
  if ActorState.HasCurrentState x.actor.state_ .RunningState then
    (x.Dispatch .PauseEvent).call uc .OnPause
  else x

/-- `Actor::HandleGoResume`. -/
def HandleGoResume (uc : UserCode U) (x : Exec U) : Exec U :=
  if ActorState.HasCurrentState x.actor.state_ .PausedState then
    (x.Dispatch .ResumeEvent).call uc .OnResume
  else x

/-- `Actor::HandleGoTerminate`. -/
def HandleGoTerminate (uc : UserCode U) (x : Exec U) : Exec U :=
  let x :=
    if !ActorState.HasCurrentState x.actor.state_ .TerminatedState then
      (x.Dispatch .TerminateEvent).call uc .OnTerminate
    else x
  let x :=
    if ActorState.HasCurrentState x.actor.state_ .TerminatingState then
      (x.Dispatch .TerminatedEventReached).call uc .OnTerminated
    else x
  x

/-- The call `handler_it->second()` of a stored closure. -/
def SystemHandler.run (uc : UserCode U) (x : Exec U) : SystemHandler → Exec U
  | .HandleGoStart => oxherdcpp.HandleGoStart uc x
  | .HandleGoStop => oxherdcpp.HandleGoStop uc x
  | .HandleGoPause => oxherdcpp.HandleGoPause uc x
  | .HandleGoResume => oxherdcpp.HandleGoResume uc x
  | .HandleGoTerminate => oxherdcpp.HandleGoTerminate uc x

/-- `Actor::HandleUserMessage`.  In the `catch (...)` block the state moves by
`FailureEvent`, the failure event is filled in, and `GetContext()` is
evaluated, which throws out of the handler when no context is installed. -/
def HandleUserMessage (uc : UserCode U) (alive : ActorId → Bool) (message : BaseMessage)
    (x : Exec U) : Outcome U :=
  if !ActorState.IsRunning x.actor.state_ then
    .returned x
  else
    let result := uc.Behaviour message x.actor
    let x : Exec U :=
      { actor := { x.actor with derived := result.1 },
        trace := x.trace ++ [Effect.behaviour message] }
    match result.2 with
    | none => .returned x
    | some cause =>
      let x := x.Dispatch .FailureEvent
      let failure_event :=
        BaseMessage.ActorFailureEvent x.actor.GetId x.actor.GetName cause message
      match x.actor.GetContext with
      | .error what => .threw what x
      | .ok context =>
        match Wptr.lock alive context.GetParent with
        | some parent =>
          .returned { x with trace := x.trace ++ [Effect.receive parent failure_event] }
        | none => .returned x

/-- `Actor::ProcessMessage`. -/
def ProcessMessage (th : TypeHash) (uc : UserCode U) (alive : ActorId → Bool)
    (message : BaseMessage) (x : Exec U) : Outcome U :=
  let message_type := message.GetTypeId th
  match InitializeMessageHandlers th message_type with
  | some handler => .returned (handler.run uc x)
  | none => HandleUserMessage uc alive message x

/-- The strand of an actor running the completion tokens that `Receive` posted,
one message after the other, until the list is done or an exception ends the
process. -/
def ProcessMessages (th : TypeHash) (uc : UserCode U) (alive : ActorId → Bool) :
    List BaseMessage → Exec U → Outcome U
  | [], x => .returned x
  | message :: rest, x =>
    match ProcessMessage th uc alive message x with
    | .returned y => ProcessMessages th uc alive rest y
    | .threw what y => .threw what y

end Handlers

/-- The state each hook belongs to according to the specification: the target of
the step that precedes it (`on_initialize` sees Initializing, `on_start`
Starting, `on_started` Running, `on_stop` Stopping, `on_stopped` Stopped,
`on_pause` Paused, `on_resume` Running, `on_terminate` Terminating,
`on_terminated` Terminated). -/
def Hook.target : Hook → State
  | .OnInitialize => .InitializingState
  | .OnStart => .StartingState
  | .OnStarted => .RunningState
  | .OnStop => .StoppingState
  | .OnStopped => .StoppedState
  | .OnPause => .PausedState
  | .OnResume => .RunningState
  | .OnTerminate => .TerminatingState
  | .OnTerminated => .TerminatedState

/-! ## A worked instance -/

/-- Six pairwise distinct type identifiers. -/
def sampleHash : TypeHash :=
  { GoStartActor := 11, GoStopActor := 12, GoPauseActor := 13, GoResumeActor := 14,
    GoTerminateActor := 15, ActorFailureEvent := 16 }

/-- A derived class that counts the hooks it has seen and whose `Behaviour`
throws on a user message with payload 0. -/
def sampleCode : UserCode Nat :=
  { hooks := fun _ self => self.derived + 1,
    Behaviour := fun message self =>
      match message with
      | .UserMessage _ 0 => (self.derived, some { type_id := 1, what := "boom" })
      | _ => (self.derived, none) }

/-- An actor named Vanya with identifier 7, in the given state, whose context
names actor 3 as parent, with an empty record. -/
def sampleExec (s : State) : Exec Nat :=
  { actor := { name_ := "Vanya", actor_id_ := 7, context_ := some { parent_ := some 3 },
               state_ := s, derived := 0 },
    trace := [] }

/-- Every actor still has an owner. -/
def allAlive : ActorId → Bool := fun _ => true

/-! ## Identifiers and actor creation (`uuid.h`, `actor_system.h`) -/

/-- `IDGenerator<Tag, std::size_t>::Generate`: `return id_generator_++;` on the
64-bit counter, as the value returned and the counter afterwards. -/
def IDGenerator.Generate (id_generator_ : Nat) : Nat × Nat :=
  (id_generator_, (id_generator_ + 1) % 2 ^ 64)

/-- `ActorSystem::CreateActor`: construct the actor with a generated identifier,
install a context without parent, and return it; no message is sent to it.
The result is the actor and the counter of the generator afterwards. -/
def ActorSystem.CreateActor {U : Type} (name : String) (derived : U) (id_generator_ : Nat) :
    Actor U × Nat :=
  let generated := IDGenerator.Generate id_generator_
  let actor := Actor.new name generated.1 derived
  let context : ActorContext := { parent_ := none }
  (actor.SetContext context, generated.2)

/-- The five lifecycle commands of `events.h`. -/
def lifecycleCommands : List BaseMessage :=
  [.GoStartActor, .GoPauseActor, .GoResumeActor, .GoStopActor, .GoTerminateActor]

/-- The states in which a freshly constructed actor can be found between two
lifecycle commands, according to the specification. -/
def restStates : List State :=
  [.CreatedState, .RunningState, .PausedState, .StoppedState, .TerminatedState]

/-- The final states the specification allows after a storm of lifecycle commands. -/
def stableStates : List State :=
  [.RunningState, .PausedState, .StoppedState, .TerminatedState]

/-! ## Supervision (`supervision_strategy.h`, `supervision_strategy.cpp`) -/

/-- `enum class Directive`. -/
inductive Directive where
  | Resume
  | Restart
  | Stop
  | Escalate
  deriving DecidableEq, Repr

/-- The data members of `ActorFailureEvent` (`events.h`). -/
structure ActorFailureEvent where
  actor_id : ActorId
  actor_name : String
  cause : ExceptionPtr
  failed_message : BaseMessage
  deriving DecidableEq, Repr

/-- The event as a message handed to `Receive`. -/
def ActorFailureEvent.toMessage (event : ActorFailureEvent) : BaseMessage :=
  .ActorFailureEvent event.actor_id event.actor_name event.cause event.failed_message

/-- `TypedExceptionHandler<ExceptionType>`: the exception type it was
instantiated with and its two directives. -/
structure TypedExceptionHandler where
  exception_type : Nat
  success_directive_ : Directive
  default_directive_ : Directive
  deriving DecidableEq, Repr

namespace TypedExceptionHandler

/-- `TypedExceptionHandler::GetTypeID`. -/
def GetTypeID (self : TypedExceptionHandler) : Nat := self.exception_type

/-- `TypedExceptionHandler::Handle`: rethrow; `catch (const ExceptionType &)`
takes an exception of that type or of a type derived from it (`derives`),
`catch (...)` takes the rest. -/
def Handle (derives : Nat → Nat → Bool) (self : TypedExceptionHandler)
    (exception_ptr : ExceptionPtr) : Directive :=
  if exception_ptr.type_id = self.exception_type
      || derives exception_ptr.type_id self.exception_type then
    self.success_directive_
  else
    self.default_directive_

end TypedExceptionHandler

/-- `OneForOneStrategy`: the entries of `exception_handlers_` in the order in
which the container iterates over them, and `default_directive_`. -/
structure OneForOneStrategy where
  exception_handlers_ : List (Nat × TypedExceptionHandler)
  default_directive_ : Directive
  deriving DecidableEq, Repr

namespace OneForOneStrategy

/-- A default-constructed strategy: no handler, `default_directive_{Directive::Escalate}`. -/
def new : OneForOneStrategy :=
  { exception_handlers_ := [], default_directive_ := .Escalate }

/-- `OneForOneStrategy::HandleException<ExceptionType>`: the statement
`exception_handlers_[handler->GetTypeID()] = std::move(handler);`.  A key
already present keeps its place and takes the new handler; a new key goes
where the container puts it, `slot` entries from the front (the standard
leaves the iteration order of `std::unordered_map` open). -/
def HandleException (self : OneForOneStrategy) (exception_type : Nat)
    (success_directive : Directive) (default_directive : Directive) (slot : Nat) :
    OneForOneStrategy :=
  let handler : TypedExceptionHandler :=
    { exception_type := exception_type, success_directive_ := success_directive,
      default_directive_ := default_directive }
  let key := handler.GetTypeID
  let entries :=
    if self.exception_handlers_.any (fun e => decide (e.1 = key)) then
      self.exception_handlers_.map (fun e => if e.1 = key then (key, handler) else e)
    else
      self.exception_handlers_.take slot ++ [(key, handler)]
        ++ self.exception_handlers_.drop slot
  { self with exception_handlers_ := entries }

/-- `OneForOneStrategy::SetDefaultDirective`. -/
def SetDefaultDirective (self : OneForOneStrategy) (default_directive : Directive) :
    OneForOneStrategy :=
  { self with default_directive_ := default_directive }

/-- `OneForOneStrategy::Decide`: the body of the range-for over the handlers is
a `return`, so the first handler in iteration order answers; the statement
after the loop is reached only when there is no handler. -/
def Decide (derives : Nat → Nat → Bool) (self : OneForOneStrategy)
    (failure : ActorFailureEvent) : Directive :=
  match self.exception_handlers_ with
  | (_, handler) :: _ => handler.Handle derives failure.cause
  | [] => self.default_directive_

end OneForOneStrategy

/-- The policy of the specification for `decide`: the first handler, in
iteration order, whose exception type the failure matches answers with its
success directive; if none applies the configured default of the strategy is
returned. -/
def specDecide (derives : Nat → Nat → Bool) (strategy : OneForOneStrategy)
    (failure : ActorFailureEvent) : Directive :=
  match strategy.exception_handlers_.find?
      (fun e => failure.cause.type_id = e.2.exception_type
        || derives failure.cause.type_id e.2.exception_type) with
  | some e => e.2.success_directive_
  | none => strategy.default_directive_

/-- No exception type derives from another one. -/
def noDerivation : Nat → Nat → Bool := fun _ _ => false

/-- A failure event of actor 7 whose cause has the given dynamic type. -/
def sampleFailure (type_id : Nat) : ActorFailureEvent :=
  { actor_id := 7, actor_name := "Vanya", cause := { type_id := type_id, what := "boom" },
    failed_message := .UserMessage 99 0 }

/-! ## The children of a context (`actor_ref.h`, `actor_context.h`, `actor_context.cpp`) -/

/-- An actor object on the heap: the serial number of its construction, which
tells it from every other object, and its members. -/
structure ActorObject (U : Type) where
  address : Nat
  actor : Actor U

/-- `Sptr<Actor>`: empty, or the object it shares. -/
abbrev Sptr (U : Type) := Option (ActorObject U)

/-- The members of `ActorRef`: the identifier, whether `system_facade_` was
given a system, and the object `cached_actor_` was built from, if any. -/
structure ActorRef where
  actor_id_ : ActorId
  system_facade_ : Bool
  cached_actor_ : Option Nat
  deriving DecidableEq, Repr

/-- `ActorRef::ActorRef(const Sptr<Actor> &actor, Wptr<ActorSystemFacade>)`: the
initialiser `actor_id_{actor->GetId()}` dereferences `actor`. -/
def ActorRef.ofActor {U : Type} (actor : Sptr U) (system_facade : Bool) :
    Except String ActorRef :=
  match actor with
  | none => .error "empty Sptr dereferenced"
  | some object =>
    .ok { actor_id_ := object.actor.GetId, system_facade_ := system_facade,
          cached_actor_ := some object.address }

/-- `SupervisionStrategy`: the virtual `Decide`. -/
structure SupervisionStrategy where
  Decide : ActorFailureEvent → Directive

/-- `OneForOneStrategy` as a `SupervisionStrategy`. -/
def OneForOneStrategy.toSupervisionStrategy (derives : Nat → Nat → Bool)
    (self : OneForOneStrategy) : SupervisionStrategy :=
  { Decide := self.Decide derives }

/-- The closure `factory` that `SpawnChild` builds: its captures `name`,
`actor_id = ActorIDGenerator::Generate()` (evaluated once, when the closure is
built) and the arguments, here the members `derived` that the constructor of
the actor type makes of them. -/
structure Factory (U : Type) where
  name : String
  actor_id : ActorId
  derived : U

/-- `ActorContext::ChildInfo`; an empty `std::function` is `none`. -/
structure ChildInfo (U : Type) where
  actor : Sptr U
  strategy : Option SupervisionStrategy
  factory : Option (Factory U)

/-- `std::unordered_map<ActorId, ChildInfo>`. -/
abbrev ChildMap (U : Type) := ActorId → Option (ChildInfo U)

/-- `children_.erase(key)`. -/
def ChildMap.erase {U : Type} (m : ChildMap U) (key : ActorId) : ChildMap U :=
  fun k => if k = key then none else m k

/-- `children_[key] = info`. -/
def ChildMap.assign {U : Type} (m : ChildMap U) (key : ActorId) (info : ChildInfo U) :
    ChildMap U :=
  fun k => if k = key then some info else m k

/-- What a context reads through `self_`, the reference to the actor that owns
it: `GetName()` and `GetId()`. -/
structure SelfView where
  name_ : String
  actor_id_ : ActorId
  deriving DecidableEq, Repr

/-- All data members of `ActorContext`: `parent_` (the part an actor reads),
`self_`, `children_`, and whether `system_facade_` was given a system. -/
structure ActorContextData (U : Type) extends ActorContext where
  self_ : SelfView
  children_ : ChildMap U
  system_facade_ : Bool

/-- What a context hands to other actors: `Receive` on the parent, `Receive` on
a child object, and `Tell` on the reference to the root registry with a
`RegisterActorMessage(actor_id, actor_ref)`. -/
inductive Delivery where
  | parentReceive (parent : ActorId) (message : BaseMessage)
  | childReceive (address : Nat) (message : BaseMessage)
  | registryTell (actor_id : ActorId) (actor_ref : ActorRef)
  deriving DecidableEq, Repr

/-- A context at work: its members, the number of actor objects constructed so
far (the next address), the counter of `ActorIDGenerator`, and what it has
handed out so far. -/
structure ContextExec (U : Type) where
  context : ActorContextData U
  allocated : Nat
  id_generator_ : Nat
  deliveries : List Delivery

/-- One more delivery. -/
def ContextExec.deliver {U : Type} (x : ContextExec U) (d : Delivery) : ContextExec U :=
  { x with deliveries := x.deliveries ++ [d] }

/-- How a member function of the context ends: it returns, or it stops at a
fault (an empty handle is dereferenced, or an empty `std::function` is called). -/
inductive ContextOutcome (U : Type) where
  | returned (x : ContextExec U)
  | fault (what : String) (x : ContextExec U)

/-- The context when the function ended. -/
def ContextOutcome.exec {U : Type} : ContextOutcome U → ContextExec U
  | .returned x => x
  | .fault _ x => x

/-- The fault the function stopped at, if any. -/
def ContextOutcome.what {U : Type} : ContextOutcome U → Option String
  | .returned _ => none
  | .fault what _ => some what

namespace ActorContext

variable {U : Type}

/-- `ActorContext::CreateActor`: construct the actor, give it a context whose
parent is the owner of this context, and return it; `address` is where the
object is placed. -/
def CreateActor (self : ActorContextData U) (name : String) (actor_id : ActorId)
    (derived : U) (address : Nat) : ActorObject U :=
  let actor := Actor.new name actor_id derived
  let context : ActorContext := { parent_ := some self.self_.actor_id_ }
  { address := address, actor := actor.SetContext context }

/-- A call of the stored closure: `CreateActor<ActorType>(name, actor_id, args...)`
with the captured values. -/
def callFactory (factory : Factory U) (x : ContextExec U) : ActorObject U × ContextExec U :=
  (CreateActor x.context factory.name factory.actor_id factory.derived x.allocated,
   { x with allocated := x.allocated + 1 })

/-- `ActorContext::SpawnChildImpl`.  In the last statement,
`children_[child->GetId()] = ChildInfo{.actor = std::move(child), ...}`, the
right operand of the assignment is evaluated first: the temporary takes over
`child`, which is empty when the left operand dereferences it. -/
def SpawnChildImpl (factory : Option (Factory U)) (strategy : Option SupervisionStrategy)
    (x : ContextExec U) : ContextOutcome U × Option ActorRef :=
  match factory with
  | none => (.fault "bad_function_call" x, none)
  | some f =>
    let made := callFactory f x
    let child : Sptr U := some made.1
    let x := made.2
    match ActorRef.ofActor child x.context.system_facade_ with
    | .error what => (.fault what x, none)
    | .ok ref =>
      let info : ChildInfo U := { actor := child, strategy := strategy, factory := some f }
      let child : Sptr U := none
      match child with
      | none => (.fault "empty Sptr dereferenced" x, none)
      | some object =>
        (.returned
          { x with context :=
              { x.context with
                children_ := x.context.children_.assign object.actor.GetId info } },
         some ref)

/-- `ActorContext::SpawnChild`: build the closure, generating the identifier
once, and hand it to `SpawnChildImpl`. -/
def SpawnChild (name : String) (supervision_strategy : Option SupervisionStrategy)
    (derived : U) (x : ContextExec U) : ContextOutcome U × Option ActorRef :=
  let generated := IDGenerator.Generate x.id_generator_
  let factory : Factory U := { name := name, actor_id := generated.1, derived := derived }
  SpawnChildImpl (some factory) supervision_strategy { x with id_generator_ := generated.2 }

/-- The closure `escalate_to_parent` of `HandleChildFailure`. -/
def escalate_to_parent (alive : ActorId → Bool) (failure_event : ActorFailureEvent)
    (x : ContextExec U) : ContextExec U :=
  match Wptr.lock alive x.context.parent_ with
  | some parent =>
    let escalation : ActorFailureEvent :=
      { actor_id := x.context.self_.actor_id_, actor_name := x.context.self_.name_,
        cause := failure_event.cause, failed_message := failure_event.toMessage }
    x.deliver (.parentReceive parent escalation.toMessage)
  | none => x

/-- `ActorContext::RestartChildActor(child_info)`, where `child_info` is the
entry of `children_` under `key`.  The strategy and the closure are moved out
of the entry, the entry under the identifier of the old child is erased, the
closure builds the new child, `info` is moved into the map, and the
registration then reads `info.actor`, which the move has left empty. -/
def RestartChildActor (facadeAlive : Bool) (key : ActorId) (child_info : ChildInfo U)
    (x : ContextExec U) : ContextOutcome U :=
  match child_info.actor with
  | none => .fault "empty Sptr dereferenced" x
  | some actor =>
    let x := x.deliver (.childReceive actor.address .GoTerminateActor)
    let old_strategy := child_info.strategy
    let old_factory := child_info.factory
    let x : ContextExec U :=
      { x with context :=
          { x.context with
            children_ := x.context.children_.assign key
              { actor := some actor, strategy := none, factory := none } } }
    let x : ContextExec U :=
      { x with context :=
          { x.context with children_ := x.context.children_.erase actor.actor.GetId } }
    match old_factory with
    | none => .fault "bad_function_call" x
    | some f =>
      let made := callFactory f x
      let x := made.2
      let info : ChildInfo U :=
        { actor := some made.1, strategy := old_strategy, factory := some f }
      let x : ContextExec U :=
        { x with context :=
            { x.context with
              children_ := x.context.children_.assign made.1.actor.GetId info } }
      let info : ChildInfo U := { actor := none, strategy := none, factory := none }
      if x.context.system_facade_ && facadeAlive then
        match info.actor with
        | none => .fault "empty Sptr dereferenced" x
        | some object =>
          match ActorRef.ofActor info.actor x.context.system_facade_ with
          | .error what => .fault what x
          | .ok ref => .returned (x.deliver (.registryTell object.actor.GetId ref))
      else
        .returned x

/-- `ActorContext::HandleChildFailure`. -/
def HandleChildFailure (alive : ActorId → Bool) (facadeAlive : Bool)
    (failure_event : ActorFailureEvent) (x : ContextExec U) : ContextOutcome U :=
  match x.context.children_ failure_event.actor_id with
  | none => .returned (escalate_to_parent alive failure_event x)
  | some info =>
    match info.strategy with
    | none => .returned (escalate_to_parent alive failure_event x)
    | some strategy =>
      match strategy.Decide failure_event with
      | .Resume =>
        match info.actor with
        | none => .fault "empty Sptr dereferenced" x
        | some actor => .returned (x.deliver (.childReceive actor.address .GoResumeActor))
      | .Restart => RestartChildActor facadeAlive failure_event.actor_id info x
      | .Stop =>
        match info.actor with
        | none => .fault "empty Sptr dereferenced" x
        | some actor => .returned (x.deliver (.childReceive actor.address .GoStopActor))
      | .Escalate => .returned (escalate_to_parent alive failure_event x)

end ActorContext

/-- How the code keys the child map.  Its two writers, `SpawnChildImpl` and
`RestartChildActor`, assign an entry under `GetId()` of the actor that the
closure of the entry has just built, and `CreateActor` gives that actor the
identifier captured in the closure: the actor of an entry has the identifier
the entry is stored under, and so has every actor its closure builds. -/
def ChildMap.keyed {U : Type} (m : ChildMap U) : Prop :=
  ∀ (k : ActorId) (info : ChildInfo U), m k = some info →
    (∀ child : ActorObject U, info.actor = some child → child.actor.GetId = k) ∧
    (∀ f : Factory U, info.factory = some f → f.actor_id = k)

/-! ## A worked supervision tree -/

/-- A strategy that restarts on exception type 1 and stops on every other one. -/
def sampleStrategy : SupervisionStrategy :=
  (OneForOneStrategy.new.HandleException 1 .Restart .Stop 0).toSupervisionStrategy noDerivation

/-- The closure of a child named worker with identifier 7. -/
def sampleFactory : Factory Nat := { name := "worker", actor_id := 7, derived := 0 }

/-- A context owned by actor 1, named boss, whose parent is actor 3 and whose
only child is the worker, built first (address 0) and meanwhile Running. -/
def sampleContext (system_facade : Bool) : ContextExec Nat :=
  { context :=
      { parent_ := some 3, self_ := { name_ := "boss", actor_id_ := 1 },
        children_ := fun k =>
          if k = 7 then
            some { actor := some { address := 0,
                                   actor := { name_ := "worker", actor_id_ := 7,
                                              context_ := some { parent_ := some 1 },
                                              state_ := .RunningState, derived := 5 } },
                   strategy := some sampleStrategy, factory := some sampleFactory }
          else none,
        system_facade_ := system_facade },
    allocated := 1, id_generator_ := 8, deliveries := [] }

/-- The context of the boss before it has any child, with the next identifier
of the generator at 7. -/
def sampleBoss (system_facade : Bool) : ContextExec Nat :=
  { context :=
      { parent_ := some 3, self_ := { name_ := "boss", actor_id_ := 1 },
        children_ := fun _ => none,
        system_facade_ := system_facade },
    allocated := 0, id_generator_ := 7, deliveries := [] }

/-- The closure of a child named helper with identifier 8. -/
def sampleHelperFactory : Factory Nat := { name := "helper", actor_id := 8, derived := 0 }

/-- The context of the boss with two children: the worker (identifier 7, at
address 0) and the helper (identifier 8, at address 1), both Running. -/
def sampleFamily (system_facade : Bool) : ContextExec Nat :=
  { context :=
      { parent_ := some 3, self_ := { name_ := "boss", actor_id_ := 1 },
        children_ := fun k =>
          if k = 7 then
            some { actor := some { address := 0,
                                   actor := { name_ := "worker", actor_id_ := 7,
                                              context_ := some { parent_ := some 1 },
                                              state_ := .RunningState, derived := 5 } },
                   strategy := some sampleStrategy, factory := some sampleFactory }
          else if k = 8 then
            some { actor := some { address := 1,
                                   actor := { name_ := "helper", actor_id_ := 8,
                                              context_ := some { parent_ := some 1 },
                                              state_ := .RunningState, derived := 2 } },
                   strategy := some sampleStrategy, factory := some sampleHelperFactory }
          else none,
        system_facade_ := system_facade },
    allocated := 2, id_generator_ := 9, deliveries := [] }

/-! ## Type identity and downcast (`types.h`, `message.h`) -/

/-- A message type as the compiler has it: which declaration it is, and the name
that `__PRETTY_FUNCTION__` prints for it.  Two declarations can print alike,
for instance two local classes of one name in two blocks of one function. -/
structure MessageVariant where
  declaration : Nat
  printed : String
  deriving DecidableEq, Repr

/-- The value of `__PRETTY_FUNCTION__` in `GetTypeHash<T>`, as GCC prints it: the
signature of the function, then the template argument by its printed name. -/
def GetTypeHash.func_name (T : MessageVariant) : String :=
  "constexpr std::size_t oxherdcpp::GetTypeHash() [with T = " ++ T.printed
    ++ "; std::size_t = long unsigned int]"

/-- `GetTypeHash<T>()`: `std::hash<std::string_view>` of `__PRETTY_FUNCTION__`,
which depends on `T` through its printed name only; `stdHash` is the hash
function of the standard library. -/
def GetTypeHash (stdHash : String → Nat) (T : MessageVariant) : Nat :=
  stdHash (GetTypeHash.func_name T)

/-- `Message<Derived>::GetClassTypeId`. -/
def Message.GetClassTypeId (stdHash : String → Nat) (Derived : MessageVariant) :
    MessageTypeID :=
  GetTypeHash stdHash Derived

/-- `MakeMessage<T>(args...)`: a new message of variant `T`; its `GetTypeId` is
the override in `Message<T>`, which returns `GetClassTypeId()`. -/
def MakeMessage (stdHash : String → Nat) (T : MessageVariant) (payload : Nat) : BaseMessage :=
  .UserMessage (Message.GetClassTypeId stdHash T) payload

/-- `BaseMessage::IsA<T>`: `GetTypeId() == GetTypeHash<T>()`, with `T` given by
its identifier. -/
def BaseMessage.IsA (th : TypeHash) (T : MessageTypeID) (self : BaseMessage) : Bool :=
  decide (self.GetTypeId th = T)

/-- A message object on the heap: where it is, and what it is. -/
structure MessageObject where
  address : Nat
  message : BaseMessage
  deriving DecidableEq, Repr

/-- `MPtr<T>`: null, or the message object it refers to. -/
abbrev MPtr := Option MessageObject

/-- `Cast<T>(msg)`: `msg` itself, seen as a `T`, when `msg && msg->IsA<NakedT>()`,
otherwise `nullptr`; `T` is given by its identifier. -/
def Cast (th : TypeHash) (T : MessageTypeID) (msg : MPtr) : MPtr :=
  match msg with
  | some object => if object.message.IsA th T then some object else none
  | none => none

/-! ## Message dispatcher (`message_dispatcher.h`, `message_dispatcher.cpp`) -/

/-- What a dispatcher works on: the state its handlers read and write, and the
record of the handlers invoked so far, each with the pointer it was given. -/
structure DispatchExec (S : Type) where
  state : S
  calls : List (Nat × MPtr)

/-- A handler given to `RegisterHandler<MessageType>`: a tag that tells it from
other handlers, and its body, which may leave by an exception. -/
structure UserHandler (S : Type) where
  tag : Nat
  body : MPtr → S → S × Option ExceptionPtr

/-- One invocation `handler(argument)`. -/
def UserHandler.invoke {S : Type} (handler : UserHandler S) (argument : MPtr)
    (x : DispatchExec S) : DispatchExec S × Option ExceptionPtr :=
  let result := handler.body argument x.state
  ({ state := result.1, calls := x.calls ++ [(handler.tag, argument)] }, result.2)

/-- `Handler<BaseMessage>`, the type of the closures stored in `handlers_`. -/
abbrev BaseHandler (S : Type) :=
  MessageObject → DispatchExec S → DispatchExec S × Option ExceptionPtr

/-- `MessageDispatcher`: the map `handlers_`. -/
structure MessageDispatcher (S : Type) where
  handlers_ : MessageTypeID → Option (BaseHandler S)

namespace MessageDispatcher

variable {S : Type}

/-- `MessageDispatcher() = default;` -/
def new : MessageDispatcher S := { handlers_ := fun _ => none }

/-- `MessageDispatcher::RegisterHandler<MessageType>`: store, under
`GetTypeHash<MessageType>()`, the closure that calls
`handler(Cast<MessageType>(message))`. -/
def RegisterHandler (th : TypeHash) (self : MessageDispatcher S) (MessageType : MessageTypeID)
    (handler : UserHandler S) : MessageDispatcher S :=
  let type_id := MessageType
  { handlers_ := fun k =>
      if k = type_id then
        some (fun message x => handler.invoke (Cast th MessageType (some message)) x)
      else self.handlers_ k }

/-- `MessageDispatcher::Dispatch`. -/
def Dispatch (th : TypeHash) (self : MessageDispatcher S) (message : MessageObject)
    (x : DispatchExec S) : DispatchExec S × Option ExceptionPtr :=
  match self.handlers_ (message.message.GetTypeId th) with
  | some found => found message x
  | none => (x, none)

end MessageDispatcher

/-- The handler registered for a type identifier after a series of calls of
`RegisterHandler`, in the words of the specification: the one given by the
latest registration for that identifier, if there is any. -/
def registeredFor {S : Type} :
    List (MessageTypeID × UserHandler S) → MessageTypeID → Option (UserHandler S)
  | [], _ => none
  | (key, handler) :: later, k =>
    match registeredFor later k with
    | some h => some h
    | none => if k = key then some handler else none

/-- A handler that counts in the state how often it ran. -/
def countingHandler (tag : Nat) : UserHandler Nat :=
  { tag := tag, body := fun _ n => (n + 1, none) }

/-! ## Registry (`actor_registry.h`, `actor_registry.cpp`) -/

/-- `std::function<void(ActorRef)>`: empty, or a closure, named by a tag. -/
abbrev Callback := Option Nat

/-- The two responses to `FindActorMessage`, with their data members. -/
inductive RegistryResponse where
  | ActorFoundResponseMessage (actor_ref : ActorRef)
  | ActorNotFoundResponseMessage (actor_id : ActorId)
  deriving DecidableEq, Repr

/-- What the registry does towards others: `Tell` on a reference with a
response, and a call of a callback with a reference. -/
inductive RegistryEffect where
  | tell (reply_to : ActorRef) (response : RegistryResponse)
  | callback (tag : Nat) (argument : ActorRef)
  deriving DecidableEq, Repr

/-- The four request variants of `actor_registry.h` as the registry meets them:
the value of `GetTypeHash` for each, the data members of a message object of
each (read from its payload), and what the closure with a given tag does when
it is called with a reference: it returns, or it throws. -/
structure RegistryMessages where
  RegisterActorMessage : MessageTypeID
  UnregisterActorMessage : MessageTypeID
  FindActorMessage : MessageTypeID
  FindActorWithCallbackMessage : MessageTypeID
  registerMembers : Nat → ActorId × ActorRef
  unregisterMembers : Nat → ActorId
  findMembers : Nat → ActorId × ActorRef
  findWithCallbackMembers : Nat → ActorId × Callback
  callbackThrows : Nat → ActorRef → Option ExceptionPtr

/-- The type identifiers of the four requests, in the order of registration. -/
def RegistryMessages.requests (rm : RegistryMessages) : List MessageTypeID :=
  [rm.RegisterActorMessage, rm.UnregisterActorMessage, rm.FindActorMessage,
   rm.FindActorWithCallbackMessage]

/-- The payload of a message of a variant declared outside `events.h`. -/
def BaseMessage.payload : BaseMessage → Nat
  | .UserMessage _ payload => payload
  | _ => 0

/-- The exception thrown by a call of an empty `std::function`. -/
def bad_function_call : ExceptionPtr := { type_id := 0, what := "bad_function_call" }

/-- The members that `ActorRegistry` adds to `Actor`: the map `actors_`, and
the record of what the registry has done towards others. -/
structure ActorRegistryMembers where
  actors_ : ActorId → Option ActorRef
  done : List RegistryEffect

namespace ActorRegistry

/-- `ActorRegistry::HandleRegisterActor`: `actors_.insert_or_assign(...)` (the
log line that follows is left out). -/
def HandleRegisterActor (rm : RegistryMessages) (message : MessageObject)
    (self : ActorRegistryMembers) : ActorRegistryMembers × Option ExceptionPtr :=
  let members := rm.registerMembers message.message.payload
  ({ self with actors_ := fun k => if k = members.1 then some members.2 else self.actors_ k },
   none)

/-- `ActorRegistry::HandleUnregisterActor`: `actors_.erase(message->actor_id)`. -/
def HandleUnregisterActor (rm : RegistryMessages) (message : MessageObject)
    (self : ActorRegistryMembers) : ActorRegistryMembers × Option ExceptionPtr :=
  let actor_id := rm.unregisterMembers message.message.payload
  ({ self with actors_ := fun k => if k = actor_id then none else self.actors_ k }, none)

/-- `ActorRegistry::HandleFindActor`. -/
def HandleFindActor (rm : RegistryMessages) (message : MessageObject)
    (self : ActorRegistryMembers) : ActorRegistryMembers × Option ExceptionPtr :=
  let members := rm.findMembers message.message.payload
  match self.actors_ members.1 with
  | some found =>
    ({ self with done := self.done ++
        [RegistryEffect.tell members.2 (.ActorFoundResponseMessage found)] }, none)
  | none =>
    ({ self with done := self.done ++
        [RegistryEffect.tell members.2 (.ActorNotFoundResponseMessage members.1)] }, none)

/-- `ActorRegistry::HandleFindActorWithCallback`: the call of `message->callback`
throws `std::bad_function_call` when the function is empty, and otherwise
whatever the closure throws. -/
def HandleFindActorWithCallback (rm : RegistryMessages) (message : MessageObject)
    (self : ActorRegistryMembers) : ActorRegistryMembers × Option ExceptionPtr :=
  let members := rm.findWithCallbackMembers message.message.payload
  match self.actors_ members.1 with
  | some found =>
    match members.2 with
    | none => (self, some bad_function_call)
    | some tag =>
      ({ self with done := self.done ++ [RegistryEffect.callback tag found] },
       rm.callbackThrows tag found)
  | none => (self, none)

/-- The closure `[this](const auto &msg) { Handle...(msg); }` given to
`RegisterHandler`.  The pointer it gets is never null: `RegisterHandler`
narrows a message found under its own type identifier. -/
def handler (tag : Nat)
    (handle : MessageObject → ActorRegistryMembers → ActorRegistryMembers × Option ExceptionPtr) :
    UserHandler ActorRegistryMembers :=
  { tag := tag,
    body := fun msg self =>
      match msg with
      | some object => handle object self
      | none => (self, none) }

/-- The dispatcher as the constructor of `ActorRegistry` leaves it: the four
handlers, registered in this order. -/
def dispatcher (th : TypeHash) (rm : RegistryMessages) : MessageDispatcher ActorRegistryMembers :=
  let d : MessageDispatcher ActorRegistryMembers := MessageDispatcher.new
  let d := d.RegisterHandler th rm.RegisterActorMessage (handler 1 (HandleRegisterActor rm))
  let d := d.RegisterHandler th rm.UnregisterActorMessage (handler 2 (HandleUnregisterActor rm))
  let d := d.RegisterHandler th rm.FindActorMessage (handler 3 (HandleFindActor rm))
  let d := d.RegisterHandler th rm.FindActorWithCallbackMessage
    (handler 4 (HandleFindActorWithCallback rm))
  d

/-- `ActorRegistry::Behaviour`: `GetMessageDispatcher().Dispatch(message)`. -/
def Behaviour (th : TypeHash) (rm : RegistryMessages) (message : BaseMessage)
    (self : Actor ActorRegistryMembers) : ActorRegistryMembers × Option ExceptionPtr :=
  let result := (dispatcher th rm).Dispatch th { address := 0, message := message }
    { state := self.derived, calls := [] }
  (result.1.state, result.2)

/-- `ActorRegistry::OnStop` and `ActorRegistry::OnTerminate`: `actors_.clear()`. -/
def clear (self : ActorRegistryMembers) : ActorRegistryMembers :=
  { self with actors_ := fun _ => none }

/-- The registry as a derived class of `Actor`: `OnStop` and `OnTerminate` are
overridden, the other hooks are the empty ones of `Actor`. -/
def code (th : TypeHash) (rm : RegistryMessages) : UserCode ActorRegistryMembers :=
  { hooks := fun h self =>
      match h with
      | .OnStop => clear self.derived
      | .OnTerminate => clear self.derived
      | _ => self.derived,
    Behaviour := Behaviour th rm }

/-- The members of a newly constructed registry: `actors_{}`. -/
def members : ActorRegistryMembers := { actors_ := fun _ => none, done := [] }

end ActorRegistry

/-- What a request message says about an identifier: a registration names its
reference, an unregistration names none; other messages say nothing. -/
def wordOf (th : TypeHash) (rm : RegistryMessages) (m : BaseMessage) (id : ActorId) :
    Option (Option ActorRef) :=
  if m.GetTypeId th = rm.RegisterActorMessage ∧ (rm.registerMembers m.payload).1 = id then
    some (some (rm.registerMembers m.payload).2)
  else if m.GetTypeId th = rm.UnregisterActorMessage ∧ rm.unregisterMembers m.payload = id then
    some none
  else none

/-- The latest word of a history of request messages about an identifier. -/
def lastSaid (th : TypeHash) (rm : RegistryMessages) :
    List BaseMessage → ActorId → Option (Option ActorRef)
  | [], _ => none
  | m :: later, id =>
    match lastSaid th rm later id with
    | some word => some word
    | none => wordOf th rm m id

/-- The reference most recently registered for an identifier, if it has been
registered and not unregistered since, in the words of the specification. -/
def mostRecentlyRegistered (th : TypeHash) (rm : RegistryMessages) (history : List BaseMessage)
    (id : ActorId) : Option ActorRef :=
  match lastSaid th rm history id with
  | some (some actor_ref) => some actor_ref
  | _ => none

/-- The response the specification asks of `Find`: found with the mapped
reference, or not found with the identifier. -/
def findResponse (mapped : Option ActorRef) (id : ActorId) : RegistryResponse :=
  match mapped with
  | some actor_ref => .ActorFoundResponseMessage actor_ref
  | none => .ActorNotFoundResponseMessage id

/-! ## A worked registry -/

/-- A reference to the actor with the given identifier, built from its object. -/
def sampleRef (id : ActorId) : ActorRef :=
  { actor_id_ := id, system_facade_ := true, cached_actor_ := some id }

/-- Request variants with the identifiers 31 to 34.  A payload `p` is read as a
request about identifier `p % 100`, registering or answering to the reference
of actor `p / 100`; the callback of a `FindActorWithCallbackMessage` is empty
when `p < 100` and the closure `p / 100` otherwise; closures return. -/
def sampleRegistryMessages : RegistryMessages :=
  { RegisterActorMessage := 31, UnregisterActorMessage := 32, FindActorMessage := 33,
    FindActorWithCallbackMessage := 34,
    registerMembers := fun p => (p % 100, sampleRef (p / 100)),
    unregisterMembers := fun p => p % 100,
    findMembers := fun p => (p % 100, sampleRef (p / 100)),
    findWithCallbackMembers := fun p => (p % 100, if p < 100 then none else some (p / 100)),
    callbackThrows := fun _ _ => none }

/-- The root registry as `ActorSystem::InitServices` creates it. -/
def sampleRegistry : Exec ActorRegistryMembers :=
  { actor := (ActorSystem.CreateActor "system/actor-registry" ActorRegistry.members 0).1,
    trace := [] }

/-- The root registry once it has processed the `GoStartActor` that
`InitServices` sends it. -/
def sampleRunningRegistry : Exec ActorRegistryMembers :=
  (ProcessMessage sampleHash (ActorRegistry.code sampleHash sampleRegistryMessages) allAlive
    .GoStartActor sampleRegistry).exec

/-! ## Series of identifiers -/

/-- `inline static std::atomic<std::size_t> id_generator_{0};` -/
def IDGenerator.initial : Nat := 0

/-- A number of successive calls of `Generate`, from the given counter: the
values returned, in order, and the counter afterwards. -/
def IDGenerator.GenerateMany : Nat → Nat → List Nat × Nat
  | 0, id_generator_ => ([], id_generator_)
  | count + 1, id_generator_ =>
    let first := IDGenerator.Generate id_generator_
    let rest := IDGenerator.GenerateMany count first.2
    (first.1 :: rest.1, rest.2)

/-- Successive calls of `ActorSystem::CreateActor`, one for each name and
derived part: the actors, in order, and the counter afterwards. -/
def ActorSystem.CreateActors {U : Type} : List (String × U) → Nat → List (Actor U) × Nat
  | [], id_generator_ => ([], id_generator_)
  | (name, derived) :: later, id_generator_ =>
    let first := ActorSystem.CreateActor name derived id_generator_
    let rest := ActorSystem.CreateActors later first.2
    (first.1 :: rest.1, rest.2)

/-- The running root registry with one entry: 7 is mapped to the reference of 9. -/
def samplePopulatedRegistry : Exec ActorRegistryMembers :=
  (ProcessMessage sampleHash (ActorRegistry.code sampleHash sampleRegistryMessages) allAlive
    (.UserMessage sampleRegistryMessages.RegisterActorMessage 907) sampleRunningRegistry).exec

/-! ## The general machine (`simple_finite_state_machine.h`) and the machine of its tests -/

namespace GeneralFiniteStateMachine

/-- The default constructor: the base `std::variant<States...>` is
default-constructed and holds its first alternative; `States` lists the
alternatives in the order of the template arguments. -/
def new {S : Type} (States : List S) : Option S := States.head?

/-- `GeneralFiniteStateMachine::Dispatch`: visit the current state with
`Derived::On`, and assign the result when there is one. -/
def Dispatch {S E : Type} (On : S → E → Option S) (self : S) (event : E) : S :=
  match On self event with
  | some result => result
  | none => self

/-- `GeneralFiniteStateMachine::HasCurrentState<U>`. -/
def HasCurrentState {S : Type} [DecidableEq S] (self : S) (u : S) : Bool :=
  decide (self = u)

end GeneralFiniteStateMachine

namespace testing

/-- The states `A`, `B`, `C`, `D` of `finite_state_machine_tests.cpp`. -/
inductive MachineState where
  | A
  | B
  | C
  | D
  deriving DecidableEq, Repr

/-- The events of `finite_state_machine_tests.cpp`. -/
inductive MachineEvent where
  | ABEvent
  | ADEvent
  | BCEvent
  | CAEvent
  | DCEvent
  deriving DecidableEq, Repr

/-- The template arguments of `GeneralFiniteStateMachine<StateMachine, A, B, C, D>`. -/
def StateMachine.States : List MachineState := [.A, .B, .C, .D]

/-- The overloads of `StateMachine::On`: five for a pair of its own, and the
template for every other pair, which returns `std::nullopt`. -/
def StateMachine.On : MachineState → MachineEvent → Option MachineState
  | .A, .ABEvent => some .B
  | .A, .ADEvent => some .D
  | .B, .BCEvent => some .C
  | .C, .CAEvent => some .A
  | .D, .DCEvent => some .C
  | _, _ => none

/-- The five edges of the drawing at the head of the test file. -/
def StateMachine.edges : List (MachineState × MachineEvent × MachineState) :=
  [(.A, .ABEvent, .B), (.A, .ADEvent, .D), (.B, .BCEvent, .C), (.C, .CAEvent, .A),
   (.D, .DCEvent, .C)]

end testing

/-! ## The context as its constructor makes it (`actor_context.cpp`) -/

/-- `ActorContext::ActorContext(executor, parent, self, facade)`: the member
initialisers `parent_{parent}` (the weak handle made of the `Sptr`),
`self_{self}` and `system_facade_{facade}`; `children_` is empty. -/
def ActorContext.new {U : Type} (parent : Sptr U) (self : Actor U) (facade : Bool) :
    ActorContextData U :=
  { parent_ := parent.map (fun object => object.actor.GetId),
    self_ := { name_ := self.GetName, actor_id_ := self.GetId },
    children_ := fun _ => none,
    system_facade_ := facade }

/-- `ActorContext::GetSelf`: `return self_;`. -/
def ActorContext.GetSelf {U : Type} (self : ActorContextData U) : SelfView := self.self_

/-! ## The strand of an actor (`Actor::Receive` in `actor.cpp`) -/

/-- The strand of an actor: the actor with its record, and the messages of the
completion tokens that were posted to the strand and have not run yet, oldest
first. -/
structure Strand (U : Type) where
  exec : Exec U
  posted : List BaseMessage

/-- `Actor::Receive`: `boost::asio::post(strand_, completion_token)` with the
message captured in the token.  A post that succeeds puts the token behind
those posted before it; a post that fails ends the process in
`std::terminate`. -/
def Actor.Receive {U : Type} (message : BaseMessage) (s : Strand U) : Strand U :=
  { s with posted := s.posted ++ [message] }

/-- The messages of a list handed to `Receive` one after another. -/
def Actor.ReceiveEach {U : Type} (messages : List BaseMessage) (s : Strand U) : Strand U :=
  messages.foldl (fun strand message => Actor.Receive message strand) s

/-- The completion token of `Receive`: `weak_self.lock()`, a return when the
actor has no owner left, and `ProcessMessage(message)` otherwise. -/
def completion_token {U : Type} (th : TypeHash) (uc : UserCode U) (alive : ActorId → Bool)
    (owned : Bool) (message : BaseMessage) (x : Exec U) : Outcome U :=
  if owned then ProcessMessage th uc alive message x else .returned x

/-- The strand at work on the tokens of a list: one at a time, in the order of
the list, until none is left or an exception ends the process. -/
def Strand.runTokens {U : Type} (th : TypeHash) (uc : UserCode U) (alive : ActorId → Bool)
    (owned : Bool) : List BaseMessage → Exec U → Outcome U
  | [], x => .returned x
  | message :: rest, x =>
    match completion_token th uc alive owned message x with
    | .returned y => Strand.runTokens th uc alive owned rest y
    | .threw what y => .threw what y

/-- The strand runs all the tokens posted to it, oldest first. -/
def Strand.run {U : Type} (th : TypeHash) (uc : UserCode U) (alive : ActorId → Bool)
    (owned : Bool) (s : Strand U) : Outcome U :=
  Strand.runTokens th uc alive owned s.posted s.exec

/-- `SeqActor` of the test `StrandProcessesMessagesSequentiallyInMultithreadedScenario`:
`Behaviour` appends the value of a `SeqMessage` to the member `received` and
passes over every other message; the hooks are the empty ones of `Actor`. -/
def testing.SeqActor (th : TypeHash) (SeqMessage : MessageTypeID) : UserCode (List Nat) :=
  { hooks := fun _ self => self.derived,
    Behaviour := fun message self =>
      if message.IsA th SeqMessage then (self.derived ++ [message.payload], none)
      else (self.derived, none) }

/-- A `SeqActor` named Vanya that is Running and has received nothing. -/
def sampleSeqActor : Exec (List Nat) :=
  { actor := { name_ := "Vanya", actor_id_ := 7, context_ := none, state_ := .RunningState,
               derived := [] },
    trace := [] }

/-! ## Telling through a reference (`actor_ref.cpp`, `actor_system.cpp`) -/

/-- A message as `ActorRef::Tell` hands it on: a message made elsewhere, or the
`FindActorWithCallbackMessage` that `Tell` makes, with its `actor_id` and the
captures `[this, msg]` of its callback: the reference `this` points to and the
message. -/
inductive Told where
  | message (m : BaseMessage)
  | FindActorWithCallbackMessage (actor_id : ActorId) (self : ActorRef) (msg : Told)
  deriving DecidableEq, Repr

/-- A call of `Receive` on the actor object at an address, with its argument. -/
structure Received where
  address : Nat
  message : Told
  deriving DecidableEq, Repr

/-- What `Tell` finds around it: which actor objects still have an owner, and,
while the system behind `system_facade_` is alive, the reference that its
`GetActorRegistry()` returns. -/
structure TellEnv where
  owned : Nat → Bool
  facade : Option ActorRef

/-- `ActorSystem::GetActorRegistry`: `ActorRef{actor_registry_, weak_from_this()}`. -/
def ActorSystem.GetActorRegistry {U : Type} (actor_registry_ : Sptr U) : Except String ActorRef :=
  ActorRef.ofActor actor_registry_ true

namespace ActorRef

/-- `cached_actor_.lock()`. -/
def lockCached (env : TellEnv) (self : ActorRef) : Option Nat :=
  match self.cached_actor_ with
  | some address => if env.owned address then some address else none
  | none => none

/-- `system_facade_.lock()`, as the reference `GetActorRegistry()` of the
system returns when the lock succeeds. -/
def lockFacade (env : TellEnv) (self : ActorRef) : Option ActorRef :=
  if self.system_facade_ then env.facade else none

/-- `ActorRef::Tell`: the calls of `Receive` it makes.  `Tell` calls itself on
the reference to the registry; the first argument bounds the depth of these
calls, and the result is `none` when the bound is reached. -/
def Tell (env : TellEnv) : Nat → ActorRef → Told → Option (List Received)
  | 0, _, _ => none
  | depth + 1, self, message =>
    match lockCached env self with
    | some actor => some [{ address := actor, message := message }]
    | none =>
      match lockFacade env self with
      | some registry =>
        Tell env depth registry (.FindActorWithCallbackMessage self.actor_id_ self message)
      | none => some []

/-- The closure `cb` of `Tell`, called with a reference:
`ref.Tell(msg); cached_actor_ = ref.cached_actor_;`.  The result is the calls
of `Receive` made and the reference `this` points to afterwards. -/
def callback (env : TellEnv) (depth : Nat) (self : ActorRef) (msg : Told) (ref : ActorRef) :
    Option (List Received × ActorRef) :=
  match Tell env depth ref msg with
  | some calls => some (calls, { self with cached_actor_ := ref.cached_actor_ })
  | none => none

end ActorRef

/-- A live system whose registry is the actor 0 at address 50; the actor
objects at 50 and 60 have owners, no other has. -/
def sampleTellEnv : TellEnv :=
  { owned := fun address => address = 50 ∨ address = 60,
    facade := some { actor_id_ := 0, system_facade_ := true, cached_actor_ := some 50 } }

/-! ## Message pools (`object_pool.h`, `object_pool.cpp`, `message.h`) -/

/-- `PoolStats`: four counters of type `std::atomic<std::size_t>`. -/
structure PoolStats where
  allocations : Nat
  deallocations : Nat
  bytes_allocated : Nat
  bytes_deallocated : Nat
  deriving DecidableEq, Repr

/-- `MonitoredPoolResource::do_allocate`: after the allocation by the base
class, `allocations.fetch_add(1)` and `bytes_allocated.fetch_add(bytes)`, in the
arithmetic of `std::size_t`. -/
def MonitoredPoolResource.do_allocate (stats_ : PoolStats) (bytes : Nat) : PoolStats :=
  { stats_ with
    allocations := (stats_.allocations + 1) % 2 ^ 64,
    bytes_allocated := (stats_.bytes_allocated + bytes) % 2 ^ 64 }

/-- `MonitoredPoolResource::do_deallocate`: after the deallocation by the base
class, `deallocations.fetch_add(1)` and `bytes_deallocated.fetch_add(bytes)`. -/
def MonitoredPoolResource.do_deallocate (stats_ : PoolStats) (bytes : Nat) : PoolStats :=
  { stats_ with
    deallocations := (stats_.deallocations + 1) % 2 ^ 64,
    bytes_deallocated := (stats_.bytes_deallocated + bytes) % 2 ^ 64 }

/-- `Message<Derived>::operator new(size)`: the global `operator new` when
`size` is not `sizeof(Derived)`, and `pool_.allocate(size, alignof(Derived))`,
which calls `do_allocate(size, ...)`, otherwise. -/
def Message.operator_new (sizeofDerived : Nat) (size : Nat) (pool_ : PoolStats) : PoolStats :=
  if size ≠ sizeofDerived then pool_
  else MonitoredPoolResource.do_allocate pool_ size

/-- `Message<Derived>::operator delete(void *ptr)`, the form a delete
expression selects in a class that declares both forms: nothing for a null
pointer, `pool_.deallocate(ptr, sizeof(Derived), alignof(Derived))` otherwise. -/
def Message.operator_delete (sizeofDerived : Nat) (ptr : Option Nat) (pool_ : PoolStats) :
    PoolStats :=
  match ptr with
  | none => pool_
  | some _ => MonitoredPoolResource.do_deallocate pool_ sizeofDerived

/-- `Message<Derived>::operator delete(void *ptr, std::size_t size)`. -/
def Message.operator_delete_sized (sizeofDerived : Nat) (ptr : Option Nat) (size : Nat)
    (pool_ : PoolStats) : PoolStats :=
  match ptr with
  | none => pool_
  | some _ =>
    if size ≠ sizeofDerived then pool_
    else MonitoredPoolResource.do_deallocate pool_ size

/-- A message object that has not been deleted: its address, its variant, the
counter of `boost::intrusive_ref_counter`, which counts the `MPtr`s that
refer to the object, and the objects that the `MPtr`s among its own data
members refer to (`failed_message` of an `ActorFailureEvent`, the message
captured by the callback of a `FindActorWithCallbackMessage`). -/
structure LiveMessage where
  address : Nat
  variant : MessageVariant
  use_count : Nat
  members : List Nat
  deriving DecidableEq, Repr

/-- `intrusive_ptr_add_ref` on the object at an address, which the copy of an
`MPtr` calls: the counter of that object goes up by one. -/
def intrusive_ptr_add_ref (address : Nat) : List LiveMessage → List LiveMessage
  | [] => []
  | object :: rest =>
    if object.address = address then
      { object with use_count := object.use_count + 1 } :: rest
    else object :: intrusive_ptr_add_ref address rest

/-- `intrusive_ptr_release` on the object at an address, which the destructor
and `reset` of an `MPtr` call: the counter goes down by one, and the object is
deleted when it has reached 0.  The result is the objects left and the object
deleted, if one was. -/
def intrusive_ptr_release (address : Nat) :
    List LiveMessage → List LiveMessage × Option LiveMessage
  | [] => ([], none)
  | object :: rest =>
    if object.address = address then
      if object.use_count - 1 = 0 then (rest, some object)
      else ({ object with use_count := object.use_count - 1 } :: rest, none)
    else
      let released := intrusive_ptr_release address rest
      (object :: released.1, released.2)

/-- The `MPtr`s among the members of the object at an address, changed. -/
def updateMembers (address : Nat) (change : List Nat → List Nat) :
    List LiveMessage → List LiveMessage
  | [] => []
  | object :: rest =>
    if object.address = address then { object with members := change object.members } :: rest
    else object :: updateMembers address change rest

/-- A bound on the calls of `intrusive_ptr_release` that a list of releases can
bring about: the releases themselves, and one for every `MPtr` that a live
object holds among its members. -/
def releaseBound (pending : List Nat) (objects : List LiveMessage) : Nat :=
  pending.length + (objects.map (fun object => object.members.length)).sum

/-- A list of calls of `intrusive_ptr_release`, with all they bring about: a
deleted object is destroyed, and its destructor releases the `MPtr`s among its
members, which can delete further objects.  The result is the objects left and
the objects deleted.  The counters of the pools move by additions, so the
order of the deletions within one chain does not show in them.  The first
argument bounds the number of calls. -/
def releaseAll : Nat → List Nat → List LiveMessage → List LiveMessage × List LiveMessage
  | 0, _, objects => (objects, [])
  | _ + 1, [], objects => (objects, [])
  | calls + 1, address :: pending, objects =>
    let released := intrusive_ptr_release address objects
    match released.2 with
    | some object =>
      let rest := releaseAll calls (object.members ++ pending) released.1
      (rest.1, object :: rest.2)
    | none => releaseAll calls pending released.1

/-- The statistics of the pools after `operator delete` for each of a list of
deleted objects, each in the pool of its own variant. -/
def deallocateEach (sizeof : MessageVariant → Nat) (deleted : List LiveMessage)
    (pool_ : MessageVariant → PoolStats) : MessageVariant → PoolStats :=
  deleted.foldl
    (fun pool object => fun V =>
      if V = object.variant then
        Message.operator_delete (sizeof object.variant) (some object.address) (pool V)
      else pool V)
    pool_

/-- The messages of a program: the statistics of `Message<Derived>::pool_` for
each variant, the message objects not yet deleted, and the number of message
objects constructed so far, which serves as the next address. -/
structure MessageMemory where
  pool_ : MessageVariant → PoolStats
  live : List LiveMessage
  constructed : Nat

namespace MessageMemory

/-- The object at an address, if it has not been deleted. -/
def find (mem : MessageMemory) (address : Nat) : Option LiveMessage :=
  mem.live.find? (fun object => decide (object.address = address))

/-- `MakeMessage<T>(args...)`, which is `MPtr<T>(new T(args...))`:
`operator new(sizeof(T))` of `Message<T>`, the constructor, which leaves the
`MPtr`s among the members empty, and the `MPtr`, which takes the counter from
0 to 1.  The result is the memory afterwards and the address of the new
object. -/
def MakeMessage (sizeof : MessageVariant → Nat) (T : MessageVariant) (mem : MessageMemory) :
    MessageMemory × Nat :=
  ({ pool_ := fun V =>
       if V = T then Message.operator_new (sizeof T) (sizeof T) (mem.pool_ V) else mem.pool_ V,
     live := mem.live ++
       [{ address := mem.constructed, variant := T, use_count := 1, members := [] }],
     constructed := mem.constructed + 1 },
   mem.constructed)

/-- One more `MPtr` to an object: a copy of one that refers to it. -/
def copy (address : Nat) (mem : MessageMemory) : MessageMemory :=
  { mem with live := intrusive_ptr_add_ref address mem.live }

/-- An empty `MPtr` among the members of a live object is assigned a copy of an
`MPtr` to another object, as in `failure_event->failed_message = message`. -/
def assign (holder : Nat) (member : Nat) (mem : MessageMemory) : MessageMemory :=
  match mem.find holder with
  | some _ =>
    { mem with
      live := intrusive_ptr_add_ref member
        (updateMembers holder (fun members => member :: members) mem.live) }
  | none => mem

/-- The calls of `intrusive_ptr_release` of a list, with all they bring about:
every deleted object is destroyed and `operator delete` of its variant returns
its storage to the pool of that variant. -/
def release (sizeof : MessageVariant → Nat) (pending : List Nat) (mem : MessageMemory) :
    MessageMemory :=
  let released := releaseAll (releaseBound pending mem.live) pending mem.live
  { mem with
    pool_ := deallocateEach sizeof released.2 mem.pool_,
    live := released.1 }

/-- The objects that the end of one `MPtr` to the object at an address deletes:
none when other `MPtr`s to it remain, else the object and whatever the
destructors release in turn. -/
def deleted (address : Nat) (mem : MessageMemory) : List LiveMessage :=
  (releaseAll (releaseBound [address] mem.live) [address] mem.live).2

/-- One `MPtr` fewer to an object; when it was the last one the object is
deleted: its destructor runs, which releases the `MPtr`s among its members,
and `operator delete` of its variant returns the storage to the pool of that
variant. -/
def drop (sizeof : MessageVariant → Nat) (address : Nat) (mem : MessageMemory) :
    MessageMemory :=
  mem.release sizeof [address]

/-- An `MPtr` among the members of a live object is reset. -/
def reset (sizeof : MessageVariant → Nat) (holder : Nat) (member : Nat)
    (mem : MessageMemory) : MessageMemory :=
  match mem.find holder with
  | some object =>
    if member ∈ object.members then
      MessageMemory.release sizeof [member]
        { mem with
          live := updateMembers holder (fun members => members.erase member) mem.live }
    else mem
  | none => mem

end MessageMemory

/-- What a program does with messages: it creates one, copies a reference,
drops a reference, assigns a reference to a member of a message, or resets
such a member. -/
inductive MemoryOp where
  | make (T : MessageVariant)
  | copy (address : Nat)
  | drop (address : Nat)
  | assign (holder : Nat) (member : Nat)
  | reset (holder : Nat) (member : Nat)
  deriving DecidableEq, Repr

/-- One operation on the memory. -/
def MessageMemory.step (sizeof : MessageVariant → Nat) (mem : MessageMemory) :
    MemoryOp → MessageMemory
  | .make T => (mem.MakeMessage sizeof T).1
  | .copy address => mem.copy address
  | .drop address => mem.drop sizeof address
  | .assign holder member => mem.assign holder member
  | .reset holder member => mem.reset sizeof holder member

/-- A sequence of operations, one after the other. -/
def MessageMemory.run (sizeof : MessageVariant → Nat) (ops : List MemoryOp)
    (mem : MessageMemory) : MessageMemory :=
  ops.foldl (MessageMemory.step sizeof) mem

/-- The number of message objects of a variant that have not been deleted. -/
def MessageMemory.alive (V : MessageVariant) (mem : MessageMemory) : Nat :=
  mem.live.countP (fun object => decide (object.variant = V))

/-- The number of live references to messages of a variant. -/
def MessageMemory.references (V : MessageVariant) (mem : MessageMemory) : Nat :=
  ((mem.live.filter (fun object => decide (object.variant = V))).map
    (fun object => object.use_count)).sum

/-- The variant `SimpleTestMessage` of the tests. -/
def testing.SimpleTestMessage : MessageVariant :=
  { declaration := 1, printed := "testing::SimpleTestMessage" }

/-- The variant `LargeMessage` of the tests. -/
def testing.LargeMessage : MessageVariant :=
  { declaration := 4, printed := "testing::LargeMessage" }

/-- Sizes for the variants of the tests: 4112 bytes for `LargeMessage`, 16 for
the others (a virtual table pointer and the counter). -/
def testing.sizeof (V : MessageVariant) : Nat :=
  if V = testing.LargeMessage then 4112 else 16

/-- The memory of a program that has made no message yet. -/
def MessageMemory.fresh : MessageMemory :=
  { pool_ := fun _ =>
      { allocations := 0, deallocations := 0, bytes_allocated := 0, bytes_deallocated := 0 },
    live := [], constructed := 0 }

/-- The memory inside the block of the test `PoolDeallocatesOnZeroRefCount`: the
sentinel at address 0, the message at address 1, and `another_ref`, a second
reference to the message. -/
def samplePoolMemory : MessageMemory :=
  MessageMemory.run testing.sizeof
    [.make testing.SimpleTestMessage, .make testing.SimpleTestMessage, .copy 1]
    MessageMemory.fresh

/-- The variant `ActorFailureEvent` of `events.h`. -/
def events.ActorFailureEvent : MessageVariant :=
  { declaration := 6, printed := "ActorFailureEvent" }

/-- Sizes with 72 bytes for `ActorFailureEvent` (identifier, name, cause and
`failed_message` after the members of the base) and the sizes of the tests for
the other variants. -/
def events.sizeof (V : MessageVariant) : Nat :=
  if V = events.ActorFailureEvent then 72 else testing.sizeof V

/-- The memory after the `catch` block of `HandleUserMessage` and the end of the
completion token: the message that `Behaviour` threw on (address 0) is held by
`failed_message` of the failure event alone, and the failure event (address 1)
by the one `MPtr` its receiver has. -/
def sampleFailureMemory : MessageMemory :=
  MessageMemory.run events.sizeof
    [.make testing.SimpleTestMessage, .make events.ActorFailureEvent, .assign 1 0, .drop 0]
    MessageMemory.fresh

/-- The memory after an escalation: the failure event of the child (address 1)
is held by `failed_message` of the escalation (address 2) alone, and the
message the child failed on (address 0) by the failure event of the child. -/
def sampleEscalationMemory : MessageMemory :=
  MessageMemory.run events.sizeof
    [.make events.ActorFailureEvent, .assign 2 1, .drop 1]
    sampleFailureMemory

/-- The counters of a variant are in step with its live objects: `deallocations`
and `bytes_deallocated` are values of `std::size_t`, `allocations` is ahead of
`deallocations` by the number of live objects and `bytes_allocated` ahead of
`bytes_deallocated` by their bytes, in the arithmetic of `std::size_t`, and
every live object is referred to. -/
def MessageMemory.inStep (sizeof : MessageVariant → Nat) (V : MessageVariant)
    (mem : MessageMemory) : Prop :=
  (mem.pool_ V).deallocations < 2 ^ 64 ∧
  (mem.pool_ V).bytes_deallocated < 2 ^ 64 ∧
  (mem.pool_ V).allocations = ((mem.pool_ V).deallocations + mem.alive V) % 2 ^ 64 ∧
  (mem.pool_ V).bytes_allocated
    = ((mem.pool_ V).bytes_deallocated + mem.alive V * sizeof V) % 2 ^ 64 ∧
  ∀ object ∈ mem.live, 1 ≤ object.use_count

/-! ## The hash of the standard library (`std::hash<std::string_view>` of libstdc++) -/

namespace libstdcxx

/-- The multiplier of `_Hash_bytes` for a 64-bit `size_t`. -/
def mul : Nat := 0xc6a4a7935bd1e995

/-- `shift_mix(v)`: `v ^ (v >> 47)`. -/
def shift_mix (v : Nat) : Nat := v ^^^ (v >>> 47)

/-- `unaligned_load` and `load_bytes`: the bytes read as one number, the first
byte lowest. -/
def load_bytes : List Nat → Nat
  | [] => 0
  | byte :: rest => byte + 256 * load_bytes rest

/-- The loop of `_Hash_bytes` over the blocks of eight bytes, and after the last
block the step for the bytes that are left, if any. -/
def loop : Nat → List Nat → Nat → Nat
  | 0, tail, hash =>
    if tail.isEmpty then hash else ((hash ^^^ load_bytes tail) * mul) % 2 ^ 64
  | blocks + 1, bytes, hash =>
    let data := (shift_mix ((load_bytes (bytes.take 8) * mul) % 2 ^ 64) * mul) % 2 ^ 64
    loop blocks (bytes.drop 8) (((hash ^^^ data) * mul) % 2 ^ 64)

/-- `std::_Hash_bytes(ptr, len, seed)` for a 64-bit `size_t`. -/
def Hash_bytes (bytes : List Nat) (seed : Nat) : Nat :=
  let hash := seed ^^^ ((bytes.length * mul) % 2 ^ 64)
  let hash := loop (bytes.length / 8) bytes hash
  let hash := (shift_mix hash * mul) % 2 ^ 64
  shift_mix hash

/-- `std::hash<std::string_view>`: `_Hash_bytes` over the characters with the
seed `0xc70f6907`; the characters of a type name are taken to be ASCII. -/
def hash (s : String) : Nat := Hash_bytes (s.data.map Char.toNat) 0xc70f6907

end libstdcxx

/-- What is done to a context after its construction: a child is spawned, or a
failure event is handled (with the actors and the system that are alive at
that moment). -/
inductive ContextOp (U : Type) where
  | SpawnChild (name : String) (supervision_strategy : Option SupervisionStrategy) (derived : U)
  | HandleChildFailure (alive : ActorId → Bool) (facadeAlive : Bool)
      (failure_event : ActorFailureEvent)

/-- The context after one operation, however the operation ended. -/
def ContextExec.after {U : Type} (x : ContextExec U) : ContextOp U → ContextExec U
  | .SpawnChild name supervision_strategy derived =>
    (ActorContext.SpawnChild name supervision_strategy derived x).1.exec
  | .HandleChildFailure alive facadeAlive failure_event =>
    (ActorContext.HandleChildFailure alive facadeAlive failure_event x).exec

end oxherdcpp

/-! # Properties -/

namespace oxherdcpp

open State Event

/-! ## The lifecycle state machine -/

/-- C1: `ActorState::Dispatch` implements the lifecycle table: each of the ten
listed rows leads to its target, and from every one of the nine states
TERMINATE gives Terminating and FAILURE gives Stopping. -/
theorem C1_dispatch_implements_table :
    (∀ r ∈ specTable, ActorState.Dispatch r.1 r.2.1 = r.2.2) ∧
    ActorState.Dispatch CreatedState InitializeEvent = InitializingState ∧
    ActorState.Dispatch InitializingState StartEvent = StartingState ∧
    ActorState.Dispatch StoppedState StartEvent = StartingState ∧
    ActorState.Dispatch StartingState StartedEvent = RunningState ∧
    ActorState.Dispatch RunningState StopEvent = StoppingState ∧
    ActorState.Dispatch RunningState PauseEvent = PausedState ∧
    ActorState.Dispatch PausedState ResumeEvent = RunningState ∧
    ActorState.Dispatch PausedState StopEvent = StoppingState ∧
    ActorState.Dispatch StoppingState StoppedEvent = StoppedState ∧
    ActorState.Dispatch TerminatingState TerminatedEventReached = TerminatedState ∧
    (∀ s : State, ActorState.Dispatch s TerminateEvent = TerminatingState) ∧
    (∀ s : State, ActorState.Dispatch s FailureEvent = StoppingState) := by
  refine ⟨by decide, rfl, rfl, rfl, rfl, rfl, rfl, rfl, rfl, rfl, rfl, ?_, ?_⟩
  · intro s; cases s <;> rfl
  · intro s; cases s <;> rfl

/-- C2: for every state `s` and every event `e` other than TERMINATE and FAILURE
such that `(s, e)` is not a row of the lifecycle table, `Dispatch e` in state
`s` leaves the state equal to `s`. -/
theorem C2_unlisted_pair_is_noop (s : State) (e : Event)
    (hT : e ≠ TerminateEvent) (hF : e ≠ FailureEvent)
    (hrow : ∀ t : State, (s, e, t) ∉ specTable) :
    ActorState.Dispatch s e = s := by
  cases s <;> cases e <;> first
    | rfl
    | exact absurd rfl hT
    | exact absurd rfl hF
    | (exfalso; simp [specTable] at hrow)

/-- C2 at a concrete pair: STOP in Created is not listed and is ignored. -/
theorem C2_unlisted_pair_is_noop_witness :
    StopEvent ≠ TerminateEvent ∧ StopEvent ≠ FailureEvent ∧
    (∀ t : State, (CreatedState, StopEvent, t) ∉ specTable) ∧
    ActorState.Dispatch CreatedState StopEvent = CreatedState :=
  ⟨by decide, by decide, fun t => by cases t <;> decide,
   C2_unlisted_pair_is_noop CreatedState StopEvent (by decide) (by decide)
     (fun t => by cases t <;> decide)⟩

/-! ## The handler table -/

/-- A type identifier that is none of the five registered ones has no entry. -/
theorem find_user (th : TypeHash) (k : MessageTypeID) (hk : k ∉ th.lifecycle) :
    InitializeMessageHandlers th k = none := by
  simp only [TypeHash.lifecycle, List.mem_cons, List.mem_singleton, not_or,
    List.not_mem_nil, or_false] at hk
  obtain ⟨h1, h2, h3, h4, h5⟩ := hk
  simp [InitializeMessageHandlers, MessageHandlerMap.assign, h1, h2, h3, h4, h5]

/-- A type identifier with no entry is none of the five registered ones. -/
theorem find_none_iff (th : TypeHash) (k : MessageTypeID) :
    InitializeMessageHandlers th k = none ↔ k ∉ th.lifecycle := by
  constructor
  · intro h
    simp only [InitializeMessageHandlers, MessageHandlerMap.assign] at h
    simp only [TypeHash.lifecycle, List.mem_cons, List.mem_singleton, not_or,
      List.not_mem_nil, or_false]
    split_ifs at h with h5 h4 h3 h2 h1
    exact ⟨h1, h2, h3, h4, h5⟩
  · exact find_user th k

/-- With pairwise distinct identifiers each command finds its own handler. -/
theorem find_lifecycle (th : TypeHash) (hd : th.lifecycle.Nodup) :
    InitializeMessageHandlers th th.GoStartActor = some .HandleGoStart ∧
    InitializeMessageHandlers th th.GoStopActor = some .HandleGoStop ∧
    InitializeMessageHandlers th th.GoPauseActor = some .HandleGoPause ∧
    InitializeMessageHandlers th th.GoResumeActor = some .HandleGoResume ∧
    InitializeMessageHandlers th th.GoTerminateActor = some .HandleGoTerminate := by
  simp only [TypeHash.lifecycle, List.nodup_cons, List.mem_cons, List.mem_singleton, not_or,
    List.not_mem_nil, or_false, List.nodup_nil, and_true, not_false_eq_true] at hd
  obtain ⟨⟨a1, a2, a3, a4⟩, ⟨b1, b2, b3⟩, ⟨c1, c2⟩, d1⟩ := hd
  simp [InitializeMessageHandlers, MessageHandlerMap.assign, a1, a2, a3, a4, b1, b2, b3, c1, c2, d1]

section ActorProcessing

variable {U : Type} (th : TypeHash) (uc : UserCode U) (alive : ActorId → Bool)

/-! ## Processing one message -/

theorem ProcessMessage_GoStartActor (hd : th.lifecycle.Nodup) (x : Exec U) :
    ProcessMessage th uc alive .GoStartActor x = .returned (HandleGoStart uc x) := by
  simp [ProcessMessage, BaseMessage.GetTypeId, (find_lifecycle th hd).1, SystemHandler.run]

theorem ProcessMessage_GoStopActor (hd : th.lifecycle.Nodup) (x : Exec U) :
    ProcessMessage th uc alive .GoStopActor x = .returned (HandleGoStop uc x) := by
  simp [ProcessMessage, BaseMessage.GetTypeId, (find_lifecycle th hd).2.1, SystemHandler.run]

theorem ProcessMessage_GoPauseActor (hd : th.lifecycle.Nodup) (x : Exec U) :
    ProcessMessage th uc alive .GoPauseActor x = .returned (HandleGoPause uc x) := by
  simp [ProcessMessage, BaseMessage.GetTypeId, (find_lifecycle th hd).2.2.1, SystemHandler.run]

theorem ProcessMessage_GoResumeActor (hd : th.lifecycle.Nodup) (x : Exec U) :
    ProcessMessage th uc alive .GoResumeActor x = .returned (HandleGoResume uc x) := by
  simp [ProcessMessage, BaseMessage.GetTypeId, (find_lifecycle th hd).2.2.2.1, SystemHandler.run]

theorem ProcessMessage_GoTerminateActor (hd : th.lifecycle.Nodup) (x : Exec U) :
    ProcessMessage th uc alive .GoTerminateActor x = .returned (HandleGoTerminate uc x) := by
  simp [ProcessMessage, BaseMessage.GetTypeId, (find_lifecycle th hd).2.2.2.2, SystemHandler.run]

theorem ProcessMessage_user (m : BaseMessage) (hm : m.GetTypeId th ∉ th.lifecycle) (x : Exec U) :
    ProcessMessage th uc alive m x = HandleUserMessage uc alive m x := by
  simp [ProcessMessage, find_user th _ hm]

/-! ## The record of effects -/

theorem hooksRun_append (a b : List Effect) : hooksRun (a ++ b) = hooksRun a ++ hooksRun b := by
  induction a with
  | nil => rfl
  | cons e rest ih => cases e <;> simp [hooksRun, ih]

theorem behaviourCalls_append (a b : List Effect) :
    behaviourCalls (a ++ b) = behaviourCalls a ++ behaviourCalls b := by
  induction a with
  | nil => rfl
  | cons e rest ih => cases e <;> simp [behaviourCalls, ih]

theorem sent_append (a b : List Effect) : sent (a ++ b) = sent a ++ sent b := by
  induction a with
  | nil => rfl
  | cons e rest ih => cases e <;> simp [sent, ih]

/-! ## User messages -/

/-- Outside Running, `HandleUserMessage` returns at its first statement. -/
theorem HandleUserMessage_not_running (m : BaseMessage) (x : Exec U)
    (hs : x.actor.state_ ≠ RunningState) :
    HandleUserMessage uc alive m x = .returned x := by
  simp [HandleUserMessage, ActorState.IsRunning, ActorState.HasCurrentState, hs]

/-- In Running, `Behaviour` is entered once, with the message itself. -/
theorem HandleUserMessage_running_calls (m : BaseMessage) (x : Exec U)
    (hs : x.actor.state_ = RunningState) :
    behaviourCalls (HandleUserMessage uc alive m x).exec.trace
      = behaviourCalls x.trace ++ [m] ∧
    hooksRun (HandleUserMessage uc alive m x).exec.trace = hooksRun x.trace := by
  simp only [HandleUserMessage, ActorState.IsRunning, ActorState.HasCurrentState, hs]
  simp only [decide_True, Bool.not_true, Bool.false_eq_true, ↓reduceIte]
  cases hres : (uc.Behaviour m x.actor).2 with
  | none => simp [Outcome.exec, behaviourCalls_append, hooksRun_append, behaviourCalls, hooksRun]
  | some cause =>
    simp only [Actor.GetContext, Exec.Dispatch]
    cases hctx : x.actor.context_ with
    | none => simp [Outcome.exec, behaviourCalls_append, hooksRun_append, behaviourCalls, hooksRun]
    | some ctx =>
      simp only []
      cases hp : Wptr.lock alive ctx.GetParent <;>
        simp [Outcome.exec, behaviourCalls_append, hooksRun_append, behaviourCalls, hooksRun]

/-- C3: for every lifecycle state and every user message (its type identifier is
none of the five lifecycle commands), processing the message enters
`Behaviour` exactly once, with that message, if the state is Running; in each
of the eight other states processing returns the actor and its record as they
were, so `Behaviour` is not entered, the state is unchanged and no hook runs. -/
theorem C3_user_message_gated_on_running (m : BaseMessage)
    (hm : m.GetTypeId th ∉ th.lifecycle) (x : Exec U) :
    (x.actor.state_ = RunningState →
      behaviourCalls (ProcessMessage th uc alive m x).exec.trace
        = behaviourCalls x.trace ++ [m]) ∧
    (x.actor.state_ ≠ RunningState →
      ProcessMessage th uc alive m x = .returned x ∧
      behaviourCalls (ProcessMessage th uc alive m x).exec.trace = behaviourCalls x.trace ∧
      (ProcessMessage th uc alive m x).exec.actor.state_ = x.actor.state_ ∧
      hooksRun (ProcessMessage th uc alive m x).exec.trace = hooksRun x.trace) := by
  rw [ProcessMessage_user th uc alive m hm x]
  refine ⟨fun hs => (HandleUserMessage_running_calls uc alive m x hs).1, fun hs => ?_⟩
  rw [HandleUserMessage_not_running uc alive m x hs]
  exact ⟨rfl, rfl, rfl, rfl⟩

/-- C3 on the worked instance: a user message of type 99 in Running and in Paused. -/
theorem C3_user_message_gated_on_running_witness :
    (BaseMessage.UserMessage 99 5).GetTypeId sampleHash ∉ sampleHash.lifecycle ∧
    behaviourCalls
        (ProcessMessage sampleHash sampleCode allAlive (.UserMessage 99 5)
          (sampleExec RunningState)).exec.trace
      = [.UserMessage 99 5] ∧
    ProcessMessage sampleHash sampleCode allAlive (.UserMessage 99 5) (sampleExec PausedState)
      = .returned (sampleExec PausedState) :=
  ⟨by decide,
   (C3_user_message_gated_on_running sampleHash sampleCode allAlive (.UserMessage 99 5)
      (by decide) (sampleExec RunningState)).1 rfl,
   ((C3_user_message_gated_on_running sampleHash sampleCode allAlive (.UserMessage 99 5)
      (by decide) (sampleExec PausedState)).2 (by decide)).1⟩

/-- C4: if `Behaviour` throws on user message `m` while the actor is Running and
has a context installed, then processing `m` returns with the actor in
Stopping; when the parent of the context is alive the record grows by the
entry of `Behaviour` and by exactly one `Receive` on the parent, of an
`ActorFailureEvent` carrying the actor's id, the actor's name, the exception
and `m`; when the context has no parent nothing is sent. -/
theorem C4_behaviour_failure_reported_to_parent (m : BaseMessage)
    (hm : m.GetTypeId th ∉ th.lifecycle) (x : Exec U) (ctx : ActorContext)
    (d : U) (cause : ExceptionPtr)
    (hrun : x.actor.state_ = RunningState)
    (hctx : x.actor.context_ = some ctx)
    (hfail : uc.Behaviour m x.actor = (d, some cause)) :
    (∀ parent : ActorId, ctx.parent_ = some parent → alive parent = true →
      ∃ r : Exec U, ProcessMessage th uc alive m x = .returned r ∧
        r.actor.state_ = StoppingState ∧
        r.trace = x.trace ++
          [Effect.behaviour m,
           Effect.receive parent
             (.ActorFailureEvent x.actor.actor_id_ x.actor.name_ cause m)] ∧
        sent r.trace = sent x.trace ++
          [(parent, .ActorFailureEvent x.actor.actor_id_ x.actor.name_ cause m)]) ∧
    (ctx.parent_ = none →
      ∃ r : Exec U, ProcessMessage th uc alive m x = .returned r ∧
        r.actor.state_ = StoppingState ∧
        r.trace = x.trace ++ [Effect.behaviour m] ∧
        sent r.trace = sent x.trace) := by
  rw [ProcessMessage_user th uc alive m hm x]
  constructor
  · intro parent hp hal
    simp [HandleUserMessage, ActorState.IsRunning, ActorState.HasCurrentState, hrun, hfail,
      Actor.GetContext, Exec.Dispatch, hctx, ActorContext.GetParent, hp, Wptr.lock, hal,
      ActorState.Dispatch, ActorState.On, Actor.GetId, Actor.GetName, sent_append, sent]
  · intro hp
    simp [HandleUserMessage, ActorState.IsRunning, ActorState.HasCurrentState, hrun, hfail,
      Actor.GetContext, Exec.Dispatch, hctx, ActorContext.GetParent, hp, Wptr.lock,
      ActorState.Dispatch, ActorState.On, sent_append, sent]

/-- C4 on the worked instance: payload 0 makes `Behaviour` throw; the parent is
actor 3 and is alive. -/
theorem C4_behaviour_failure_reported_to_parent_witness :
    ∃ r : Exec Nat,
      ProcessMessage sampleHash sampleCode allAlive (.UserMessage 99 0)
        (sampleExec RunningState) = .returned r ∧
      r.actor.state_ = StoppingState ∧
      r.trace = (sampleExec RunningState).trace ++
        [Effect.behaviour (.UserMessage 99 0),
         Effect.receive 3
           (.ActorFailureEvent (sampleExec RunningState).actor.actor_id_
             (sampleExec RunningState).actor.name_ { type_id := 1, what := "boom" }
             (.UserMessage 99 0))] ∧
      sent r.trace = sent (sampleExec RunningState).trace ++
        [(3, .ActorFailureEvent (sampleExec RunningState).actor.actor_id_
             (sampleExec RunningState).actor.name_ { type_id := 1, what := "boom" }
             (.UserMessage 99 0))] :=
  (C4_behaviour_failure_reported_to_parent sampleHash sampleCode allAlive (.UserMessage 99 0)
    (by decide) (sampleExec RunningState) { parent_ := some 3 } 0
    { type_id := 1, what := "boom" } rfl rfl rfl).1 3 rfl rfl

/-! ## Lifecycle commands -/

/-- C5: processing one `GoStartActor` returns, and advances through every legal
start step in order: from Created the record grows by exactly `on_initialize`
(seeing Initializing), `on_start` (seeing Starting), `on_started` (seeing
Running); from Initializing or Stopped by exactly `on_start`, `on_started`;
from Starting by exactly `on_started`; in all four cases the final state is
Running. -/
theorem C5_start_runs_every_legal_step (hd : th.lifecycle.Nodup) (x : Exec U) :
    ∃ r : Exec U, ProcessMessage th uc alive .GoStartActor x = .returned r ∧
      (x.actor.state_ = CreatedState →
        r.actor.state_ = RunningState ∧
        r.trace = x.trace ++
          [Effect.hook .OnInitialize InitializingState, Effect.hook .OnStart StartingState,
           Effect.hook .OnStarted RunningState] ∧
        hooksRun r.trace = hooksRun x.trace ++ [.OnInitialize, .OnStart, .OnStarted]) ∧
      (x.actor.state_ = InitializingState ∨ x.actor.state_ = StoppedState →
        r.actor.state_ = RunningState ∧
        r.trace = x.trace ++
          [Effect.hook .OnStart StartingState, Effect.hook .OnStarted RunningState] ∧
        hooksRun r.trace = hooksRun x.trace ++ [.OnStart, .OnStarted]) ∧
      (x.actor.state_ = StartingState →
        r.actor.state_ = RunningState ∧
        r.trace = x.trace ++ [Effect.hook .OnStarted RunningState] ∧
        hooksRun r.trace = hooksRun x.trace ++ [.OnStarted]) := by
  refine ⟨_, ProcessMessage_GoStartActor th uc alive hd x, ?_, ?_, ?_⟩
  · intro hs
    simp [HandleGoStart, Exec.Dispatch, Exec.call, ActorState.HasCurrentState,
      ActorState.Dispatch, ActorState.On, hs, hooksRun_append, hooksRun]
  · rintro (hs | hs) <;>
    simp [HandleGoStart, Exec.Dispatch, Exec.call, ActorState.HasCurrentState,
      ActorState.Dispatch, ActorState.On, hs, hooksRun_append, hooksRun]
  · intro hs
    simp [HandleGoStart, Exec.Dispatch, Exec.call, ActorState.HasCurrentState,
      ActorState.Dispatch, ActorState.On, hs, hooksRun_append, hooksRun]

/-- C5 on the worked instance: a fresh actor receives `GoStartActor`. -/
theorem C5_start_runs_every_legal_step_witness :
    sampleHash.lifecycle.Nodup ∧
    (ProcessMessage sampleHash sampleCode allAlive .GoStartActor
      (sampleExec CreatedState)).exec.actor.state_ = RunningState ∧
    hooksRun (ProcessMessage sampleHash sampleCode allAlive .GoStartActor
      (sampleExec CreatedState)).exec.trace = [.OnInitialize, .OnStart, .OnStarted] := by
  obtain ⟨r, hr, h1, -, -⟩ :=
    C5_start_runs_every_legal_step sampleHash sampleCode allAlive (by decide)
      (sampleExec CreatedState)
  obtain ⟨hstate, -, hhooks⟩ := h1 rfl
  rw [hr]
  exact ⟨by decide, hstate, hhooks⟩

/-- C6: processing `GoStopActor` returns; in Running or Paused the record grows by
exactly `on_stop` (seeing Stopping) then `on_stopped` (seeing Stopped) and the
state is left Stopped; in Stopping it grows by exactly `on_stopped` and the
state is left Stopped; a freshly constructed actor that processes Start then
Stop has run exactly `on_initialize, on_start, on_started, on_stop,
on_stopped` and is Stopped. -/
theorem C6_stop_runs_stop_then_stopped (hd : th.lifecycle.Nodup) (x : Exec U) :
    (∃ r : Exec U, ProcessMessage th uc alive .GoStopActor x = .returned r ∧
      (x.actor.state_ = RunningState ∨ x.actor.state_ = PausedState →
        r.actor.state_ = StoppedState ∧
        r.trace = x.trace ++
          [Effect.hook .OnStop StoppingState, Effect.hook .OnStopped StoppedState] ∧
        hooksRun r.trace = hooksRun x.trace ++ [.OnStop, .OnStopped]) ∧
      (x.actor.state_ = StoppingState →
        r.actor.state_ = StoppedState ∧
        r.trace = x.trace ++ [Effect.hook .OnStopped StoppedState] ∧
        hooksRun r.trace = hooksRun x.trace ++ [.OnStopped])) ∧
    (∀ (name : String) (actor_id : ActorId) (derived : U),
      ∃ r : Exec U,
        ProcessMessages th uc alive [.GoStartActor, .GoStopActor]
          { actor := Actor.new name actor_id derived, trace := [] } = .returned r ∧
        r.actor.state_ = StoppedState ∧
        hooksRun r.trace = [.OnInitialize, .OnStart, .OnStarted, .OnStop, .OnStopped]) := by
  refine ⟨⟨_, ProcessMessage_GoStopActor th uc alive hd x, ?_, ?_⟩, ?_⟩
  · rintro (hs | hs) <;>
    simp [HandleGoStop, Exec.Dispatch, Exec.call, ActorState.HasCurrentState,
      ActorState.Dispatch, ActorState.On, hs, hooksRun_append, hooksRun]
  · intro hs
    simp [HandleGoStop, Exec.Dispatch, Exec.call, ActorState.HasCurrentState,
      ActorState.Dispatch, ActorState.On, hs, hooksRun_append, hooksRun]
  · intro name actor_id derived
    simp [ProcessMessages, ProcessMessage_GoStartActor th uc alive hd,
      ProcessMessage_GoStopActor th uc alive hd, HandleGoStart, HandleGoStop, Exec.Dispatch,
      Exec.call, ActorState.HasCurrentState, ActorState.Dispatch, ActorState.On, Actor.new,
      ActorState.init, hooksRun]

/-- C6 on the worked instance: `GoStopActor` in Running. -/
theorem C6_stop_runs_stop_then_stopped_witness :
    sampleHash.lifecycle.Nodup ∧
    (ProcessMessage sampleHash sampleCode allAlive .GoStopActor
      (sampleExec RunningState)).exec.actor.state_ = StoppedState ∧
    hooksRun (ProcessMessage sampleHash sampleCode allAlive .GoStopActor
      (sampleExec RunningState)).exec.trace = [.OnStop, .OnStopped] := by
  obtain ⟨⟨r, hr, h1, -⟩, -⟩ :=
    C6_stop_runs_stop_then_stopped sampleHash sampleCode allAlive (by decide)
      (sampleExec RunningState)
  obtain ⟨hstate, -, hhooks⟩ := h1 (Or.inl rfl)
  rw [hr]
  exact ⟨by decide, hstate, hhooks⟩

/-- C7: pause followed by resume is a round trip on a Running actor: processing
`GoPauseActor` in Running returns with the record grown by exactly `on_pause`
and the state Paused (`IsPaused` true, `IsRunning` false), and processing
`GoResumeActor` next returns with the record grown by exactly `on_resume` and
the state Running again. -/
theorem C7_pause_resume_round_trip (hd : th.lifecycle.Nodup) (x : Exec U)
    (hrun : x.actor.state_ = RunningState) :
    ∃ y z : Exec U,
      ProcessMessage th uc alive .GoPauseActor x = .returned y ∧
      y.actor.state_ = PausedState ∧
      ActorState.IsPaused y.actor.state_ = true ∧
      ActorState.IsRunning y.actor.state_ = false ∧
      y.trace = x.trace ++ [Effect.hook .OnPause PausedState] ∧
      hooksRun y.trace = hooksRun x.trace ++ [.OnPause] ∧
      ProcessMessage th uc alive .GoResumeActor y = .returned z ∧
      z.actor.state_ = RunningState ∧
      ActorState.IsRunning z.actor.state_ = true ∧
      z.trace = y.trace ++ [Effect.hook .OnResume RunningState] ∧
      hooksRun z.trace = hooksRun y.trace ++ [.OnResume] := by
  refine ⟨_, _, ProcessMessage_GoPauseActor th uc alive hd x, ?_, ?_, ?_, ?_, ?_,
    ProcessMessage_GoResumeActor th uc alive hd _, ?_, ?_, ?_, ?_⟩ <;>
  simp [HandleGoPause, HandleGoResume, Exec.Dispatch, Exec.call, ActorState.HasCurrentState,
    ActorState.IsPaused, ActorState.IsRunning, ActorState.Dispatch, ActorState.On, hrun,
    hooksRun_append, hooksRun]

/-- C7 on the worked instance: pause then resume from Running. -/
theorem C7_pause_resume_round_trip_witness :
    sampleHash.lifecycle.Nodup ∧
    (ProcessMessages sampleHash sampleCode allAlive [.GoPauseActor, .GoResumeActor]
      (sampleExec RunningState)).exec.actor.state_ = RunningState := by
  obtain ⟨y, z, hy, -, -, -, -, -, hz, hstate, -⟩ :=
    C7_pause_resume_round_trip sampleHash sampleCode allAlive (by decide)
      (sampleExec RunningState) rfl
  refine ⟨by decide, ?_⟩
  simp only [ProcessMessages, hy, hz]
  exact hstate

/-- C8: for every lifecycle state other than Terminated, processing one
`GoTerminateActor` returns with the record grown by exactly `on_terminate`
(seeing Terminating) then `on_terminated` (seeing Terminated), and leaves the
state Terminated: `IsTerminated` is true and the other three predicates are
false. -/
theorem C8_terminate_reaches_terminated (hd : th.lifecycle.Nodup) (x : Exec U)
    (hs : x.actor.state_ ≠ TerminatedState) :
    ∃ r : Exec U, ProcessMessage th uc alive .GoTerminateActor x = .returned r ∧
      r.actor.state_ = TerminatedState ∧
      r.trace = x.trace ++
        [Effect.hook .OnTerminate TerminatingState, Effect.hook .OnTerminated TerminatedState] ∧
      hooksRun r.trace = hooksRun x.trace ++ [.OnTerminate, .OnTerminated] ∧
      ActorState.IsTerminated r.actor.state_ = true ∧
      ActorState.IsRunning r.actor.state_ = false ∧
      ActorState.IsPaused r.actor.state_ = false ∧
      ActorState.IsStopped r.actor.state_ = false := by
  refine ⟨_, ProcessMessage_GoTerminateActor th uc alive hd x, ?_⟩
  have hT : ∀ s : State, ActorState.Dispatch s TerminateEvent = TerminatingState := by
    intro s; cases s <;> rfl
  simp [HandleGoTerminate, Exec.Dispatch, Exec.call, ActorState.HasCurrentState, hs, hT,
    ActorState.IsTerminated, ActorState.IsRunning, ActorState.IsPaused, ActorState.IsStopped,
    hooksRun_append, hooksRun]
  simp [ActorState.Dispatch, ActorState.On]

/-- C8 on the worked instance: `GoTerminateActor` in Paused. -/
theorem C8_terminate_reaches_terminated_witness :
    sampleHash.lifecycle.Nodup ∧ PausedState ≠ TerminatedState ∧
    (ProcessMessage sampleHash sampleCode allAlive .GoTerminateActor
      (sampleExec PausedState)).exec.actor.state_ = TerminatedState ∧
    hooksRun (ProcessMessage sampleHash sampleCode allAlive .GoTerminateActor
      (sampleExec PausedState)).exec.trace = [.OnTerminate, .OnTerminated] := by
  obtain ⟨r, hr, hstate, -, hhooks, -⟩ :=
    C8_terminate_reaches_terminated sampleHash sampleCode allAlive (by decide)
      (sampleExec PausedState) (by decide)
  rw [hr]
  exact ⟨by decide, by decide, hstate, hhooks⟩

/-- In Terminated every stored handler returns without doing anything. -/
theorem SystemHandler_run_terminated (k : SystemHandler) (x : Exec U)
    (hterm : x.actor.state_ = TerminatedState) : k.run uc x = x := by
  cases k <;>
  simp [SystemHandler.run, HandleGoStart, HandleGoStop, HandleGoPause, HandleGoResume,
    HandleGoTerminate, ActorState.HasCurrentState, hterm]

/-- C9: a terminated actor never transitions again: for every message, a
lifecycle command or a user message, processing it on an actor whose state is
Terminated returns the actor and its record as they were (the state stays
Terminated, no hook runs, `Behaviour` is not entered); hence the same holds
after any further sequence of messages. -/
theorem C9_terminated_is_final (x : Exec U) (hterm : x.actor.state_ = TerminatedState) :
    (∀ m : BaseMessage,
      ProcessMessage th uc alive m x = .returned x ∧
      (ProcessMessage th uc alive m x).exec.actor.state_ = TerminatedState ∧
      hooksRun (ProcessMessage th uc alive m x).exec.trace = hooksRun x.trace ∧
      behaviourCalls (ProcessMessage th uc alive m x).exec.trace = behaviourCalls x.trace) ∧
    (∀ ms : List BaseMessage,
      ProcessMessages th uc alive ms x = .returned x ∧
      (ProcessMessages th uc alive ms x).exec.actor.state_ = TerminatedState) := by
  have step : ∀ m : BaseMessage, ProcessMessage th uc alive m x = .returned x := by
    intro m
    simp only [ProcessMessage]
    split
    · next handler _ => rw [SystemHandler_run_terminated uc handler x hterm]
    · exact HandleUserMessage_not_running uc alive m x (by rw [hterm]; decide)
  have run : ∀ ms : List BaseMessage, ProcessMessages th uc alive ms x = .returned x := by
    intro ms
    induction ms with
    | nil => rfl
    | cons m rest ih => simp only [ProcessMessages, step m]; exact ih
  refine ⟨fun m => ?_, fun ms => ?_⟩
  · rw [step m]; exact ⟨rfl, hterm, rfl, rfl⟩
  · rw [run ms]; exact ⟨rfl, hterm⟩

/-- C9 on the worked instance: a terminated actor is sent Start, a user message,
Resume and Terminate. -/
theorem C9_terminated_is_final_witness :
    ProcessMessages sampleHash sampleCode allAlive
      [.GoStartActor, .UserMessage 99 0, .GoResumeActor, .GoTerminateActor]
      (sampleExec TerminatedState) = .returned (sampleExec TerminatedState) :=
  ((C9_terminated_is_final sampleHash sampleCode allAlive (sampleExec TerminatedState) rfl).2
    [.GoStartActor, .UserMessage 99 0, .GoResumeActor, .GoTerminateActor]).1

/-! ## The state a hook sees -/

/-- `HandleGoStop` in Starting: `StopEvent` has no overload of `On` for
`StartingState`, so the state stays Starting, and `OnStop` runs all the same. -/
theorem HandleGoStop_starting (x : Exec U) (hs : x.actor.state_ = StartingState) :
    (HandleGoStop uc x).actor.state_ = StartingState ∧
    (HandleGoStop uc x).trace = x.trace ++ [Effect.hook .OnStop StartingState] := by
  simp [HandleGoStop, Exec.Dispatch, Exec.call, ActorState.HasCurrentState,
    ActorState.Dispatch, ActorState.On, hs]

/-- Apart from `HandleGoStop` in Starting, every hook that a lifecycle handler
runs sees the state the specification assigns to it. -/
theorem hooks_see_target_state (k : SystemHandler) (x : Exec U)
    (hk : ¬ (k = .HandleGoStop ∧ x.actor.state_ = StartingState)) :
    ∃ hs : List Hook,
      (k.run uc x).trace = x.trace ++ hs.map (fun h => Effect.hook h h.target) := by
  obtain ⟨⟨name, actor_id, context, state, derived⟩, trace⟩ := x
  cases k <;> cases state <;>
    first
    | (exfalso; apply hk; constructor <;> rfl)
    | (refine ⟨[], ?_⟩
       simp [SystemHandler.run, HandleGoStart, HandleGoStop, HandleGoPause, HandleGoResume,
         HandleGoTerminate, ActorState.HasCurrentState]
       done)
    | (refine ⟨[.OnInitialize, .OnStart, .OnStarted], ?_⟩
       simp [SystemHandler.run, HandleGoStart, Exec.Dispatch, Exec.call,
         ActorState.HasCurrentState, ActorState.Dispatch, ActorState.On, Hook.target]
       done)
    | (refine ⟨[.OnStart, .OnStarted], ?_⟩
       simp [SystemHandler.run, HandleGoStart, Exec.Dispatch, Exec.call,
         ActorState.HasCurrentState, ActorState.Dispatch, ActorState.On, Hook.target]
       done)
    | (refine ⟨[.OnStarted], ?_⟩
       simp [SystemHandler.run, HandleGoStart, Exec.Dispatch, Exec.call,
         ActorState.HasCurrentState, ActorState.Dispatch, ActorState.On, Hook.target]
       done)
    | (refine ⟨[.OnStop, .OnStopped], ?_⟩
       simp [SystemHandler.run, HandleGoStop, Exec.Dispatch, Exec.call,
         ActorState.HasCurrentState, ActorState.Dispatch, ActorState.On, Hook.target]
       done)
    | (refine ⟨[.OnStopped], ?_⟩
       simp [SystemHandler.run, HandleGoStop, Exec.Dispatch, Exec.call,
         ActorState.HasCurrentState, ActorState.Dispatch, ActorState.On, Hook.target]
       done)
    | (refine ⟨[.OnPause], ?_⟩
       simp [SystemHandler.run, HandleGoPause, Exec.Dispatch, Exec.call,
         ActorState.HasCurrentState, ActorState.Dispatch, ActorState.On, Hook.target]
       done)
    | (refine ⟨[.OnResume], ?_⟩
       simp [SystemHandler.run, HandleGoResume, Exec.Dispatch, Exec.call,
         ActorState.HasCurrentState, ActorState.Dispatch, ActorState.On, Hook.target]
       done)
    | (refine ⟨[.OnTerminate, .OnTerminated], ?_⟩
       simp [SystemHandler.run, HandleGoTerminate, Exec.Dispatch, Exec.call,
         ActorState.HasCurrentState, ActorState.Dispatch, ActorState.On, Hook.target])

/-- C10, at the input where the code departs from it: an actor in Starting
processes `GoStopActor`; `OnStop` runs and sees Starting, not the Stopping that
the claim assigns to `on_stop`, and the state is still Starting afterwards. -/
theorem C10_on_stop_in_starting_sees_starting :
    ProcessMessage sampleHash sampleCode allAlive .GoStopActor (sampleExec StartingState)
      = .returned
          { actor := { (sampleExec StartingState).actor with derived := 1 },
            trace := [Effect.hook .OnStop StartingState] } ∧
    (ProcessMessage sampleHash sampleCode allAlive .GoStopActor
      (sampleExec StartingState)).exec.actor.state_ = StartingState ∧
    Hook.target .OnStop = StoppingState ∧
    StartingState ≠ Hook.target .OnStop :=
  ⟨rfl, rfl, rfl, by decide⟩

/-! ## Commands that do not apply -/

/-- C11: a lifecycle command received in a state where it does not apply is a
no-op: `GoPauseActor` outside Running, `GoResumeActor` outside Paused,
`GoStopActor` in Created, Initializing, Stopped, Terminating or Terminated,
`GoStartActor` in Running, Paused, Stopping, Terminating or Terminated, and
`GoTerminateActor` in Terminated each return the actor and its record as they
were: the lifecycle state is unchanged and no hook has run. -/
theorem C11_inapplicable_command_is_noop (hd : th.lifecycle.Nodup) (x : Exec U) :
    (x.actor.state_ ≠ RunningState →
      ProcessMessage th uc alive .GoPauseActor x = .returned x) ∧
    (x.actor.state_ ≠ PausedState →
      ProcessMessage th uc alive .GoResumeActor x = .returned x) ∧
    (x.actor.state_ ∈ [CreatedState, InitializingState, StoppedState, TerminatingState,
        TerminatedState] →
      ProcessMessage th uc alive .GoStopActor x = .returned x) ∧
    (x.actor.state_ ∈ [RunningState, PausedState, StoppingState, TerminatingState,
        TerminatedState] →
      ProcessMessage th uc alive .GoStartActor x = .returned x) ∧
    (x.actor.state_ = TerminatedState →
      ProcessMessage th uc alive .GoTerminateActor x = .returned x) := by
  rw [ProcessMessage_GoPauseActor th uc alive hd, ProcessMessage_GoResumeActor th uc alive hd,
    ProcessMessage_GoStopActor th uc alive hd, ProcessMessage_GoStartActor th uc alive hd,
    ProcessMessage_GoTerminateActor th uc alive hd]
  refine ⟨fun hs => ?_, fun hs => ?_, fun hs => ?_, fun hs => ?_, fun hs => ?_⟩
  · simp [HandleGoPause, ActorState.HasCurrentState, hs]
  · simp [HandleGoResume, ActorState.HasCurrentState, hs]
  · simp only [List.mem_cons, List.mem_singleton, List.not_mem_nil, or_false] at hs
    rcases hs with hs | hs | hs | hs | hs <;>
      simp [HandleGoStop, ActorState.HasCurrentState, hs]
  · simp only [List.mem_cons, List.mem_singleton, List.not_mem_nil, or_false] at hs
    rcases hs with hs | hs | hs | hs | hs <;>
      simp [HandleGoStart, ActorState.HasCurrentState, hs]
  · simp [HandleGoTerminate, ActorState.HasCurrentState, hs]

/-- C11 on the worked instance: pause, resume, stop and terminate applied where
they do not apply. -/
theorem C11_inapplicable_command_is_noop_witness :
    sampleHash.lifecycle.Nodup ∧
    ProcessMessage sampleHash sampleCode allAlive .GoPauseActor (sampleExec StoppedState)
      = .returned (sampleExec StoppedState) ∧
    ProcessMessage sampleHash sampleCode allAlive .GoStartActor (sampleExec PausedState)
      = .returned (sampleExec PausedState) :=
  ⟨by decide,
   (C11_inapplicable_command_is_noop sampleHash sampleCode allAlive (by decide)
      (sampleExec StoppedState)).1 (by decide),
   (C11_inapplicable_command_is_noop sampleHash sampleCode allAlive (by decide)
      (sampleExec PausedState)).2.2.2.1 (by decide)⟩

/-! ## Sequences of lifecycle commands -/

/-- One lifecycle command keeps the actor among the rest states, keeps it among
the stable states, and a Start or a Terminate moves it from a rest state to a
stable one. -/
theorem lifecycle_step (hd : th.lifecycle.Nodup) (m : BaseMessage)
    (hm : m ∈ lifecycleCommands) (x : Exec U) :
    ∃ y : Exec U, ProcessMessage th uc alive m x = .returned y ∧
      (x.actor.state_ ∈ restStates → y.actor.state_ ∈ restStates) ∧
      (x.actor.state_ ∈ stableStates → y.actor.state_ ∈ stableStates) ∧
      (m = .GoStartActor ∨ m = .GoTerminateActor → x.actor.state_ ∈ restStates →
        y.actor.state_ ∈ stableStates) := by
  obtain ⟨⟨name, actor_id, context, state, derived⟩, trace⟩ := x
  simp only [lifecycleCommands, List.mem_cons, List.mem_singleton, List.not_mem_nil,
    or_false] at hm
  rcases hm with rfl | rfl | rfl | rfl | rfl
  · refine ⟨_, ProcessMessage_GoStartActor th uc alive hd _, ?_⟩
    cases state <;>
      simp [HandleGoStart, Exec.Dispatch, Exec.call, ActorState.HasCurrentState,
        ActorState.Dispatch, ActorState.On, restStates, stableStates]
  · refine ⟨_, ProcessMessage_GoPauseActor th uc alive hd _, ?_⟩
    cases state <;>
      simp [HandleGoPause, Exec.Dispatch, Exec.call, ActorState.HasCurrentState,
        ActorState.Dispatch, ActorState.On, restStates, stableStates]
  · refine ⟨_, ProcessMessage_GoResumeActor th uc alive hd _, ?_⟩
    cases state <;>
      simp [HandleGoResume, Exec.Dispatch, Exec.call, ActorState.HasCurrentState,
        ActorState.Dispatch, ActorState.On, restStates, stableStates]
  · refine ⟨_, ProcessMessage_GoStopActor th uc alive hd _, ?_⟩
    cases state <;>
      simp [HandleGoStop, Exec.Dispatch, Exec.call, ActorState.HasCurrentState,
        ActorState.Dispatch, ActorState.On, restStates, stableStates]
  · refine ⟨_, ProcessMessage_GoTerminateActor th uc alive hd _, ?_⟩
    cases state <;>
      simp [HandleGoTerminate, Exec.Dispatch, Exec.call, ActorState.HasCurrentState,
        ActorState.Dispatch, ActorState.On, restStates, stableStates]

/-- A list of lifecycle commands, run from a rest state, ends in a rest state; it
ends in a stable state when it started in one or contains a Start or a
Terminate. -/
theorem lifecycle_run (hd : th.lifecycle.Nodup) (cmds : List BaseMessage)
    (hc : ∀ m ∈ cmds, m ∈ lifecycleCommands) (x : Exec U)
    (hx : x.actor.state_ ∈ restStates) :
    ∃ r : Exec U, ProcessMessages th uc alive cmds x = .returned r ∧
      r.actor.state_ ∈ restStates ∧
      (x.actor.state_ ∈ stableStates → r.actor.state_ ∈ stableStates) ∧
      (BaseMessage.GoStartActor ∈ cmds ∨ BaseMessage.GoTerminateActor ∈ cmds →
        r.actor.state_ ∈ stableStates) := by
  induction cmds generalizing x with
  | nil => exact ⟨x, rfl, hx, id, by simp⟩
  | cons m rest ih =>
    obtain ⟨y, hy, hrest, hstable, hmove⟩ :=
      lifecycle_step th uc alive hd m (hc m (List.mem_cons_self m rest)) x
    obtain ⟨r, hr, hr1, hr2, hr3⟩ :=
      ih (fun k hk => hc k (List.mem_cons_of_mem m hk)) y (hrest hx)
    refine ⟨r, by simp only [ProcessMessages, hy]; exact hr, hr1,
      fun h => hr2 (hstable h), fun h => ?_⟩
    by_cases hfirst : m = .GoStartActor ∨ m = .GoTerminateActor
    · exact hr2 (hmove hfirst hx)
    · have hne1 : BaseMessage.GoStartActor ≠ m := fun h => hfirst (Or.inl h.symm)
      have hne2 : BaseMessage.GoTerminateActor ≠ m := fun h => hfirst (Or.inr h.symm)
      simp only [List.mem_cons, hne1, hne2, false_or] at h
      exact hr3 h

/-- C12: for every finite sequence of lifecycle commands processed one after
another by a freshly constructed actor, processing returns, the state after
each command (after every initial part of the sequence) is one of Created,
Running, Paused, Stopped, Terminated, and it is one of Running, Paused,
Stopped, Terminated as soon as the part processed contains a Start or a
Terminate. -/
theorem C12_state_between_commands_is_stable (hd : th.lifecycle.Nodup)
    (name : String) (actor_id : ActorId) (derived : U) (cmds : List BaseMessage)
    (hc : ∀ m ∈ cmds, m ∈ lifecycleCommands) (n : Nat) :
    ∃ r : Exec U,
      ProcessMessages th uc alive (cmds.take n)
        { actor := Actor.new name actor_id derived, trace := [] } = .returned r ∧
      r.actor.state_ ∈ restStates ∧
      r.actor.state_ ∉ [InitializingState, StartingState, StoppingState, TerminatingState] ∧
      (BaseMessage.GoStartActor ∈ cmds.take n ∨ BaseMessage.GoTerminateActor ∈ cmds.take n →
        r.actor.state_ ∈ stableStates) := by
  obtain ⟨r, hr, h1, -, h3⟩ :=
    lifecycle_run th uc alive hd (cmds.take n)
      (fun m hm => hc m (List.mem_of_mem_take hm))
      { actor := Actor.new name actor_id derived, trace := [] }
      (by simp [Actor.new, ActorState.init, restStates])
  refine ⟨r, hr, h1, ?_, h3⟩
  revert h1
  cases r.actor.state_ <;> simp [restStates]

/-- C12 on the worked instance: Pause, Start, Stop, Start, Pause sent to a fresh
actor; after the first three it is Stopped. -/
theorem C12_state_between_commands_is_stable_witness :
    sampleHash.lifecycle.Nodup ∧
    ∃ r : Exec Nat,
      ProcessMessages sampleHash sampleCode allAlive
        (([.GoPauseActor, .GoStartActor, .GoStopActor, .GoStartActor, .GoPauseActor] :
          List BaseMessage).take 3)
        { actor := Actor.new "Vanya" 7 0, trace := [] } = .returned r ∧
      r.actor.state_ ∈ restStates ∧
      r.actor.state_ ∉ [InitializingState, StartingState, StoppingState, TerminatingState] ∧
      (BaseMessage.GoStartActor ∈
          ([.GoPauseActor, .GoStartActor, .GoStopActor, .GoStartActor, .GoPauseActor] :
            List BaseMessage).take 3 ∨
        BaseMessage.GoTerminateActor ∈
          ([.GoPauseActor, .GoStartActor, .GoStopActor, .GoStartActor, .GoPauseActor] :
            List BaseMessage).take 3 →
        r.actor.state_ ∈ stableStates) :=
  ⟨by decide,
   C12_state_between_commands_is_stable sampleHash sampleCode allAlive (by decide) "Vanya" 7 0
     [.GoPauseActor, .GoStartActor, .GoStopActor, .GoStartActor, .GoPauseActor]
     (by decide) 3⟩

/-! ## The state of a new actor -/

/-- C13: every newly constructed actor, also one returned by
`ActorSystem::CreateActor`, is in state Created with `IsRunning`, `IsPaused`,
`IsStopped` and `IsTerminated` all false; each of the four predicates is true
exactly in its own state, so no two of them hold in the same state. -/
theorem C13_new_actor_is_created :
    (∀ (V : Type) (name : String) (actor_id : ActorId) (derived : V),
      (Actor.new name actor_id derived).GetState = CreatedState) ∧
    (∀ (V : Type) (name : String) (derived : V) (id_generator_ : Nat),
      (ActorSystem.CreateActor name derived id_generator_).1.GetState = CreatedState) ∧
    (ActorState.HasCurrentState ActorState.init CreatedState = true ∧
      ActorState.IsRunning ActorState.init = false ∧
      ActorState.IsPaused ActorState.init = false ∧
      ActorState.IsStopped ActorState.init = false ∧
      ActorState.IsTerminated ActorState.init = false) ∧
    (∀ s : State,
      (ActorState.IsRunning s = true ↔ s = RunningState) ∧
      (ActorState.IsPaused s = true ↔ s = PausedState) ∧
      (ActorState.IsStopped s = true ↔ s = StoppedState) ∧
      (ActorState.IsTerminated s = true ↔ s = TerminatedState)) ∧
    (∀ s : State,
      ¬ (ActorState.IsRunning s = true ∧ ActorState.IsPaused s = true) ∧
      ¬ (ActorState.IsRunning s = true ∧ ActorState.IsStopped s = true) ∧
      ¬ (ActorState.IsRunning s = true ∧ ActorState.IsTerminated s = true) ∧
      ¬ (ActorState.IsPaused s = true ∧ ActorState.IsStopped s = true) ∧
      ¬ (ActorState.IsPaused s = true ∧ ActorState.IsTerminated s = true) ∧
      ¬ (ActorState.IsStopped s = true ∧ ActorState.IsTerminated s = true)) := by
  refine ⟨fun _ _ _ _ => rfl, fun _ _ _ _ => rfl, by decide, fun s => ?_, fun s => ?_⟩
  · cases s <;> decide
  · cases s <;> decide

end ActorProcessing

/-! ## Supervision strategy -/

/-- With at least one handler, `Decide` is the answer of the first handler in
iteration order, whatever the failure. -/
theorem Decide_first_handler (derives : Nat → Nat → Bool) (key : Nat)
    (handler : TypedExceptionHandler) (rest : List (Nat × TypedExceptionHandler))
    (d : Directive) (failure : ActorFailureEvent) :
    OneForOneStrategy.Decide derives
        { exception_handlers_ := (key, handler) :: rest, default_directive_ := d } failure
      = handler.Handle derives failure.cause := rfl

/-- When the handler that comes first is the one registered for the type of the
cause, `Decide` returns its success directive. -/
theorem Decide_first_handler_matches (derives : Nat → Nat → Bool) (key : Nat)
    (handler : TypedExceptionHandler) (rest : List (Nat × TypedExceptionHandler))
    (d : Directive) (failure : ActorFailureEvent)
    (hmatch : failure.cause.type_id = handler.exception_type) :
    OneForOneStrategy.Decide derives
        { exception_handlers_ := (key, handler) :: rest, default_directive_ := d } failure
      = handler.success_directive_ := by
  simp [OneForOneStrategy.Decide, TypedExceptionHandler.Handle, hmatch]

/-- C14, at the input where the code departs from it: handlers are registered
for the unrelated exception types 1 (Resume) and 2 (Restart).  Whichever of
the two the container iterates over first, a failure whose cause is of the
other type is answered by the first handler with its default directive,
Escalate, not with the success directive registered for its type (which the
policy of the specification returns). -/
theorem C14_only_first_handler_is_asked :
    (((OneForOneStrategy.new.HandleException 1 .Resume .Escalate 0).HandleException
          2 .Restart .Escalate 0).exception_handlers_
        = [(2, { exception_type := 2, success_directive_ := .Restart,
                 default_directive_ := .Escalate }),
           (1, { exception_type := 1, success_directive_ := .Resume,
                 default_directive_ := .Escalate })] ∧
      OneForOneStrategy.Decide noDerivation
          ((OneForOneStrategy.new.HandleException 1 .Resume .Escalate 0).HandleException
            2 .Restart .Escalate 0) (sampleFailure 1) = .Escalate ∧
      specDecide noDerivation
          ((OneForOneStrategy.new.HandleException 1 .Resume .Escalate 0).HandleException
            2 .Restart .Escalate 0) (sampleFailure 1) = .Resume) ∧
    (((OneForOneStrategy.new.HandleException 1 .Resume .Escalate 0).HandleException
          2 .Restart .Escalate 1).exception_handlers_
        = [(1, { exception_type := 1, success_directive_ := .Resume,
                 default_directive_ := .Escalate }),
           (2, { exception_type := 2, success_directive_ := .Restart,
                 default_directive_ := .Escalate })] ∧
      OneForOneStrategy.Decide noDerivation
          ((OneForOneStrategy.new.HandleException 1 .Resume .Escalate 0).HandleException
            2 .Restart .Escalate 1) (sampleFailure 2) = .Escalate ∧
      specDecide noDerivation
          ((OneForOneStrategy.new.HandleException 1 .Resume .Escalate 0).HandleException
            2 .Restart .Escalate 1) (sampleFailure 2) = .Restart) := by
  decide

/-- C15, at the input where the code departs from it: the strategy is given the
default directive Stop and one handler, for exception type 1 (Restart, with
the handler default Escalate).  A failure whose cause is of type 2 matches no
handler; `Decide` returns the default of that handler, Escalate, not the
configured default of the strategy, Stop (which the policy of the
specification returns). -/
theorem C15_strategy_default_is_not_used :
    ((OneForOneStrategy.new.SetDefaultDirective .Stop).HandleException
        1 .Restart .Escalate 0).default_directive_ = .Stop ∧
    ((OneForOneStrategy.new.SetDefaultDirective .Stop).HandleException
        1 .Restart .Escalate 0).exception_handlers_
      = [(1, { exception_type := 1, success_directive_ := .Restart,
               default_directive_ := .Escalate })] ∧
    OneForOneStrategy.Decide noDerivation
        ((OneForOneStrategy.new.SetDefaultDirective .Stop).HandleException
          1 .Restart .Escalate 0) (sampleFailure 2) = .Escalate ∧
    specDecide noDerivation
        ((OneForOneStrategy.new.SetDefaultDirective .Stop).HandleException
          1 .Restart .Escalate 0) (sampleFailure 2) = .Stop := by
  decide

/-- C16: for a strategy with no registered handler, `Decide` returns Escalate for
every failure event when `SetDefaultDirective` was never called, and returns
`d` for every failure event once `SetDefaultDirective(d)` was the last call,
whatever calls of `SetDefaultDirective` came before. -/
theorem C16_no_handler_returns_default (derives : Nat → Nat → Bool)
    (failure : ActorFailureEvent) :
    OneForOneStrategy.Decide derives OneForOneStrategy.new failure = .Escalate ∧
    (∀ (earlier : List Directive) (d : Directive),
      OneForOneStrategy.Decide derives
        ((earlier.foldl OneForOneStrategy.SetDefaultDirective
          OneForOneStrategy.new).SetDefaultDirective d) failure = d) := by
  refine ⟨rfl, fun earlier d => ?_⟩
  have hempty : ∀ (ds : List Directive) (s : OneForOneStrategy),
      s.exception_handlers_ = [] →
      (ds.foldl OneForOneStrategy.SetDefaultDirective s).exception_handlers_ = [] := by
    intro ds
    induction ds with
    | nil => intro s hs; exact hs
    | cons d0 rest ih => intro s hs; exact ih _ hs
  have h := hempty earlier OneForOneStrategy.new rfl
  simp [OneForOneStrategy.Decide, OneForOneStrategy.SetDefaultDirective, h]

/-- When the first handler is not the one for the type of the cause, `Decide`
returns the default directive of that handler, not the one of the strategy. -/
theorem Decide_first_handler_mismatch (key : Nat) (handler : TypedExceptionHandler)
    (rest : List (Nat × TypedExceptionHandler)) (d : Directive) (failure : ActorFailureEvent)
    (hmiss : failure.cause.type_id ≠ handler.exception_type) :
    OneForOneStrategy.Decide noDerivation
        { exception_handlers_ := (key, handler) :: rest, default_directive_ := d } failure
      = handler.default_directive_ := by
  simp [OneForOneStrategy.Decide, TypedExceptionHandler.Handle, hmiss, noDerivation]

/-! ## Failure routing in the context -/

section FailureRouting

variable {U : Type} (alive : ActorId → Bool) (facadeAlive : Bool)

/-- C17: when `HandleChildFailure` receives a failure event whose `actor_id` is
not a key of the child map, or whose child entry has no strategy, and the
parent of the context is alive, it returns having called `Receive` on the
parent exactly once, with a new `ActorFailureEvent` whose `actor_id` and
`actor_name` are those of the context's own actor, whose cause is the cause of
the received event and whose `failed_message` is the received event; nothing
else is handed out (no child receives a message) and the context, with its
child map, is unchanged. -/
theorem C17_unknown_child_escalates (failure_event : ActorFailureEvent) (x : ContextExec U)
    (parent : ActorId)
    (hchild : x.context.children_ failure_event.actor_id = none ∨
      ∃ info : ChildInfo U,
        x.context.children_ failure_event.actor_id = some info ∧ info.strategy = none)
    (hparent : x.context.parent_ = some parent) (halive : alive parent = true) :
    ActorContext.HandleChildFailure alive facadeAlive failure_event x
      = .returned
          { x with deliveries := x.deliveries ++
              [Delivery.parentReceive parent
                (.ActorFailureEvent x.context.self_.actor_id_ x.context.self_.name_
                  failure_event.cause failure_event.toMessage)] } ∧
    (ActorContext.HandleChildFailure alive facadeAlive failure_event x).exec.context.children_
      = x.context.children_ := by
  have hesc : ActorContext.escalate_to_parent alive failure_event x
      = { x with deliveries := x.deliveries ++
            [Delivery.parentReceive parent
              (.ActorFailureEvent x.context.self_.actor_id_ x.context.self_.name_
                failure_event.cause failure_event.toMessage)] } := by
    simp [ActorContext.escalate_to_parent, hparent, Wptr.lock, halive, ContextExec.deliver,
      ActorFailureEvent.toMessage]
  rcases hchild with hnone | ⟨info, hsome, hstrategy⟩
  · simp [ActorContext.HandleChildFailure, hnone, hesc, ContextOutcome.exec]
  · simp [ActorContext.HandleChildFailure, hsome, hstrategy, hesc, ContextOutcome.exec]

/-- C17 on the worked tree: a failure event naming actor 9, which is no child of
the context. -/
theorem C17_unknown_child_escalates_witness :
    (ActorContext.HandleChildFailure allAlive true
        { sampleFailure 2 with actor_id := 9 } (sampleContext true)).exec.deliveries
      = [Delivery.parentReceive 3
          (.ActorFailureEvent 1 "boss" { type_id := 2, what := "boom" }
            (.ActorFailureEvent 9 "Vanya" { type_id := 2, what := "boom" }
              (.UserMessage 99 0)))] := by
  have h := (C17_unknown_child_escalates allAlive true
    { sampleFailure 2 with actor_id := 9 } (sampleContext true) 3 (Or.inl rfl) rfl rfl).1
  rw [h]
  rfl

/-- C18: when `HandleChildFailure` receives a failure event for a known child
(an entry with a strategy and an actor object), the directive that `Decide`
returns selects the action: Resume hands the child exactly one
`GoResumeActor`, Stop hands it exactly one `GoStopActor`, and Escalate hands
the live parent of the context exactly one failure event naming the context's
own actor (nothing when no parent can be locked); in these three cases the
function returns and the context, with its child map, is unchanged. -/
theorem C18_directive_selects_action (failure_event : ActorFailureEvent) (x : ContextExec U)
    (info : ChildInfo U) (strategy : SupervisionStrategy) (child : ActorObject U)
    (hentry : x.context.children_ failure_event.actor_id = some info)
    (hstrategy : info.strategy = some strategy) (hactor : info.actor = some child) :
    (strategy.Decide failure_event = .Resume →
      ActorContext.HandleChildFailure alive facadeAlive failure_event x
        = .returned { x with deliveries := x.deliveries ++
            [Delivery.childReceive child.address .GoResumeActor] }) ∧
    (strategy.Decide failure_event = .Stop →
      ActorContext.HandleChildFailure alive facadeAlive failure_event x
        = .returned { x with deliveries := x.deliveries ++
            [Delivery.childReceive child.address .GoStopActor] }) ∧
    (strategy.Decide failure_event = .Escalate →
      (∀ parent : ActorId, x.context.parent_ = some parent → alive parent = true →
        ActorContext.HandleChildFailure alive facadeAlive failure_event x
          = .returned { x with deliveries := x.deliveries ++
              [Delivery.parentReceive parent
                (.ActorFailureEvent x.context.self_.actor_id_ x.context.self_.name_
                  failure_event.cause failure_event.toMessage)] }) ∧
      (Wptr.lock alive x.context.parent_ = none →
        ActorContext.HandleChildFailure alive facadeAlive failure_event x = .returned x)) ∧
    (strategy.Decide failure_event ≠ .Restart →
      (ActorContext.HandleChildFailure alive facadeAlive failure_event x).what = none ∧
      (ActorContext.HandleChildFailure alive facadeAlive failure_event x).exec.context
        = x.context) := by
  refine ⟨fun hd => ?_, fun hd => ?_, fun hd => ⟨fun parent hparent halive => ?_, fun hlock => ?_⟩,
    fun hd => ?_⟩
  · simp [ActorContext.HandleChildFailure, hentry, hstrategy, hactor, hd, ContextExec.deliver]
  · simp [ActorContext.HandleChildFailure, hentry, hstrategy, hactor, hd, ContextExec.deliver]
  · simp [ActorContext.HandleChildFailure, hentry, hstrategy, hd,
      ActorContext.escalate_to_parent, hparent, Wptr.lock, halive, ContextExec.deliver,
      ActorFailureEvent.toMessage]
  · simp [ActorContext.HandleChildFailure, hentry, hstrategy, hd,
      ActorContext.escalate_to_parent, hlock]
  · cases hdec : strategy.Decide failure_event with
    | Restart => exact absurd hdec hd
    | Resume =>
      simp [ActorContext.HandleChildFailure, hentry, hstrategy, hactor, hdec,
        ContextExec.deliver, ContextOutcome.exec, ContextOutcome.what]
    | Stop =>
      simp [ActorContext.HandleChildFailure, hentry, hstrategy, hactor, hdec,
        ContextExec.deliver, ContextOutcome.exec, ContextOutcome.what]
    | Escalate =>
      simp only [ActorContext.HandleChildFailure, hentry, hstrategy, hdec,
        ActorContext.escalate_to_parent]
      cases Wptr.lock alive x.context.parent_ <;>
        simp [ContextExec.deliver, ContextOutcome.exec, ContextOutcome.what]

/-- C18 on the worked tree: the worker fails with an exception of type 2, for
which the strategy says Stop. -/
theorem C18_directive_selects_action_witness :
    sampleStrategy.Decide (sampleFailure 2) = .Stop ∧
    (ActorContext.HandleChildFailure allAlive true (sampleFailure 2)
        (sampleContext true)).exec.deliveries
      = [Delivery.childReceive 0 .GoStopActor] := by
  refine ⟨by decide, ?_⟩
  have h := (C18_directive_selects_action allAlive true (sampleFailure 2) (sampleContext true)
    _ sampleStrategy _ rfl rfl rfl).2.1 (by decide)
  rw [h]
  rfl

/-! ## Restart -/

/-- C19, at the input where the code departs from it: the boss spawns the
worker with a strategy that restarts on the failure, and the worker fails.
`SpawnChild` builds the closure of the worker with the identifier 7, generated
once, and stops at the dereference of the moved `child` before the entry is
written; the failure event then finds no entry and is escalated to the parent:
the worker is not sent `GoTerminateActor` and no new child is built.  The
closure gives every actor it builds the identifier 7, so where the map does
hold the worker under 7 with this closure, the restart returns with a new
object under 7 whose identifier is 7 again, the identifier of the old child. -/
theorem C19_restart_of_spawned_child :
    ActorContext.SpawnChild "worker" (some sampleStrategy) 0 (sampleBoss false)
      = ActorContext.SpawnChildImpl (some sampleFactory) (some sampleStrategy)
          { sampleBoss false with id_generator_ := 8 } ∧
    (ActorContext.SpawnChild "worker" (some sampleStrategy) 0 (sampleBoss false)).1.what
      = some "empty Sptr dereferenced" ∧
    (ActorContext.SpawnChild "worker" (some sampleStrategy) 0
      (sampleBoss false)).1.exec.context.children_ 7 = none ∧
    sampleStrategy.Decide (sampleFailure 1) = .Restart ∧
    (ActorContext.HandleChildFailure allAlive false (sampleFailure 1)
      (ActorContext.SpawnChild "worker" (some sampleStrategy) 0
        (sampleBoss false)).1.exec).what = none ∧
    (ActorContext.HandleChildFailure allAlive false (sampleFailure 1)
      (ActorContext.SpawnChild "worker" (some sampleStrategy) 0
        (sampleBoss false)).1.exec).exec.deliveries
      = [Delivery.parentReceive 3
          (.ActorFailureEvent 1 "boss" (sampleFailure 1).cause (sampleFailure 1).toMessage)] ∧
    (ActorContext.HandleChildFailure allAlive false (sampleFailure 1)
      (ActorContext.SpawnChild "worker" (some sampleStrategy) 0
        (sampleBoss false)).1.exec).exec.context.children_ 7 = none ∧
    (ActorContext.callFactory sampleFactory (sampleBoss false)).1.actor.GetId = 7 ∧
    (ActorContext.callFactory sampleFactory
      (ActorContext.callFactory sampleFactory (sampleBoss false)).2).1.actor.GetId = 7 ∧
    (∃ (info : ChildInfo Nat) (old : ActorObject Nat),
      (sampleContext false).context.children_ 7 = some info ∧
      info.actor = some old ∧ info.factory = some sampleFactory ∧
      old.address = 0 ∧ old.actor.GetId = 7) ∧
    (ActorContext.HandleChildFailure allAlive false (sampleFailure 1)
      (sampleContext false)).what = none ∧
    (∃ (info : ChildInfo Nat) (fresh : ActorObject Nat),
      (ActorContext.HandleChildFailure allAlive false (sampleFailure 1)
        (sampleContext false)).exec.context.children_ 7 = some info ∧
      info.actor = some fresh ∧ fresh.address = 1 ∧ fresh.actor.state_ = CreatedState ∧
      fresh.actor.GetId = 7 ∧ ¬ (fresh.actor.GetId ≠ 7)) := by
  refine ⟨rfl, rfl, rfl, by decide, rfl, rfl, rfl, rfl, rfl, ⟨_, _, rfl, rfl, rfl, rfl, rfl⟩, rfl,
    ⟨_, _, rfl, rfl, rfl, rfl, rfl, ?_⟩⟩
  decide

/-- C20, at the input where the code departs from it: the worker is restarted
while the system is alive.  `info` has been moved into the child map when the
registration reads `info.actor`, so the step stops at the dereference of an
empty handle; the only delivery made is the `GoTerminateActor` to the old
child, and no `RegisterActorMessage` has reached the registry. -/
theorem C20_restart_reads_moved_child :
    sampleStrategy.Decide (sampleFailure 1) = .Restart ∧
    (ActorContext.HandleChildFailure allAlive true (sampleFailure 1)
      (sampleContext true)).what = some "empty Sptr dereferenced" ∧
    (ActorContext.HandleChildFailure allAlive true (sampleFailure 1)
      (sampleContext true)).exec.deliveries
      = [Delivery.childReceive 0 .GoTerminateActor] ∧
    (∀ (actor_id : ActorId) (actor_ref : ActorRef),
      Delivery.registryTell actor_id actor_ref ∉
        (ActorContext.HandleChildFailure allAlive true (sampleFailure 1)
          (sampleContext true)).exec.deliveries) := by
  refine ⟨by decide, rfl, rfl, fun actor_id actor_ref h => ?_⟩
  have hd : (ActorContext.HandleChildFailure allAlive true (sampleFailure 1)
      (sampleContext true)).exec.deliveries = [Delivery.childReceive 0 .GoTerminateActor] := rfl
  rw [hd] at h
  simp at h

/-- Whenever the system can be locked, a restart stops at the dereference of the
moved `info.actor`, and nothing has been handed to the registry. -/
theorem RestartChildActor_faults_when_system_alive (key : ActorId) (info : ChildInfo U)
    (child : ActorObject U) (f : Factory U) (x : ContextExec U)
    (hactor : info.actor = some child) (hfactory : info.factory = some f)
    (hsystem : x.context.system_facade_ = true) :
    (ActorContext.RestartChildActor true key info x).what = some "empty Sptr dereferenced" ∧
    (ActorContext.RestartChildActor true key info x).exec.deliveries
      = x.deliveries ++ [Delivery.childReceive child.address .GoTerminateActor] := by
  simp [ActorContext.RestartChildActor, hactor, hfactory, hsystem, ContextExec.deliver,
    ActorContext.callFactory, ContextOutcome.what, ContextOutcome.exec]

/-- `SpawnChildImpl` stops at the dereference of the moved `child` before it
writes the child map. -/
theorem SpawnChildImpl_reads_moved_child (f : Factory U)
    (strategy : Option SupervisionStrategy) (x : ContextExec U) :
    (ActorContext.SpawnChildImpl (some f) strategy x).1.what = some "empty Sptr dereferenced" ∧
    (ActorContext.SpawnChildImpl (some f) strategy x).1.exec.context.children_
      = x.context.children_ := by
  simp [ActorContext.SpawnChildImpl, ActorRef.ofActor, ActorContext.callFactory,
    ContextOutcome.what, ContextOutcome.exec]

/-! ## One for one -/

/-- An escalation leaves the context as it is and hands nothing to a child. -/
theorem escalate_to_parent_frame (failure_event : ActorFailureEvent) (x : ContextExec U) :
    (ActorContext.escalate_to_parent alive failure_event x).context = x.context ∧
    ∃ new : List Delivery,
      (ActorContext.escalate_to_parent alive failure_event x).deliveries = x.deliveries ++ new ∧
      ∀ (address : Nat) (message : BaseMessage), Delivery.childReceive address message ∉ new := by
  unfold ActorContext.escalate_to_parent
  cases Wptr.lock alive x.context.parent_ with
  | none => exact ⟨rfl, [], by simp, by simp⟩
  | some parent => exact ⟨rfl, [_], rfl, by simp⟩

/-! ## The keys of the child map -/

/-- The map of a context as its constructor leaves it is keyed. -/
theorem keyed_new (parent : Sptr U) (self : Actor U) (facade : Bool) :
    (ActorContext.new parent self facade).children_.keyed := by
  intro k info h
  simp [ActorContext.new] at h

/-- The actor a closure builds has the identifier captured in the closure. -/
theorem callFactory_identifier (f : Factory U) (x : ContextExec U) :
    (ActorContext.callFactory f x).1.actor.GetId = f.actor_id ∧
    (ActorContext.callFactory f x).1.actor.name_ = f.name ∧
    (ActorContext.callFactory f x).1.address = x.allocated ∧
    (ActorContext.callFactory f x).2.context = x.context := by
  simp [ActorContext.callFactory, ActorContext.CreateActor, Actor.new, Actor.SetContext,
    Actor.GetId]

/-- An assignment under the identifier of the entry's actor and closure keeps
the map keyed. -/
theorem keyed_assign (m : ChildMap U) (key : ActorId) (info : ChildInfo U)
    (hm : m.keyed)
    (hactor : ∀ child : ActorObject U, info.actor = some child → child.actor.GetId = key)
    (hfactory : ∀ f : Factory U, info.factory = some f → f.actor_id = key) :
    (m.assign key info).keyed := by
  intro k entry h
  by_cases hk : k = key
  · subst hk
    simp only [ChildMap.assign, if_true, Option.some.injEq] at h
    subst h
    exact ⟨hactor, hfactory⟩
  · simp only [ChildMap.assign, hk, if_false] at h
    exact hm k entry h

/-- An erasure keeps the map keyed. -/
theorem keyed_erase (m : ChildMap U) (key : ActorId) (hm : m.keyed) : (m.erase key).keyed := by
  intro k entry h
  by_cases hk : k = key
  · simp [ChildMap.erase, hk] at h
  · simp only [ChildMap.erase, hk, if_false] at h
    exact hm k entry h

/-- `SpawnChildImpl` keeps the map keyed, and the entry that its assignment
names is keyed too: it holds the actor the closure built, it is to be stored
under the identifier of that actor, and that is the identifier in the closure. -/
theorem SpawnChildImpl_keeps_keyed (factory : Option (Factory U))
    (strategy : Option SupervisionStrategy) (x : ContextExec U)
    (hkeyed : x.context.children_.keyed) :
    (ActorContext.SpawnChildImpl factory strategy x).1.exec.context.children_.keyed ∧
    ∀ f : Factory U, factory = some f →
      (x.context.children_.assign (ActorContext.callFactory f x).1.actor.GetId
        { actor := some (ActorContext.callFactory f x).1, strategy := strategy,
          factory := some f }).keyed := by
  constructor
  · cases factory with
    | none => exact hkeyed
    | some f =>
      simpa [ActorContext.SpawnChildImpl, ActorRef.ofActor, ActorContext.callFactory,
        ContextOutcome.exec] using hkeyed
  · intro f _
    refine keyed_assign _ _ _ hkeyed (fun child h => ?_) (fun g h => ?_)
    · simp only [Option.some.injEq] at h
      rw [← h]
    · simp only [Option.some.injEq] at h
      rw [← h]
      exact ((callFactory_identifier f x).1).symm

/-- `HandleChildFailure` keeps the map keyed, whatever the directive and however
the step ends. -/
theorem HandleChildFailure_keeps_keyed (failure_event : ActorFailureEvent) (x : ContextExec U)
    (hkeyed : x.context.children_.keyed) :
    (ActorContext.HandleChildFailure alive facadeAlive failure_event
      x).exec.context.children_.keyed := by
  obtain ⟨hctx, _⟩ := escalate_to_parent_frame alive failure_event x
  cases hentry : x.context.children_ failure_event.actor_id with
  | none =>
    simp only [ActorContext.HandleChildFailure, hentry, ContextOutcome.exec, hctx]
    exact hkeyed
  | some info =>
    obtain ⟨hkactor, hkfactory⟩ := hkeyed _ info hentry
    cases hstrategy : info.strategy with
    | none =>
      simp only [ActorContext.HandleChildFailure, hentry, hstrategy, ContextOutcome.exec, hctx]
      exact hkeyed
    | some strategy =>
      cases hdec : strategy.Decide failure_event with
      | Resume =>
        cases hactor : info.actor <;>
          simpa [ActorContext.HandleChildFailure, hentry, hstrategy, hdec, hactor,
            ContextOutcome.exec, ContextExec.deliver] using hkeyed
      | Stop =>
        cases hactor : info.actor <;>
          simpa [ActorContext.HandleChildFailure, hentry, hstrategy, hdec, hactor,
            ContextOutcome.exec, ContextExec.deliver] using hkeyed
      | Escalate =>
        simp only [ActorContext.HandleChildFailure, hentry, hstrategy, hdec,
          ContextOutcome.exec, hctx]
        exact hkeyed
      | Restart =>
        simp only [ActorContext.HandleChildFailure, hentry, hstrategy, hdec]
        cases hactor : info.actor with
        | none => simpa [ActorContext.RestartChildActor, hactor, ContextOutcome.exec] using hkeyed
        | some child =>
          have hmoved : ((x.context.children_.assign failure_event.actor_id
              { actor := some child, strategy := none, factory := none }).erase
              child.actor.GetId).keyed :=
            keyed_erase _ _ (keyed_assign _ _ _ hkeyed
              (fun c hc => by
                simp only [Option.some.injEq] at hc
                rw [← hc]
                exact hkactor child hactor)
              (fun g hg => by simp at hg))
          cases hfactory : info.factory with
          | none =>
            simpa [ActorContext.RestartChildActor, hactor, hfactory, ContextOutcome.exec,
              ContextExec.deliver] using hmoved
          | some f =>
            have hnew : (((x.context.children_.assign failure_event.actor_id
                { actor := some child, strategy := none, factory := none }).erase
                child.actor.GetId).assign f.actor_id
                { actor := some
                    { address := x.allocated,
                      actor := (Actor.new f.name f.actor_id f.derived).SetContext
                        { parent_ := some x.context.self_.actor_id_ } },
                  strategy := some strategy, factory := some f }).keyed :=
              keyed_assign _ _ _ hmoved
                (fun c hc => by
                  simp only [Option.some.injEq] at hc
                  rw [← hc]
                  rfl)
                (fun g hg => by
                  simp only [Option.some.injEq] at hg
                  rw [← hg])
            cases hlock : (x.context.system_facade_ && facadeAlive) <;>
              simpa [ActorContext.RestartChildActor, hactor, hfactory, hstrategy,
                ContextOutcome.exec, ContextExec.deliver, ActorContext.callFactory,
                ActorContext.CreateActor, Actor.GetId, Actor.new, Actor.SetContext, hlock]
                using hnew

/-- `SpawnChild` keeps the map keyed. -/
theorem SpawnChild_keeps_keyed (name : String) (strategy : Option SupervisionStrategy)
    (derived : U) (x : ContextExec U) (hkeyed : x.context.children_.keyed) :
    (ActorContext.SpawnChild name strategy derived x).1.exec.context.children_.keyed := by
  simp only [ActorContext.SpawnChild]
  exact (SpawnChildImpl_keeps_keyed _ strategy
    { context := x.context, allocated := x.allocated,
      id_generator_ := (IDGenerator.Generate x.id_generator_).2,
      deliveries := x.deliveries } hkeyed).1

/-- The child map of a context is keyed throughout its life: from its
construction on, after every series of calls of `SpawnChild` and of
`HandleChildFailure`, however each of them ended. -/
theorem keyed_throughout (ops : List (ContextOp U)) :
    ∀ x : ContextExec U, x.context.children_.keyed →
      (ops.foldl ContextExec.after x).context.children_.keyed := by
  induction ops with
  | nil => intro x h; exact h
  | cons op rest ih =>
    intro x h
    refine ih _ ?_
    cases op with
    | SpawnChild name strategy derived => exact SpawnChild_keeps_keyed name strategy derived x h
    | HandleChildFailure al fa ev => exact HandleChildFailure_keeps_keyed al fa ev x h

/-- A context that was constructed and then used has a keyed child map. -/
theorem keyed_from_construction (parent : Sptr U) (self : Actor U) (facade : Bool)
    (allocated id_generator_ : Nat) (ops : List (ContextOp U)) :
    (ops.foldl ContextExec.after
      { context := ActorContext.new parent self facade, allocated := allocated,
        id_generator_ := id_generator_, deliveries := [] }).context.children_.keyed :=
  keyed_throughout ops _ (keyed_new parent self facade)

/-! ## One for one -/

/-- C21: supervision is one for one.  In a context whose child map is keyed as
the code keys it, for a failure event naming child C and for every directive,
however the step ends, `HandleChildFailure` leaves the entry of every other
key of the child map as it was (actor, strategy and closure), and every
`Receive` it calls on a child is on the object held in C's entry. -/
theorem C21_only_the_failing_child_is_touched (failure_event : ActorFailureEvent)
    (x : ContextExec U) (hkeyed : x.context.children_.keyed) :
    (∀ k : ActorId, k ≠ failure_event.actor_id →
      (ActorContext.HandleChildFailure alive facadeAlive failure_event x).exec.context.children_ k
        = x.context.children_ k) ∧
    (∃ new : List Delivery,
      (ActorContext.HandleChildFailure alive facadeAlive failure_event x).exec.deliveries
        = x.deliveries ++ new ∧
      ∀ (address : Nat) (message : BaseMessage), Delivery.childReceive address message ∈ new →
        ∃ (info : ChildInfo U) (child : ActorObject U),
          x.context.children_ failure_event.actor_id = some info ∧
          info.actor = some child ∧ child.address = address) := by
  obtain ⟨hctx, new, hnew, hnone⟩ := escalate_to_parent_frame alive failure_event x
  cases hentry : x.context.children_ failure_event.actor_id with
  | none =>
    simp only [ActorContext.HandleChildFailure, hentry, ContextOutcome.exec]
    exact ⟨fun k _ => by rw [hctx], new, hnew, fun a m h => absurd h (hnone a m)⟩
  | some info =>
    obtain ⟨hkactor, hkfactory⟩ := hkeyed _ info hentry
    cases hstrategy : info.strategy with
    | none =>
      simp only [ActorContext.HandleChildFailure, hentry, hstrategy, ContextOutcome.exec]
      exact ⟨fun k _ => by rw [hctx], new, hnew, fun a m h => absurd h (hnone a m)⟩
    | some strategy =>
      cases hdec : strategy.Decide failure_event with
      | Resume =>
        cases hactor : info.actor with
        | none =>
          simp only [ActorContext.HandleChildFailure, hentry, hstrategy, hdec, hactor,
            ContextOutcome.exec]
          exact ⟨fun k _ => trivial, [], by simp, fun a m h => by simp at h⟩
        | some child =>
          simp only [ActorContext.HandleChildFailure, hentry, hstrategy, hdec, hactor,
            ContextOutcome.exec, ContextExec.deliver]
          refine ⟨fun k _ => trivial, [_], rfl, fun a m h => ⟨info, child, rfl, hactor, ?_⟩⟩
          simp at h
          exact h.1.symm
      | Stop =>
        cases hactor : info.actor with
        | none =>
          simp only [ActorContext.HandleChildFailure, hentry, hstrategy, hdec, hactor,
            ContextOutcome.exec]
          exact ⟨fun k _ => trivial, [], by simp, fun a m h => by simp at h⟩
        | some child =>
          simp only [ActorContext.HandleChildFailure, hentry, hstrategy, hdec, hactor,
            ContextOutcome.exec, ContextExec.deliver]
          refine ⟨fun k _ => trivial, [_], rfl, fun a m h => ⟨info, child, rfl, hactor, ?_⟩⟩
          simp at h
          exact h.1.symm
      | Escalate =>
        simp only [ActorContext.HandleChildFailure, hentry, hstrategy, hdec, ContextOutcome.exec]
        exact ⟨fun k _ => by rw [hctx], new, hnew, fun a m h => absurd h (hnone a m)⟩
      | Restart =>
        simp only [ActorContext.HandleChildFailure, hentry, hstrategy, hdec]
        cases hactor : info.actor with
        | none =>
          simp only [ActorContext.RestartChildActor, hactor, ContextOutcome.exec]
          exact ⟨fun k _ => trivial, [], by simp, fun a m h => by simp at h⟩
        | some child =>
          have hid : child.actor.actor_id_ = failure_event.actor_id := hkactor child hactor
          refine ⟨fun k hk => ?_, [Delivery.childReceive child.address .GoTerminateActor], ?_,
            fun a m h => ⟨info, child, rfl, hactor, ?_⟩⟩
          · cases hfactory : info.factory with
            | none =>
              simp [ActorContext.RestartChildActor, hactor, hfactory, ContextExec.deliver,
                ChildMap.assign, ChildMap.erase, ContextOutcome.exec, Actor.GetId, hid, hk]
            | some f =>
              have hf : f.actor_id = failure_event.actor_id := hkfactory f hfactory
              cases hlock : (x.context.system_facade_ && facadeAlive) <;>
                simp [ActorContext.RestartChildActor, hactor, hfactory, ContextExec.deliver,
                  ActorContext.callFactory, ActorContext.CreateActor, Actor.new,
                  Actor.SetContext, Actor.GetId, ChildMap.assign, ChildMap.erase, hlock,
                  ContextOutcome.exec, hid, hf, hk]
          · cases hfactory : info.factory with
            | none =>
              simp [ActorContext.RestartChildActor, hactor, hfactory, ContextExec.deliver,
                ContextOutcome.exec]
            | some f =>
              cases hlock : (x.context.system_facade_ && facadeAlive) <;>
                simp [ActorContext.RestartChildActor, hactor, hfactory, ContextExec.deliver,
                  ActorContext.callFactory, hlock, ContextOutcome.exec]
          · simp at h
            exact h.1.symm

/-- The map of the boss with its two children is keyed. -/
theorem sampleFamily_keyed (system_facade : Bool) :
    (sampleFamily system_facade).context.children_.keyed := by
  intro k info h
  simp only [sampleFamily] at h
  split_ifs at h with h7 h8
  · simp only [Option.some.injEq] at h
    subst h
    subst h7
    exact ⟨fun child hc => by simp only [Option.some.injEq] at hc; rw [← hc]; rfl,
      fun f hf => by simp only [Option.some.injEq] at hf; rw [← hf]; rfl⟩
  · simp only [Option.some.injEq] at h
    subst h
    subst h8
    exact ⟨fun child hc => by simp only [Option.some.injEq] at hc; rw [← hc]; rfl,
      fun f hf => by simp only [Option.some.injEq] at hf; rw [← hf]; rfl⟩

/-- C21 on the boss with two children: the worker (key 7, at address 0) fails
and is restarted; the entry of the helper under key 8 is the one it was, with
the helper at address 1, and the only `Receive` on a child is the
`GoTerminateActor` for the worker's object. -/
theorem C21_only_the_failing_child_is_touched_witness :
    (sampleFamily false).context.children_.keyed ∧
    sampleStrategy.Decide (sampleFailure 1) = .Restart ∧
    (sampleFamily false).context.children_ 8
      = some { actor := some { address := 1,
                               actor := { name_ := "helper", actor_id_ := 8,
                                          context_ := some { parent_ := some 1 },
                                          state_ := RunningState, derived := 2 } },
               strategy := some sampleStrategy, factory := some sampleHelperFactory } ∧
    (ActorContext.HandleChildFailure allAlive false (sampleFailure 1)
        (sampleFamily false)).exec.context.children_ 8
      = (sampleFamily false).context.children_ 8 ∧
    (ActorContext.HandleChildFailure allAlive false (sampleFailure 1)
        (sampleFamily false)).exec.deliveries
      = [Delivery.childReceive 0 .GoTerminateActor] :=
  ⟨sampleFamily_keyed false, by decide, rfl,
   (C21_only_the_failing_child_is_touched allAlive false (sampleFailure 1) (sampleFamily false)
      (sampleFamily_keyed false)).1 8 (by decide),
   rfl⟩

end FailureRouting

/-! ## Dispatcher and downcast -/

section Messages

variable {S : Type} (th : TypeHash)

/-- A message is of the type its own identifier names. -/
theorem Cast_own_type (message : MessageObject) :
    Cast th (message.message.GetTypeId th) (some message) = some message := by
  simp [Cast, BaseMessage.IsA]

/-- After a series of registrations the map holds, under each identifier, the
closure built from the latest handler registered for it, and is as it was
under every identifier not registered. -/
theorem handlers_after_registrations (registrations : List (MessageTypeID × UserHandler S))
    (d : MessageDispatcher S) (k : MessageTypeID) :
    (registrations.foldl (fun acc r => acc.RegisterHandler th r.1 r.2) d).handlers_ k
      = match registeredFor registrations k with
        | some handler =>
          some (fun message x => handler.invoke (Cast th k (some message)) x)
        | none => d.handlers_ k := by
  induction registrations generalizing d with
  | nil => rfl
  | cons r later ih =>
    obtain ⟨key, handler⟩ := r
    simp only [List.foldl_cons, registeredFor]
    rw [ih]
    cases registeredFor later k with
    | some h => rfl
    | none =>
      by_cases hk : k = key
      · simp [MessageDispatcher.RegisterHandler, hk]
      · simp [MessageDispatcher.RegisterHandler, hk]

/-- C22: for a dispatcher built by any series of `RegisterHandler` calls,
`Dispatch(m)` is exactly one invocation of the handler registered for the type
identifier of `m`, with `m` itself as the narrowed pointer, when there is such
a handler: the record of invocations grows by that one entry; when no handler
is registered for the identifier, `Dispatch(m)` invokes nothing and changes
nothing. -/
theorem C22_dispatch_invokes_registered_handler
    (registrations : List (MessageTypeID × UserHandler S)) (message : MessageObject)
    (x : DispatchExec S) :
    (∀ handler : UserHandler S,
      registeredFor registrations (message.message.GetTypeId th) = some handler →
      MessageDispatcher.Dispatch th
          (registrations.foldl (fun acc r => acc.RegisterHandler th r.1 r.2)
            MessageDispatcher.new) message x
        = handler.invoke (some message) x ∧
      (MessageDispatcher.Dispatch th
          (registrations.foldl (fun acc r => acc.RegisterHandler th r.1 r.2)
            MessageDispatcher.new) message x).1.calls
        = x.calls ++ [(handler.tag, some message)]) ∧
    (registeredFor registrations (message.message.GetTypeId th) = none →
      MessageDispatcher.Dispatch th
          (registrations.foldl (fun acc r => acc.RegisterHandler th r.1 r.2)
            MessageDispatcher.new) message x
        = (x, none)) := by
  constructor
  · intro handler hreg
    have hrun : MessageDispatcher.Dispatch th
          (registrations.foldl (fun acc r => acc.RegisterHandler th r.1 r.2)
            MessageDispatcher.new) message x
        = handler.invoke (some message) x := by
      simp only [MessageDispatcher.Dispatch, handlers_after_registrations, hreg, Cast_own_type]
    rw [hrun]
    exact ⟨rfl, rfl⟩
  · intro hreg
    simp only [MessageDispatcher.Dispatch, handlers_after_registrations, hreg,
      MessageDispatcher.new]

/-- C22 on an instance: two handlers for the types 21 and 22; a message of type
22 reaches the second, a message of type 23 reaches none. -/
theorem C22_dispatch_invokes_registered_handler_witness :
    (MessageDispatcher.Dispatch sampleHash
        ([(21, countingHandler 1), (22, countingHandler 2)].foldl
          (fun acc r => acc.RegisterHandler sampleHash r.1 r.2) MessageDispatcher.new)
        { address := 40, message := .UserMessage 22 0 } { state := 0, calls := [] }).1.calls
      = [] ++ [(2, some { address := 40, message := .UserMessage 22 0 })] ∧
    MessageDispatcher.Dispatch sampleHash
        ([(21, countingHandler 1), (22, countingHandler 2)].foldl
          (fun acc r => acc.RegisterHandler sampleHash r.1 r.2) MessageDispatcher.new)
        { address := 41, message := .UserMessage 23 0 } { state := 0, calls := [] }
      = ({ state := 0, calls := [] }, none) :=
  ⟨((C22_dispatch_invokes_registered_handler sampleHash
      [(21, countingHandler 1), (22, countingHandler 2)]
      { address := 40, message := .UserMessage 22 0 } { state := 0, calls := [] }).1
      (countingHandler 2) rfl).2,
   (C22_dispatch_invokes_registered_handler sampleHash
      [(21, countingHandler 1), (22, countingHandler 2)]
      { address := 41, message := .UserMessage 23 0 } { state := 0, calls := [] }).2 rfl⟩

/-- C23: registration is last write wins per message type: after
`RegisterHandler<M>(h1)` followed by `RegisterHandler<M>(h2)` on any
dispatcher, dispatching a message of type `M` is exactly one invocation of
`h2` (the record grows by the one entry of `h2`, none of `h1`), and what is
registered for every other type identifier, and so the dispatch of every
message of another type, is as before. -/
theorem C23_last_registration_wins (d : MessageDispatcher S) (M : MessageTypeID)
    (h1 h2 : UserHandler S) (message : MessageObject) (x : DispatchExec S) :
    (message.message.GetTypeId th = M →
      MessageDispatcher.Dispatch th ((d.RegisterHandler th M h1).RegisterHandler th M h2)
          message x
        = h2.invoke (some message) x ∧
      (MessageDispatcher.Dispatch th ((d.RegisterHandler th M h1).RegisterHandler th M h2)
          message x).1.calls
        = x.calls ++ [(h2.tag, some message)]) ∧
    (∀ k : MessageTypeID, k ≠ M →
      ((d.RegisterHandler th M h1).RegisterHandler th M h2).handlers_ k = d.handlers_ k) ∧
    (message.message.GetTypeId th ≠ M →
      MessageDispatcher.Dispatch th ((d.RegisterHandler th M h1).RegisterHandler th M h2)
          message x
        = MessageDispatcher.Dispatch th d message x) := by
  refine ⟨fun hM => ?_, fun k hk => ?_, fun hM => ?_⟩
  · have hrun : MessageDispatcher.Dispatch th
          ((d.RegisterHandler th M h1).RegisterHandler th M h2) message x
        = h2.invoke (some message) x := by
      simp [MessageDispatcher.Dispatch, MessageDispatcher.RegisterHandler, hM, Cast,
        BaseMessage.IsA]
    rw [hrun]
    exact ⟨rfl, rfl⟩
  · simp [MessageDispatcher.RegisterHandler, hk]
  · simp [MessageDispatcher.Dispatch, MessageDispatcher.RegisterHandler, hM]

/-- C23 on an instance: two handlers registered in turn for type 21. -/
theorem C23_last_registration_wins_witness :
    (MessageDispatcher.Dispatch sampleHash
        (((MessageDispatcher.new : MessageDispatcher Nat).RegisterHandler sampleHash 21
          (countingHandler 1)).RegisterHandler sampleHash 21 (countingHandler 2))
        { address := 40, message := .UserMessage 21 0 } { state := 0, calls := [] }).1.calls
      = [] ++ [(2, some { address := 40, message := .UserMessage 21 0 })] :=
  ((C23_last_registration_wins sampleHash MessageDispatcher.new 21 (countingHandler 1)
    (countingHandler 2) { address := 40, message := .UserMessage 21 0 }
    { state := 0, calls := [] }).1 rfl).2

/-- C24: for every message handle `m` and target type `T`, `Cast<T>(m)` is
non-null if and only if `m` is non-null and the type identifier of the message
equals the type identifier of `T`; when it is non-null it is `m` itself, the
same object at the same address. -/
theorem C24_cast_succeeds_iff_same_type (T : MessageTypeID) (m : MPtr) :
    ((Cast th T m).isSome = true ↔
      ∃ object : MessageObject, m = some object ∧ object.message.GetTypeId th = T) ∧
    (Cast th T m ≠ none → Cast th T m = m) ∧
    Cast th T none = none := by
  cases m with
  | none => simp [Cast]
  | some object =>
    by_cases h : object.message.GetTypeId th = T <;> simp [Cast, BaseMessage.IsA, h]

end Messages

/-! ## Registry -/

section Registry

variable (th : TypeHash) (rm : RegistryMessages) (alive : ActorId → Bool)

/-- With pairwise distinct identifiers each request reaches its own handler. -/
theorem registry_Behaviour (hn : rm.requests.Nodup) (p : Nat)
    (self : Actor ActorRegistryMembers) :
    ActorRegistry.Behaviour th rm (.UserMessage rm.RegisterActorMessage p) self
      = ActorRegistry.HandleRegisterActor rm
          { address := 0, message := .UserMessage rm.RegisterActorMessage p } self.derived ∧
    ActorRegistry.Behaviour th rm (.UserMessage rm.UnregisterActorMessage p) self
      = ActorRegistry.HandleUnregisterActor rm
          { address := 0, message := .UserMessage rm.UnregisterActorMessage p } self.derived ∧
    ActorRegistry.Behaviour th rm (.UserMessage rm.FindActorMessage p) self
      = ActorRegistry.HandleFindActor rm
          { address := 0, message := .UserMessage rm.FindActorMessage p } self.derived ∧
    ActorRegistry.Behaviour th rm (.UserMessage rm.FindActorWithCallbackMessage p) self
      = ActorRegistry.HandleFindActorWithCallback rm
          { address := 0, message := .UserMessage rm.FindActorWithCallbackMessage p }
          self.derived := by
  simp only [RegistryMessages.requests, List.nodup_cons, List.mem_cons, List.mem_singleton,
    not_or, List.not_mem_nil, or_false, List.nodup_nil, and_true, not_false_eq_true] at hn
  obtain ⟨⟨a1, a2, a3⟩, ⟨b1, b2⟩, c1⟩ := hn
  simp [ActorRegistry.Behaviour, ActorRegistry.dispatcher, MessageDispatcher.Dispatch,
    MessageDispatcher.RegisterHandler, BaseMessage.GetTypeId, UserHandler.invoke,
    ActorRegistry.handler, Cast, BaseMessage.IsA, a1, a2, a3, b1, b2, c1]

/-- A Running actor whose `Behaviour` returns on a user message has run it once
and is otherwise as before. -/
theorem process_user_message_returns {U : Type} (uc : UserCode U) (m : BaseMessage)
    (hm : m.GetTypeId th ∉ th.lifecycle) (x : Exec U) (hrun : x.actor.state_ = RunningState)
    (d : U) (hb : uc.Behaviour m x.actor = (d, none)) :
    ProcessMessage th uc alive m x
      = .returned { actor := { x.actor with derived := d },
                    trace := x.trace ++ [Effect.behaviour m] } := by
  rw [ProcessMessage_user th uc alive m hm x]
  simp [HandleUserMessage, ActorState.IsRunning, ActorState.HasCurrentState, hrun, hb]

/-- The identifiers of the requests are none of the lifecycle identifiers. -/
theorem requests_not_lifecycle (hd : (th.lifecycle ++ rm.requests).Nodup) (t : MessageTypeID)
    (ht : t ∈ rm.requests) : t ∉ th.lifecycle :=
  fun hl => (List.nodup_append.mp hd).2.2 hl ht

/-- One request of the three that never throw: the registry stays Running, and
what its map holds for an identifier afterwards is the word of the request
about it, or what it held before when the request says nothing about it. -/
theorem registry_step (hd : (th.lifecycle ++ rm.requests).Nodup) (t : MessageTypeID) (p : Nat)
    (ht : t ∈ [rm.RegisterActorMessage, rm.UnregisterActorMessage, rm.FindActorMessage])
    (x : Exec ActorRegistryMembers) (hrun : x.actor.state_ = RunningState) :
    ∃ r : Exec ActorRegistryMembers,
      ProcessMessage th (ActorRegistry.code th rm) alive (.UserMessage t p) x = .returned r ∧
      r.actor.state_ = RunningState ∧
      ∀ id : ActorId,
        r.actor.derived.actors_ id
          = match wordOf th rm (.UserMessage t p) id with
            | some word => word
            | none => x.actor.derived.actors_ id := by
  have hn : rm.requests.Nodup := (List.nodup_append.mp hd).2.1
  have hB := registry_Behaviour th rm hn p x.actor
  have hn2 := hn
  simp only [RegistryMessages.requests, List.nodup_cons, List.mem_cons, List.mem_singleton,
    not_or, List.not_mem_nil, or_false, List.nodup_nil, and_true, not_false_eq_true] at hn2
  obtain ⟨⟨a1, a2, a3⟩, ⟨b1, b2⟩, c1⟩ := hn2
  simp only [List.mem_cons, List.mem_singleton, List.not_mem_nil, or_false] at ht
  rcases ht with rfl | rfl | rfl
  · have hb : (ActorRegistry.code th rm).Behaviour (.UserMessage rm.RegisterActorMessage p) x.actor
        = ((ActorRegistry.HandleRegisterActor rm
            { address := 0, message := .UserMessage rm.RegisterActorMessage p }
            x.actor.derived).1, none) := by
      simp only [ActorRegistry.code, hB.1]; rfl
    refine ⟨_, process_user_message_returns th alive (ActorRegistry.code th rm) _
      (requests_not_lifecycle th rm hd _
        (by simp [RegistryMessages.requests, BaseMessage.GetTypeId])) x hrun _ hb, hrun,
      fun id => ?_⟩
    by_cases hid : (rm.registerMembers p).1 = id
    · simp [ActorRegistry.HandleRegisterActor, wordOf, BaseMessage.GetTypeId,
        BaseMessage.payload, hid.symm]
    · have hid2 : ¬ id = (rm.registerMembers p).1 := fun h => hid h.symm
      simp [ActorRegistry.HandleRegisterActor, wordOf, BaseMessage.GetTypeId,
        BaseMessage.payload, hid, hid2, a1]
  · have hb : (ActorRegistry.code th rm).Behaviour (.UserMessage rm.UnregisterActorMessage p)
          x.actor
        = ((ActorRegistry.HandleUnregisterActor rm
            { address := 0, message := .UserMessage rm.UnregisterActorMessage p }
            x.actor.derived).1, none) := by
      simp only [ActorRegistry.code, hB.2.1]; rfl
    refine ⟨_, process_user_message_returns th alive (ActorRegistry.code th rm) _
      (requests_not_lifecycle th rm hd _
        (by simp [RegistryMessages.requests, BaseMessage.GetTypeId])) x hrun _ hb, hrun,
      fun id => ?_⟩
    by_cases hid : rm.unregisterMembers p = id
    · simp [ActorRegistry.HandleUnregisterActor, wordOf, BaseMessage.GetTypeId,
        BaseMessage.payload, hid.symm, Ne.symm a1]
    · have hid2 : ¬ id = rm.unregisterMembers p := fun h => hid h.symm
      simp [ActorRegistry.HandleUnregisterActor, wordOf, BaseMessage.GetTypeId,
        BaseMessage.payload, hid, hid2, Ne.symm a1]
  · have hthrow : (ActorRegistry.HandleFindActor rm
          { address := 0, message := .UserMessage rm.FindActorMessage p } x.actor.derived).2
        = none := by
      simp only [ActorRegistry.HandleFindActor]; split <;> rfl
    have hd2 : (ActorRegistry.HandleFindActor rm
          { address := 0, message := .UserMessage rm.FindActorMessage p }
          x.actor.derived).1.actors_
        = x.actor.derived.actors_ := by
      simp only [ActorRegistry.HandleFindActor]; split <;> rfl
    have hd1 : ActorRegistry.HandleFindActor rm
          { address := 0, message := .UserMessage rm.FindActorMessage p } x.actor.derived
        = ((ActorRegistry.HandleFindActor rm
            { address := 0, message := .UserMessage rm.FindActorMessage p }
            x.actor.derived).1, none) := Prod.ext rfl hthrow
    have hb : (ActorRegistry.code th rm).Behaviour (.UserMessage rm.FindActorMessage p) x.actor
        = ((ActorRegistry.HandleFindActor rm
            { address := 0, message := .UserMessage rm.FindActorMessage p }
            x.actor.derived).1, none) := by
      simp only [ActorRegistry.code, hB.2.2.1]; exact hd1
    refine ⟨_, process_user_message_returns th alive (ActorRegistry.code th rm) _
      (requests_not_lifecycle th rm hd _
        (by simp [RegistryMessages.requests, BaseMessage.GetTypeId])) x hrun _ hb, hrun,
      fun id => ?_⟩
    simp [wordOf, BaseMessage.GetTypeId, hd2, Ne.symm a2, Ne.symm b1]

/-- A history of requests that never throw, run by a Running registry: it stays
Running, and its map holds for each identifier the latest word of the history
about it, or what it held before when the history says nothing about it. -/
theorem registry_history (hd : (th.lifecycle ++ rm.requests).Nodup)
    (history : List (MessageTypeID × Nat))
    (hh : ∀ e ∈ history,
      e.1 ∈ [rm.RegisterActorMessage, rm.UnregisterActorMessage, rm.FindActorMessage])
    (x : Exec ActorRegistryMembers) (hrun : x.actor.state_ = RunningState) :
    ∃ r : Exec ActorRegistryMembers,
      ProcessMessages th (ActorRegistry.code th rm) alive
        (history.map (fun e => BaseMessage.UserMessage e.1 e.2)) x = .returned r ∧
      r.actor.state_ = RunningState ∧
      ∀ id : ActorId,
        r.actor.derived.actors_ id
          = match lastSaid th rm (history.map (fun e => BaseMessage.UserMessage e.1 e.2)) id with
            | some word => word
            | none => x.actor.derived.actors_ id := by
  induction history generalizing x with
  | nil => exact ⟨x, rfl, hrun, fun id => rfl⟩
  | cons e later ih =>
    obtain ⟨y, hy, hyrun, hymap⟩ :=
      registry_step th rm alive hd e.1 e.2 (hh e (List.mem_cons_self e later)) x hrun
    obtain ⟨r, hr, hrrun, hrmap⟩ :=
      ih (fun k hk => hh k (List.mem_cons_of_mem e hk)) y hyrun
    refine ⟨r, by simp only [List.map_cons, ProcessMessages, hy]; exact hr, hrrun, fun id => ?_⟩
    rw [hrmap id, hymap id]
    simp only [List.map_cons, lastSaid]
    cases lastSaid th rm (later.map (fun e => BaseMessage.UserMessage e.1 e.2)) id <;> rfl

/-- C26: the registry behaves as a finite map while Running.  Processing a
`RegisterActorMessage` maps its identifier to its reference, replacing what
was mapped, and leaves every other identifier as it was; processing an
`UnregisterActorMessage` removes the mapping of its identifier only;
processing a `FindActorMessage` calls `Tell` on `reply_to` exactly once, with
`ActorFoundResponseMessage` carrying the mapped reference when the identifier
is mapped and `ActorNotFoundResponseMessage` carrying the identifier
otherwise, and changes nothing else; so after any history of such requests
from an empty map the response carries the reference most recently
registered for the identifier, if it was registered and not unregistered
since. -/
theorem C26_registry_is_a_finite_map (hd : (th.lifecycle ++ rm.requests).Nodup)
    (x : Exec ActorRegistryMembers) (hrun : x.actor.state_ = RunningState) (p : Nat) :
    (∃ r : Exec ActorRegistryMembers,
      ProcessMessage th (ActorRegistry.code th rm) alive
        (.UserMessage rm.RegisterActorMessage p) x = .returned r ∧
      r.actor.state_ = RunningState ∧
      r.actor.derived.done = x.actor.derived.done ∧
      r.actor.derived.actors_ (rm.registerMembers p).1 = some (rm.registerMembers p).2 ∧
      ∀ k : ActorId, k ≠ (rm.registerMembers p).1 →
        r.actor.derived.actors_ k = x.actor.derived.actors_ k) ∧
    (∃ r : Exec ActorRegistryMembers,
      ProcessMessage th (ActorRegistry.code th rm) alive
        (.UserMessage rm.UnregisterActorMessage p) x = .returned r ∧
      r.actor.state_ = RunningState ∧
      r.actor.derived.done = x.actor.derived.done ∧
      r.actor.derived.actors_ (rm.unregisterMembers p) = none ∧
      ∀ k : ActorId, k ≠ rm.unregisterMembers p →
        r.actor.derived.actors_ k = x.actor.derived.actors_ k) ∧
    (∃ r : Exec ActorRegistryMembers,
      ProcessMessage th (ActorRegistry.code th rm) alive
        (.UserMessage rm.FindActorMessage p) x = .returned r ∧
      r.actor.state_ = RunningState ∧
      r.actor.derived.actors_ = x.actor.derived.actors_ ∧
      r.actor.derived.done = x.actor.derived.done ++
        [RegistryEffect.tell (rm.findMembers p).2
          (findResponse (x.actor.derived.actors_ (rm.findMembers p).1) (rm.findMembers p).1)]) ∧
    (∀ history : List (MessageTypeID × Nat),
      (∀ e ∈ history,
        e.1 ∈ [rm.RegisterActorMessage, rm.UnregisterActorMessage, rm.FindActorMessage]) →
      (x.actor.derived.actors_ = fun _ => none) →
      ∃ r s : Exec ActorRegistryMembers,
        ProcessMessages th (ActorRegistry.code th rm) alive
          (history.map (fun e => BaseMessage.UserMessage e.1 e.2)) x = .returned r ∧
        ProcessMessage th (ActorRegistry.code th rm) alive
          (.UserMessage rm.FindActorMessage p) r = .returned s ∧
        s.actor.derived.done = r.actor.derived.done ++
          [RegistryEffect.tell (rm.findMembers p).2
            (findResponse
              (mostRecentlyRegistered th rm
                (history.map (fun e => BaseMessage.UserMessage e.1 e.2)) (rm.findMembers p).1)
              (rm.findMembers p).1)]) := by
  have hn : rm.requests.Nodup := (List.nodup_append.mp hd).2.1
  have hfind : ∀ y : Exec ActorRegistryMembers, y.actor.state_ = RunningState →
      ∃ r : Exec ActorRegistryMembers,
        ProcessMessage th (ActorRegistry.code th rm) alive
          (.UserMessage rm.FindActorMessage p) y = .returned r ∧
        r.actor.state_ = RunningState ∧
        r.actor.derived.actors_ = y.actor.derived.actors_ ∧
        r.actor.derived.done = y.actor.derived.done ++
          [RegistryEffect.tell (rm.findMembers p).2
            (findResponse (y.actor.derived.actors_ (rm.findMembers p).1)
              (rm.findMembers p).1)] := by
    intro y hyrun
    have hB := (registry_Behaviour th rm hn p y.actor).2.2.1
    have hthrow : (ActorRegistry.HandleFindActor rm
          { address := 0, message := .UserMessage rm.FindActorMessage p } y.actor.derived).2
        = none := by
      simp only [ActorRegistry.HandleFindActor]; split <;> rfl
    have hb : (ActorRegistry.code th rm).Behaviour (.UserMessage rm.FindActorMessage p) y.actor
        = ((ActorRegistry.HandleFindActor rm
            { address := 0, message := .UserMessage rm.FindActorMessage p }
            y.actor.derived).1, none) := by
      simp only [ActorRegistry.code, hB]; exact Prod.ext rfl hthrow
    refine ⟨_, process_user_message_returns th alive (ActorRegistry.code th rm) _
      (requests_not_lifecycle th rm hd _
        (by simp [RegistryMessages.requests, BaseMessage.GetTypeId])) y hyrun _ hb, hyrun,
      ?_, ?_⟩
    · simp only [ActorRegistry.HandleFindActor]; split <;> rfl
    · simp only [ActorRegistry.HandleFindActor, BaseMessage.payload]
      cases hmap : y.actor.derived.actors_ (rm.findMembers p).1 <;> simp [findResponse]
  refine ⟨?_, ?_, hfind x hrun, fun history hh hempty => ?_⟩
  · have hB := (registry_Behaviour th rm hn p x.actor).1
    have hb : (ActorRegistry.code th rm).Behaviour (.UserMessage rm.RegisterActorMessage p)
          x.actor
        = ((ActorRegistry.HandleRegisterActor rm
            { address := 0, message := .UserMessage rm.RegisterActorMessage p }
            x.actor.derived).1, none) := by
      simp only [ActorRegistry.code, hB]; rfl
    refine ⟨_, process_user_message_returns th alive (ActorRegistry.code th rm) _
      (requests_not_lifecycle th rm hd _
        (by simp [RegistryMessages.requests, BaseMessage.GetTypeId])) x hrun _ hb, hrun,
      rfl, ?_, fun k hk => ?_⟩
    · simp [ActorRegistry.HandleRegisterActor, BaseMessage.payload]
    · simp [ActorRegistry.HandleRegisterActor, BaseMessage.payload, hk]
  · have hB := (registry_Behaviour th rm hn p x.actor).2.1
    have hb : (ActorRegistry.code th rm).Behaviour (.UserMessage rm.UnregisterActorMessage p)
          x.actor
        = ((ActorRegistry.HandleUnregisterActor rm
            { address := 0, message := .UserMessage rm.UnregisterActorMessage p }
            x.actor.derived).1, none) := by
      simp only [ActorRegistry.code, hB]; rfl
    refine ⟨_, process_user_message_returns th alive (ActorRegistry.code th rm) _
      (requests_not_lifecycle th rm hd _
        (by simp [RegistryMessages.requests, BaseMessage.GetTypeId])) x hrun _ hb, hrun,
      rfl, ?_, fun k hk => ?_⟩
    · simp [ActorRegistry.HandleUnregisterActor, BaseMessage.payload]
    · simp [ActorRegistry.HandleUnregisterActor, BaseMessage.payload, hk]
  · obtain ⟨r, hr, hrrun, hrmap⟩ := registry_history th rm alive hd history hh x hrun
    obtain ⟨s, hs, -, -, hsdone⟩ := hfind r hrrun
    refine ⟨r, s, hr, hs, ?_⟩
    rw [hsdone, hrmap (rm.findMembers p).1, hempty]
    simp only [mostRecentlyRegistered]
    generalize lastSaid th rm (history.map (fun e => BaseMessage.UserMessage e.1 e.2))
        (rm.findMembers p).1 = word
    rcases word with _ | _ | _ <;> rfl

/-- C26 on the worked registry: 7 is registered with the reference of 9,
unregistered, then registered with the reference of 5; a `Find` for 7 that
answers to actor 3 is told what the history says. -/
theorem C26_registry_is_a_finite_map_witness :
    (sampleHash.lifecycle ++ sampleRegistryMessages.requests).Nodup ∧
    mostRecentlyRegistered sampleHash sampleRegistryMessages
      (([(31, 907), (32, 7), (31, 507)] : List (MessageTypeID × Nat)).map
        (fun e => BaseMessage.UserMessage e.1 e.2)) 7 = some (sampleRef 5) ∧
    ∃ r s : Exec ActorRegistryMembers,
      ProcessMessages sampleHash (ActorRegistry.code sampleHash sampleRegistryMessages) allAlive
        (([(31, 907), (32, 7), (31, 507)] : List (MessageTypeID × Nat)).map
          (fun e => BaseMessage.UserMessage e.1 e.2)) sampleRunningRegistry = .returned r ∧
      ProcessMessage sampleHash (ActorRegistry.code sampleHash sampleRegistryMessages) allAlive
        (.UserMessage sampleRegistryMessages.FindActorMessage 307) r = .returned s ∧
      s.actor.derived.done = r.actor.derived.done ++
        [RegistryEffect.tell (sampleRegistryMessages.findMembers 307).2
          (findResponse
            (mostRecentlyRegistered sampleHash sampleRegistryMessages
              (([(31, 907), (32, 7), (31, 507)] : List (MessageTypeID × Nat)).map
                (fun e => BaseMessage.UserMessage e.1 e.2))
              (sampleRegistryMessages.findMembers 307).1)
            (sampleRegistryMessages.findMembers 307).1)] :=
  ⟨by decide, by decide,
   (C26_registry_is_a_finite_map sampleHash sampleRegistryMessages allAlive (by decide)
      sampleRunningRegistry rfl 307).2.2.2 [(31, 907), (32, 7), (31, 507)] (by decide) rfl⟩

/-- What `HandleUserMessage` leaves in the derived part of a Running actor is
what `Behaviour` left there, whether it returned or threw. -/
theorem HandleUserMessage_derived {U : Type} (uc : UserCode U) (m : BaseMessage) (x : Exec U)
    (hrun : x.actor.state_ = RunningState) :
    (HandleUserMessage uc alive m x).exec.actor.derived = (uc.Behaviour m x.actor).1 := by
  simp only [HandleUserMessage, ActorState.IsRunning, ActorState.HasCurrentState, hrun]
  simp only [decide_True, Bool.not_true, Bool.false_eq_true, ↓reduceIte]
  cases (uc.Behaviour m x.actor).2 with
  | none => rfl
  | some cause =>
    simp only [Actor.GetContext, Exec.Dispatch]
    cases x.actor.context_ with
    | none => rfl
    | some ctx =>
      simp only []
      cases Wptr.lock alive ctx.GetParent <;> rfl

/-- C27: processing a `FindActorWithCallbackMessage` in a Running registry
calls the callback, a closure, exactly once, with the reference currently
mapped to the identifier, when the identifier is mapped (the map is
unchanged, and the registry goes on Running when the closure returns); when
the identifier is not mapped the callback is not called, nothing is done
towards others, and the map and the state are unchanged. -/
theorem C27_find_with_callback (hd : (th.lifecycle ++ rm.requests).Nodup)
    (x : Exec ActorRegistryMembers) (hrun : x.actor.state_ = RunningState) (p : Nat) :
    (∀ (mapped : ActorRef) (tag : Nat),
      x.actor.derived.actors_ (rm.findWithCallbackMembers p).1 = some mapped →
      (rm.findWithCallbackMembers p).2 = some tag →
      (ProcessMessage th (ActorRegistry.code th rm) alive
          (.UserMessage rm.FindActorWithCallbackMessage p) x).exec.actor.derived.done
        = x.actor.derived.done ++ [RegistryEffect.callback tag mapped] ∧
      (ProcessMessage th (ActorRegistry.code th rm) alive
          (.UserMessage rm.FindActorWithCallbackMessage p) x).exec.actor.derived.actors_
        = x.actor.derived.actors_ ∧
      (rm.callbackThrows tag mapped = none →
        ∃ r : Exec ActorRegistryMembers,
          ProcessMessage th (ActorRegistry.code th rm) alive
            (.UserMessage rm.FindActorWithCallbackMessage p) x = .returned r ∧
          r.actor.state_ = RunningState)) ∧
    (x.actor.derived.actors_ (rm.findWithCallbackMembers p).1 = none →
      ProcessMessage th (ActorRegistry.code th rm) alive
          (.UserMessage rm.FindActorWithCallbackMessage p) x
        = .returned
            { x with trace := x.trace ++
                [Effect.behaviour (.UserMessage rm.FindActorWithCallbackMessage p)] }) := by
  have hn : rm.requests.Nodup := (List.nodup_append.mp hd).2.1
  have hB := (registry_Behaviour th rm hn p x.actor).2.2.2
  have hm : (BaseMessage.UserMessage rm.FindActorWithCallbackMessage p).GetTypeId th
      ∉ th.lifecycle :=
    requests_not_lifecycle th rm hd _
      (by simp [RegistryMessages.requests, BaseMessage.GetTypeId])
  constructor
  · intro mapped tag hmapped htag
    have hb : (ActorRegistry.code th rm).Behaviour
          (.UserMessage rm.FindActorWithCallbackMessage p) x.actor
        = ({ x.actor.derived with
              done := x.actor.derived.done ++ [RegistryEffect.callback tag mapped] },
            rm.callbackThrows tag mapped) := by
      simp only [ActorRegistry.code, hB]
      simp [ActorRegistry.HandleFindActorWithCallback, BaseMessage.payload, hmapped, htag]
    rw [ProcessMessage_user th (ActorRegistry.code th rm) alive _ hm x,
      HandleUserMessage_derived alive (ActorRegistry.code th rm) _ x hrun, hb]
    refine ⟨rfl, rfl, fun hret => ?_⟩
    rw [hret] at hb
    have := process_user_message_returns th alive (ActorRegistry.code th rm) _ hm x hrun _ hb
    rw [ProcessMessage_user th (ActorRegistry.code th rm) alive _ hm x] at this
    exact ⟨_, this, hrun⟩
  · intro hnone
    have hb : (ActorRegistry.code th rm).Behaviour
          (.UserMessage rm.FindActorWithCallbackMessage p) x.actor
        = (x.actor.derived, none) := by
      simp only [ActorRegistry.code, hB]
      simp [ActorRegistry.HandleFindActorWithCallback, BaseMessage.payload, hnone]
    exact process_user_message_returns th alive (ActorRegistry.code th rm) _ hm x hrun _ hb

/-- C27 on the worked registry, where 7 is mapped to the reference of 9: a
request about 7 with the closure 2 calls it once with that reference, and a
request about 8 with the closure 2 does nothing. -/
theorem C27_find_with_callback_witness :
    (sampleHash.lifecycle ++ sampleRegistryMessages.requests).Nodup ∧
    samplePopulatedRegistry.actor.state_ = RunningState ∧
    samplePopulatedRegistry.actor.derived.actors_ 7 = some (sampleRef 9) ∧
    samplePopulatedRegistry.actor.derived.actors_ 8 = none ∧
    (ProcessMessage sampleHash (ActorRegistry.code sampleHash sampleRegistryMessages) allAlive
        (.UserMessage sampleRegistryMessages.FindActorWithCallbackMessage 207)
        samplePopulatedRegistry).exec.actor.derived.done
      = samplePopulatedRegistry.actor.derived.done ++ [RegistryEffect.callback 2 (sampleRef 9)] ∧
    ProcessMessage sampleHash (ActorRegistry.code sampleHash sampleRegistryMessages) allAlive
        (.UserMessage sampleRegistryMessages.FindActorWithCallbackMessage 208)
        samplePopulatedRegistry
      = .returned
          { samplePopulatedRegistry with
            trace := samplePopulatedRegistry.trace ++
              [Effect.behaviour
                (.UserMessage sampleRegistryMessages.FindActorWithCallbackMessage 208)] } :=
  ⟨by decide, rfl, rfl, rfl,
   ((C27_find_with_callback sampleHash sampleRegistryMessages allAlive (by decide)
      samplePopulatedRegistry rfl 207).1 (sampleRef 9) 2 rfl rfl).1,
   (C27_find_with_callback sampleHash sampleRegistryMessages allAlive (by decide)
      samplePopulatedRegistry rfl 208).2 rfl⟩

/-! ## Clearing the map -/

/-- `GoStopActor` in Running, Paused or Starting enters `OnStop`, which clears
the map. -/
theorem registry_stop_clears (hd : th.lifecycle.Nodup) (x : Exec ActorRegistryMembers)
    (hstate : x.actor.state_ = RunningState ∨ x.actor.state_ = PausedState
      ∨ x.actor.state_ = StartingState) :
    (ProcessMessage th (ActorRegistry.code th rm) alive .GoStopActor x).exec.actor.derived.actors_
      = fun _ => none := by
  rw [ProcessMessage_GoStopActor th (ActorRegistry.code th rm) alive hd x]
  rcases hstate with h | h | h <;>
    simp [Outcome.exec, HandleGoStop, ActorState.HasCurrentState, h, Exec.Dispatch, Exec.call,
      ActorState.Dispatch, ActorState.On, ActorRegistry.code, ActorRegistry.clear]

/-- `GoTerminateActor` in any state but Terminated enters `OnTerminate`, which
clears the map. -/
theorem registry_terminate_clears (hd : th.lifecycle.Nodup) (x : Exec ActorRegistryMembers)
    (hstate : x.actor.state_ ≠ TerminatedState) :
    (ProcessMessage th (ActorRegistry.code th rm) alive .GoTerminateActor
        x).exec.actor.derived.actors_
      = fun _ => none := by
  rw [ProcessMessage_GoTerminateActor th (ActorRegistry.code th rm) alive hd x]
  revert hstate
  cases hs : x.actor.state_ <;> intro hstate <;>
    first
    | exact absurd rfl hstate
    | simp [Outcome.exec, HandleGoTerminate, ActorState.HasCurrentState, hs, Exec.Dispatch,
        Exec.call, ActorState.Dispatch, ActorState.On, ActorRegistry.code, ActorRegistry.clear]

/-- `GoStopActor` in Stopping, the state a failed `Behaviour` leaves, enters
`OnStopped` only: the registry is Stopped and its map is the one it had. -/
theorem registry_stop_in_stopping_keeps_map (hd : th.lifecycle.Nodup)
    (x : Exec ActorRegistryMembers) (hstate : x.actor.state_ = StoppingState) :
    (ProcessMessage th (ActorRegistry.code th rm) alive .GoStopActor x).exec.actor.state_
      = StoppedState ∧
    (ProcessMessage th (ActorRegistry.code th rm) alive .GoStopActor x).exec.actor.derived.actors_
      = x.actor.derived.actors_ := by
  rw [ProcessMessage_GoStopActor th (ActorRegistry.code th rm) alive hd x]
  simp [Outcome.exec, HandleGoStop, ActorState.HasCurrentState, hstate, Exec.Dispatch, Exec.call,
    ActorState.Dispatch, ActorState.On, ActorRegistry.code]

/-- C28: the root registry is started, registers the reference of 9 for 7,
then processes a `FindActorWithCallbackMessage` about 7 whose callback is
empty, and then `GoStopActor`.  The call of the empty function throws, the
failure path leaves the registry in Stopping without entering `OnStop`, and
`GoStopActor` takes it to Stopped through `OnStopped` alone: the registry is
Stopped and 7 is still mapped. -/
theorem C28_stopped_registry_keeps_entries :
    (∃ q : Exec ActorRegistryMembers,
      ProcessMessages sampleHash (ActorRegistry.code sampleHash sampleRegistryMessages) allAlive
        [.GoStartActor, .UserMessage sampleRegistryMessages.RegisterActorMessage 907,
         .UserMessage sampleRegistryMessages.FindActorWithCallbackMessage 7]
        sampleRegistry = .returned q ∧
      q.actor.state_ = StoppingState ∧
      q.actor.derived.actors_ 7 = some (sampleRef 9)) ∧
    ∃ r : Exec ActorRegistryMembers,
      ProcessMessages sampleHash (ActorRegistry.code sampleHash sampleRegistryMessages) allAlive
        [.GoStartActor, .UserMessage sampleRegistryMessages.RegisterActorMessage 907,
         .UserMessage sampleRegistryMessages.FindActorWithCallbackMessage 7, .GoStopActor]
        sampleRegistry = .returned r ∧
      r.actor.state_ = StoppedState ∧
      r.actor.derived.actors_ 7 = some (sampleRef 9) ∧
      hooksRun r.trace = [.OnInitialize, .OnStart, .OnStarted, .OnStopped] :=
  ⟨⟨_, rfl, rfl, rfl⟩, ⟨_, rfl, rfl, rfl, rfl⟩⟩

end Registry

/-! # Identifiers -/

section Identifiers

/-- The values of `count` successive calls of `Generate`, from a counter that
leaves room for them, are the counter and its successors. -/
theorem GenerateMany_values (count : Nat) :
    ∀ id_generator_ : Nat, id_generator_ + count ≤ 2 ^ 64 →
      (IDGenerator.GenerateMany count id_generator_).1 = List.range' id_generator_ count := by
  induction count with
  | zero => intro _ _; rfl
  | succ n ih =>
    intro g hg
    rcases Nat.eq_zero_or_pos n with hn | hn
    · subst hn; rfl
    · have hlt : (g + 1) % 2 ^ 64 = g + 1 := Nat.mod_eq_of_lt (by omega)
      simp only [IDGenerator.GenerateMany, IDGenerator.Generate, hlt, List.range'_succ]
      rw [ih (g + 1) (by omega)]

/-- The identifiers of the actors of successive creations are the values of as
many successive calls of `Generate`. -/
theorem CreateActors_ids {U : Type} (requests : List (String × U)) :
    ∀ id_generator_ : Nat,
      (ActorSystem.CreateActors requests id_generator_).1.map Actor.GetId
        = (IDGenerator.GenerateMany requests.length id_generator_).1 ∧
      (ActorSystem.CreateActors requests id_generator_).2
        = (IDGenerator.GenerateMany requests.length id_generator_).2 := by
  induction requests with
  | nil => intro _; exact ⟨rfl, rfl⟩
  | cons request later ih =>
    intro g
    obtain ⟨name, derived⟩ := request
    have h := ih (IDGenerator.Generate g).2
    simp only [ActorSystem.CreateActors, ActorSystem.CreateActor, List.map_cons,
      List.length_cons, IDGenerator.GenerateMany]
    exact ⟨congrArg₂ List.cons rfl h.1, h.2⟩

/-- C29: successive calls of `Generate`, as long as the 64-bit counter leaves
room for them, return the counter and then each time one more than the call
before: the values are strictly increasing and pairwise distinct, and they are
the identifiers of the actors of as many successive creations. -/
theorem C29_generated_identifiers_distinct (id_generator_ count : Nat)
    (hroom : id_generator_ + count ≤ 2 ^ 64) :
    (IDGenerator.GenerateMany count id_generator_).1.length = count ∧
    (∀ i : Nat, i < count →
      (IDGenerator.GenerateMany count id_generator_).1[i]? = some (id_generator_ + i)) ∧
    List.Chain' (fun earlier later => later = earlier + 1)
      (IDGenerator.GenerateMany count id_generator_).1 ∧
    (IDGenerator.GenerateMany count id_generator_).1.Pairwise (fun earlier later => earlier < later) ∧
    (IDGenerator.GenerateMany count id_generator_).1.Nodup ∧
    ∀ (U : Type) (requests : List (String × U)), requests.length = count →
      ((ActorSystem.CreateActors requests id_generator_).1.map Actor.GetId).Nodup := by
  have hvalues := GenerateMany_values count id_generator_ hroom
  refine ⟨?_, ?_, ?_, ?_, ?_, ?_⟩
  · rw [hvalues, List.length_range']
  · intro i hi
    rw [hvalues, List.getElem?_range' _ _ hi, Nat.one_mul]
  · rw [hvalues]
    cases count with
    | zero => exact List.chain'_nil
    | succ n =>
      rw [List.range'_succ]
      exact List.chain_succ_range' id_generator_ n 1
  · rw [hvalues]
    exact List.pairwise_lt_range' id_generator_ count
  · rw [hvalues]
    exact List.nodup_range' id_generator_ count
  · intro U requests hlen
    rw [(CreateActors_ids requests id_generator_).1, hlen, hvalues]
    exact List.nodup_range' id_generator_ count

/-- C29 for the first three calls of a program: they return 0, 1 and 2. -/
theorem C29_generated_identifiers_distinct_witness :
    IDGenerator.initial + 3 ≤ 2 ^ 64 ∧
    (IDGenerator.GenerateMany 3 IDGenerator.initial).1 = [0, 1, 2] ∧
    (IDGenerator.GenerateMany 3 IDGenerator.initial).1.Pairwise
      (fun earlier later => earlier < later) ∧
    (IDGenerator.GenerateMany 3 IDGenerator.initial).1.Nodup :=
  ⟨by decide, by decide,
   (C29_generated_identifiers_distinct IDGenerator.initial 3 (by decide)).2.2.2.1,
   (C29_generated_identifiers_distinct IDGenerator.initial 3 (by decide)).2.2.2.2.1⟩

/-- C30: the counter of the generator starts at 0 and `Generate` returns the
value before the increment, so the first call returns 0, and the first actor
created, which is the root registry of `InitServices`, has the identifier 0;
it is not greater than 0. -/
theorem C30_first_identifier_is_zero :
    IDGenerator.Generate IDGenerator.initial = (0, 1) ∧
    (IDGenerator.GenerateMany 3 IDGenerator.initial).1 = [0, 1, 2] ∧
    (ActorSystem.CreateActor "system/actor-registry" ActorRegistry.members
      IDGenerator.initial).1.GetId = 0 ∧
    sampleRegistry.actor.GetId = 0 ∧
    ¬ 0 < sampleRegistry.actor.GetId :=
  ⟨by decide, by decide, rfl, rfl, by decide⟩

end Identifiers

/-! # The general machine -/

section Machine

/-- C36: `Dispatch(e)` replaces the current state by the state `On` returns for
it and `e`, and leaves it as it is when `On` returns none; a default-constructed
machine is in its first listed state (the test machine in `A`, the lifecycle
machine in Created, and `ActorState::Dispatch` is this same function); in the
test machine the five edges of the drawing change the state as drawn and every
other pair of state and event leaves the state as it is. -/
theorem C36_dispatch_follows_on {S E : Type} (On : S → E → Option S) (current : S) (e : E) :
    (∀ s' : S, On current e = some s' →
      GeneralFiniteStateMachine.Dispatch On current e = s') ∧
    (On current e = none → GeneralFiniteStateMachine.Dispatch On current e = current) ∧
    GeneralFiniteStateMachine.new testing.StateMachine.States = some testing.MachineState.A ∧
    (∀ (s : State) (ev : Event),
      ActorState.Dispatch s ev = GeneralFiniteStateMachine.Dispatch ActorState.On s ev) ∧
    (∀ (s t : testing.MachineState) (ev : testing.MachineEvent),
      (s, ev, t) ∈ testing.StateMachine.edges →
      GeneralFiniteStateMachine.Dispatch testing.StateMachine.On s ev = t) ∧
    (∀ (s : testing.MachineState) (ev : testing.MachineEvent),
      (∀ t : testing.MachineState, (s, ev, t) ∉ testing.StateMachine.edges) →
      GeneralFiniteStateMachine.Dispatch testing.StateMachine.On s ev = s) := by
  refine ⟨fun s' h => ?_, fun h => ?_, rfl, fun s ev => ?_, ?_, ?_⟩
  · simp [GeneralFiniteStateMachine.Dispatch, h]
  · simp [GeneralFiniteStateMachine.Dispatch, h]
  · simp only [ActorState.Dispatch, GeneralFiniteStateMachine.Dispatch]
    cases ActorState.On s ev <;> rfl
  · intro s t ev h
    simp only [testing.StateMachine.edges, List.mem_cons, Prod.mk.injEq, List.mem_singleton,
      List.not_mem_nil, or_false] at h
    rcases h with ⟨rfl, rfl, rfl⟩ | ⟨rfl, rfl, rfl⟩ | ⟨rfl, rfl, rfl⟩ | ⟨rfl, rfl, rfl⟩
      | ⟨rfl, rfl, rfl⟩ <;> rfl
  · intro s ev h
    cases s <;> cases ev <;>
      first
      | rfl
      | exact absurd (by decide) (h testing.MachineState.A)
      | exact absurd (by decide) (h testing.MachineState.B)
      | exact absurd (by decide) (h testing.MachineState.C)
      | exact absurd (by decide) (h testing.MachineState.D)

/-- C36 on the path of `checkACTransitionLoop`: from `A` by `ADEvent` to `D`, and
in `B` the event `ADEvent` is ignored. -/
theorem C36_dispatch_follows_on_witness :
    testing.StateMachine.On testing.MachineState.A testing.MachineEvent.ADEvent
      = some testing.MachineState.D ∧
    GeneralFiniteStateMachine.Dispatch testing.StateMachine.On testing.MachineState.A
      testing.MachineEvent.ADEvent = testing.MachineState.D ∧
    GeneralFiniteStateMachine.Dispatch testing.StateMachine.On testing.MachineState.B
      testing.MachineEvent.ADEvent = testing.MachineState.B :=
  ⟨rfl,
   (C36_dispatch_follows_on testing.StateMachine.On testing.MachineState.A
      testing.MachineEvent.ADEvent).1 testing.MachineState.D rfl,
   (C36_dispatch_follows_on testing.StateMachine.On testing.MachineState.B
      testing.MachineEvent.ADEvent).2.1 rfl⟩

/-- C38 is false as stated: in Terminated, `Dispatch(TerminateEvent)` finds the
overload of `On` for every state and moves the machine to Terminating, and
`Dispatch(FailureEvent)` moves it to Stopping. -/
theorem C38_machine_leaves_terminated_counterexample :
    ActorState.Dispatch TerminatedState TerminateEvent = TerminatingState ∧
    ActorState.Dispatch TerminatedState TerminateEvent ≠ TerminatedState ∧
    ActorState.Dispatch TerminatedState FailureEvent = StoppingState ∧
    ActorState.Dispatch TerminatedState FailureEvent ≠ TerminatedState := by
  decide

/-- C38, amended: in Terminated, `Dispatch(e)` leaves the state Terminated for
every event other than `TerminateEvent` and `FailureEvent`; those two move the
machine to Terminating and to Stopping. -/
theorem C38_terminated_left_only_by_terminate_and_failure (e : Event)
    (hterminate : e ≠ TerminateEvent) (hfailure : e ≠ FailureEvent) :
    ActorState.Dispatch TerminatedState e = TerminatedState ∧
    ActorState.On TerminatedState e = none ∧
    ActorState.Dispatch TerminatedState TerminateEvent = TerminatingState ∧
    ActorState.Dispatch TerminatedState FailureEvent = StoppingState := by
  cases e <;> first | exact absurd rfl hterminate | exact absurd rfl hfailure | decide

/-- C38 amended, at `StartEvent`. -/
theorem C38_terminated_left_only_by_terminate_and_failure_witness :
    ActorState.Dispatch TerminatedState StartEvent = TerminatedState :=
  (C38_terminated_left_only_by_terminate_and_failure StartEvent (by decide) (by decide)).1

end Machine

/-! # A failed actor, and failure events as messages -/

section FailedActor

variable {U : Type} (th : TypeHash) (uc : UserCode U) (alive : ActorId → Bool)

/-- A type identifier that finds `HandleGoStop` or `HandleGoTerminate` in the
handler table is the identifier of that command. -/
theorem handler_key (k : MessageTypeID) (h : SystemHandler)
    (hk : InitializeMessageHandlers th k = some h) :
    (h = SystemHandler.HandleGoStop → k = th.GoStopActor) ∧
    (h = SystemHandler.HandleGoTerminate → k = th.GoTerminateActor) := by
  simp only [InitializeMessageHandlers, MessageHandlerMap.assign] at hk
  split_ifs at hk with h5 h4 h3 h2 h1 <;> simp at hk <;> subst hk <;> simp [*]

/-- In Stopping, the handlers of Start, Pause and Resume do nothing. -/
theorem stopping_ignores (x : Exec U) (hs : x.actor.state_ = StoppingState) :
    HandleGoStart uc x = x ∧ HandleGoPause uc x = x ∧ HandleGoResume uc x = x := by
  simp [HandleGoStart, HandleGoPause, HandleGoResume, ActorState.HasCurrentState, hs]

/-- In Stopping, `HandleGoStop` fires `StoppedEvent` and calls `OnStopped`. -/
theorem stopping_stop (x : Exec U) (hs : x.actor.state_ = StoppingState) :
    HandleGoStop uc x = (x.Dispatch .StoppedEvent).call uc .OnStopped ∧
    (HandleGoStop uc x).actor.state_ = StoppedState ∧
    (HandleGoStop uc x).trace = x.trace ++ [Effect.hook .OnStopped StoppedState] := by
  simp [HandleGoStop, ActorState.HasCurrentState, hs, Exec.Dispatch, Exec.call,
    ActorState.Dispatch, ActorState.On]

/-- In Stopping, `HandleGoTerminate` goes through Terminating to Terminated. -/
theorem stopping_terminate (x : Exec U) (hs : x.actor.state_ = StoppingState) :
    (HandleGoTerminate uc x).actor.state_ = TerminatedState ∧
    (HandleGoTerminate uc x).trace
      = x.trace ++ [Effect.hook .OnTerminate TerminatingState,
                    Effect.hook .OnTerminated TerminatedState] := by
  simp [HandleGoTerminate, ActorState.HasCurrentState, hs, Exec.Dispatch, Exec.call,
    ActorState.Dispatch, ActorState.On]

/-- C39: in Stopping, the state a failure of `Behaviour` leaves the actor in,
`GoResumeActor`, `GoPauseActor` and `GoStartActor` leave the actor as it is
(state Stopping, no hook), and so does every user message; `GoStopActor` takes
it to Stopped and runs `OnStopped` and no other hook, `GoTerminateActor` takes
it to Terminated through `OnTerminate` and `OnTerminated`; and a message after
which the state is not Stopping has the type identifier of `GoStopActor` or
of `GoTerminateActor`. -/
theorem C39_stopping_is_left_by_stop_and_terminate_only (hd : th.lifecycle.Nodup)
    (x : Exec U) (hs : x.actor.state_ = StoppingState) :
    ProcessMessage th uc alive .GoResumeActor x = .returned x ∧
    ProcessMessage th uc alive .GoPauseActor x = .returned x ∧
    ProcessMessage th uc alive .GoStartActor x = .returned x ∧
    (∀ m : BaseMessage, m.GetTypeId th ∉ th.lifecycle →
      ProcessMessage th uc alive m x = .returned x) ∧
    (∃ r : Exec U, ProcessMessage th uc alive .GoStopActor x = .returned r ∧
      r.actor.state_ = StoppedState ∧
      r.trace = x.trace ++ [Effect.hook .OnStopped StoppedState] ∧
      hooksRun r.trace = hooksRun x.trace ++ [.OnStopped]) ∧
    (∃ r : Exec U, ProcessMessage th uc alive .GoTerminateActor x = .returned r ∧
      r.actor.state_ = TerminatedState ∧
      hooksRun r.trace = hooksRun x.trace ++ [.OnTerminate, .OnTerminated]) ∧
    (∀ m : BaseMessage,
      (ProcessMessage th uc alive m x).exec.actor.state_ ≠ StoppingState →
      m.GetTypeId th = th.GoStopActor ∨ m.GetTypeId th = th.GoTerminateActor) := by
  obtain ⟨hstart, hpause, hresume⟩ := stopping_ignores uc x hs
  have hne : x.actor.state_ ≠ RunningState := by rw [hs]; decide
  refine ⟨?_, ?_, ?_, fun m hm => ?_, ⟨_, ProcessMessage_GoStopActor th uc alive hd x, ?_⟩,
    ⟨_, ProcessMessage_GoTerminateActor th uc alive hd x, ?_⟩, fun m hm => ?_⟩
  · rw [ProcessMessage_GoResumeActor th uc alive hd x, hresume]
  · rw [ProcessMessage_GoPauseActor th uc alive hd x, hpause]
  · rw [ProcessMessage_GoStartActor th uc alive hd x, hstart]
  · rw [ProcessMessage_user th uc alive m hm x, HandleUserMessage_not_running uc alive m x hne]
  · obtain ⟨_, hstate, htrace⟩ := stopping_stop uc x hs
    refine ⟨hstate, htrace, ?_⟩
    rw [htrace, hooksRun_append]
    rfl
  · obtain ⟨hstate, htrace⟩ := stopping_terminate uc x hs
    refine ⟨hstate, ?_⟩
    rw [htrace, hooksRun_append]
    rfl
  · cases hfind : InitializeMessageHandlers th (m.GetTypeId th) with
    | none =>
      exfalso
      apply hm
      simp only [ProcessMessage, hfind]
      rw [HandleUserMessage_not_running uc alive m x hne]
      exact hs
    | some handler =>
      obtain ⟨hstop, hterminate⟩ := handler_key th _ handler hfind
      simp only [ProcessMessage, hfind, Outcome.exec] at hm
      cases handler with
      | HandleGoStop => exact Or.inl (hstop rfl)
      | HandleGoTerminate => exact Or.inr (hterminate rfl)
      | HandleGoStart => exact absurd (by simp only [SystemHandler.run, hstart, hs]) hm
      | HandleGoPause => exact absurd (by simp only [SystemHandler.run, hpause, hs]) hm
      | HandleGoResume => exact absurd (by simp only [SystemHandler.run, hresume, hs]) hm

/-- C39 on Vanya in Stopping: `GoResumeActor` changes nothing, and `GoStopActor`
runs `OnStopped` alone. -/
theorem C39_stopping_is_left_by_stop_and_terminate_only_witness :
    sampleHash.lifecycle.Nodup ∧
    (sampleExec StoppingState).actor.state_ = StoppingState ∧
    ProcessMessage sampleHash sampleCode allAlive .GoResumeActor (sampleExec StoppingState)
      = .returned (sampleExec StoppingState) ∧
    ∃ r : Exec Nat,
      ProcessMessage sampleHash sampleCode allAlive .GoStopActor (sampleExec StoppingState)
        = .returned r ∧
      r.actor.state_ = StoppedState ∧
      r.trace = (sampleExec StoppingState).trace ++ [Effect.hook .OnStopped StoppedState] ∧
      hooksRun r.trace = hooksRun (sampleExec StoppingState).trace ++ [.OnStopped] :=
  ⟨by decide, rfl,
   (C39_stopping_is_left_by_stop_and_terminate_only sampleHash sampleCode allAlive (by decide)
      (sampleExec StoppingState) rfl).1,
   (C39_stopping_is_left_by_stop_and_terminate_only sampleHash sampleCode allAlive (by decide)
      (sampleExec StoppingState) rfl).2.2.2.2.1⟩

/-- C40: with a type identifier that is none of the five of the lifecycle
commands, an `ActorFailureEvent` finds no system handler and `ProcessMessage`
hands it to `HandleUserMessage`: a Running receiver enters `Behaviour` once
with it and runs no hook, and when `Behaviour` returns the receiver is as
before (state Running) but for what `Behaviour` did to the members of the
derived class, nothing else having been done; in every other state the event
is dropped and the receiver is unchanged. -/
theorem C40_failure_event_is_a_user_message (hf : th.ActorFailureEvent ∉ th.lifecycle)
    (event : ActorFailureEvent) (x : Exec U) :
    InitializeMessageHandlers th (event.toMessage.GetTypeId th) = none ∧
    ProcessMessage th uc alive event.toMessage x = HandleUserMessage uc alive event.toMessage x ∧
    (x.actor.state_ = RunningState →
      behaviourCalls (ProcessMessage th uc alive event.toMessage x).exec.trace
        = behaviourCalls x.trace ++ [event.toMessage] ∧
      hooksRun (ProcessMessage th uc alive event.toMessage x).exec.trace = hooksRun x.trace ∧
      ∀ d : U, uc.Behaviour event.toMessage x.actor = (d, none) →
        ProcessMessage th uc alive event.toMessage x
          = .returned { actor := { x.actor with derived := d },
                        trace := x.trace ++ [Effect.behaviour event.toMessage] }) ∧
    (x.actor.state_ ≠ RunningState →
      ProcessMessage th uc alive event.toMessage x = .returned x) := by
  have hm : event.toMessage.GetTypeId th ∉ th.lifecycle := hf
  refine ⟨find_user th _ hm, ProcessMessage_user th uc alive _ hm x, fun hrun => ?_,
    fun hne => ?_⟩
  · rw [ProcessMessage_user th uc alive _ hm x]
    refine ⟨(HandleUserMessage_running_calls uc alive _ x hrun).1,
      (HandleUserMessage_running_calls uc alive _ x hrun).2, fun d hb => ?_⟩
    rw [← ProcessMessage_user th uc alive _ hm x]
    exact process_user_message_returns th alive uc _ hm x hrun d hb
  · rw [ProcessMessage_user th uc alive _ hm x, HandleUserMessage_not_running uc alive _ x hne]

/-- C40 on Vanya: the failure event of a child is passed to `Behaviour` in
Running and dropped in Paused. -/
theorem C40_failure_event_is_a_user_message_witness :
    sampleHash.ActorFailureEvent ∉ sampleHash.lifecycle ∧
    ProcessMessage sampleHash sampleCode allAlive (sampleFailure 1).toMessage
        (sampleExec RunningState)
      = .returned
          { actor := { (sampleExec RunningState).actor with derived := 0 },
            trace := (sampleExec RunningState).trace
              ++ [Effect.behaviour (sampleFailure 1).toMessage] } ∧
    ProcessMessage sampleHash sampleCode allAlive (sampleFailure 1).toMessage
        (sampleExec PausedState)
      = .returned (sampleExec PausedState) :=
  ⟨by decide,
   ((C40_failure_event_is_a_user_message sampleHash sampleCode allAlive (by decide)
      (sampleFailure 1) (sampleExec RunningState)).2.2.1 rfl).2.2 0 rfl,
   (C40_failure_event_is_a_user_message sampleHash sampleCode allAlive (by decide)
      (sampleFailure 1) (sampleExec PausedState)).2.2.2 (by decide)⟩

end FailedActor

/-! # The context of an actor -/

section Context

/-- C35: `GetContext` throws exactly when the member `context_` is empty: it
throws `std::runtime_error` on an actor as its constructor leaves it, and after
`SetContext` with a context constructed for the actor and without parent it
returns that context, whose `GetSelf` is the actor (its name and its
identifier) and whose `GetParent` locks to no actor. -/
theorem C35_context_unset_is_an_error {U : Type} (actor : Actor U) (facade : Bool)
    (alive : ActorId → Bool) :
    ((∃ what : String, actor.GetContext = .error what) ↔ actor.context_ = none) ∧
    (∀ (name : String) (actor_id : ActorId) (derived : U),
      (Actor.new name actor_id derived).GetContext = .error "Context is not set") ∧
    (∀ context : ActorContext, (actor.SetContext context).GetContext = .ok context) ∧
    (actor.SetContext (ActorContext.new none actor facade).toActorContext).GetContext
      = .ok (ActorContext.new none actor facade).toActorContext ∧
    ActorContext.GetSelf (ActorContext.new none actor facade)
      = { name_ := actor.GetName, actor_id_ := actor.GetId } ∧
    ActorContext.GetSelf (ActorContext.new none actor facade)
      = { name_ := (actor.SetContext (ActorContext.new none actor facade).toActorContext).GetName,
          actor_id_ :=
            (actor.SetContext (ActorContext.new none actor facade).toActorContext).GetId } ∧
    Wptr.lock alive (ActorContext.new none actor facade).toActorContext.GetParent = none := by
  refine ⟨?_, fun _ _ _ => rfl, fun _ => rfl, rfl, rfl, rfl, rfl⟩
  cases h : actor.context_ with
  | none => simp [Actor.GetContext, h]
  | some context => simp [Actor.GetContext, h]

end Context

/-! # The order of processing -/

section Order

variable {U : Type} (th : TypeHash) (uc : UserCode U) (alive : ActorId → Bool)

/-- Handing a list of messages to `Receive` puts them behind the tokens already
posted, in the order of the list, and leaves the actor alone. -/
theorem ReceiveEach_posted (messages : List BaseMessage) :
    ∀ s : Strand U, (Actor.ReceiveEach messages s).posted = s.posted ++ messages ∧
      (Actor.ReceiveEach messages s).exec = s.exec := by
  induction messages with
  | nil => intro s; simp [Actor.ReceiveEach]
  | cons m rest ih =>
    intro s
    have h := ih (Actor.Receive m s)
    simp only [Actor.ReceiveEach, List.foldl_cons] at h ⊢
    rw [h.1, h.2]
    simp [Actor.Receive]

/-- A Running actor whose `Behaviour` returns on each of a list of user
messages runs the tokens of the list to the end: it enters `Behaviour` with
each message, in the order of the list, and is Running afterwards. -/
theorem runTokens_in_order (messages : List BaseMessage)
    (huser : ∀ m ∈ messages, m.GetTypeId th ∉ th.lifecycle)
    (hreturns : ∀ m ∈ messages, ∀ a : Actor U, (uc.Behaviour m a).2 = none) :
    ∀ x : Exec U, x.actor.state_ = RunningState →
      ∃ r : Exec U, Strand.runTokens th uc alive true messages x = .returned r ∧
        r.trace = x.trace ++ messages.map Effect.behaviour ∧
        r.actor.state_ = RunningState := by
  induction messages with
  | nil => intro x hrun; exact ⟨x, rfl, by simp, hrun⟩
  | cons m rest ih =>
    intro x hrun
    have hstep := process_user_message_returns th alive uc m (huser m (List.mem_cons_self _ _)) x
      hrun (uc.Behaviour m x.actor).1
      (Prod.ext rfl (hreturns m (List.mem_cons_self _ _) x.actor))
    obtain ⟨r, hr, htrace, hstate⟩ :=
      ih (fun k hk => huser k (List.mem_cons_of_mem _ hk))
        (fun k hk => hreturns k (List.mem_cons_of_mem _ hk))
        { actor := { x.actor with derived := (uc.Behaviour m x.actor).1 },
          trace := x.trace ++ [Effect.behaviour m] } hrun
    refine ⟨r, ?_, ?_, hstate⟩
    · simp only [Strand.runTokens, completion_token, ↓reduceIte, hstep]
      exact hr
    · rw [htrace]
      simp

/-- The entries of `Behaviour` in a record extended by entries of `Behaviour`. -/
theorem behaviourCalls_map (trace : List Effect) (messages : List BaseMessage) :
    behaviourCalls (trace ++ messages.map Effect.behaviour)
      = behaviourCalls trace ++ messages := by
  rw [behaviourCalls_append]
  congr 1
  induction messages with
  | nil => rfl
  | cons m rest ih => simp [behaviourCalls, ih]

/-- A Running `SeqActor` that runs the tokens of a list of `SeqMessage`s has
appended their values to `received`, in the order of the list. -/
theorem SeqActor_receives (SeqMessage : MessageTypeID) (hseq : SeqMessage ∉ th.lifecycle)
    (values : List Nat) :
    ∀ y : Exec (List Nat), y.actor.state_ = RunningState →
      ∃ r : Exec (List Nat),
        Strand.runTokens th (testing.SeqActor th SeqMessage) alive true
          (values.map (BaseMessage.UserMessage SeqMessage)) y = .returned r ∧
        r.actor.derived = y.actor.derived ++ values ∧
        r.actor.state_ = RunningState := by
  induction values with
  | nil => intro y hrun; exact ⟨y, rfl, by simp, hrun⟩
  | cons v rest ih =>
    intro y hrun
    have hstep := process_user_message_returns th alive (testing.SeqActor th SeqMessage)
      (.UserMessage SeqMessage v) hseq y hrun (y.actor.derived ++ [v])
      (by simp [testing.SeqActor, BaseMessage.IsA, BaseMessage.GetTypeId, BaseMessage.payload])
    obtain ⟨r, hr, hreceived, hstate⟩ :=
      ih { actor := { y.actor with derived := y.actor.derived ++ [v] },
           trace := y.trace ++ [Effect.behaviour (.UserMessage SeqMessage v)] } hrun
    refine ⟨r, ?_, ?_, hstate⟩
    · simp only [List.map_cons, Strand.runTokens, completion_token, ↓reduceIte, hstep]
      exact hr
    · rw [hreceived]
      simp

/-- C34: user messages handed to `Receive` one after another are posted to the
strand in that order, and a Running actor that has an owner and whose
`Behaviour` returns on each of them runs all the tokens: `Behaviour` is entered
once with each message, in the order of posting, and the actor is Running
afterwards.  So a Running `SeqActor` to which the integers 0 to n-1 are posted
in this order has received exactly 0 to n-1, in this order. -/
theorem C34_messages_processed_in_posting_order (messages : List BaseMessage) (x : Exec U)
    (hrun : x.actor.state_ = RunningState)
    (huser : ∀ m ∈ messages, m.GetTypeId th ∉ th.lifecycle)
    (hreturns : ∀ m ∈ messages, ∀ a : Actor U, (uc.Behaviour m a).2 = none) :
    (Actor.ReceiveEach messages { exec := x, posted := [] }).posted = messages ∧
    (∃ r : Exec U,
      Strand.run th uc alive true (Actor.ReceiveEach messages { exec := x, posted := [] })
        = .returned r ∧
      r.trace = x.trace ++ messages.map Effect.behaviour ∧
      behaviourCalls r.trace = behaviourCalls x.trace ++ messages ∧
      hooksRun r.trace = hooksRun x.trace ∧
      r.actor.state_ = RunningState) ∧
    (∀ (SeqMessage : MessageTypeID) (n : Nat) (y : Exec (List Nat)),
      SeqMessage ∉ th.lifecycle → y.actor.state_ = RunningState → y.actor.derived = [] →
      ∃ r : Exec (List Nat),
        Strand.run th (testing.SeqActor th SeqMessage) alive true
          (Actor.ReceiveEach ((List.range n).map (BaseMessage.UserMessage SeqMessage))
            { exec := y, posted := [] }) = .returned r ∧
        r.actor.derived = List.range n) := by
  have hposted := ReceiveEach_posted messages ({ exec := x, posted := [] } : Strand U)
  refine ⟨by simpa using hposted.1, ?_, ?_⟩
  · obtain ⟨r, hr, htrace, hstate⟩ := runTokens_in_order th uc alive messages huser hreturns x hrun
    refine ⟨r, ?_, htrace, ?_, ?_, hstate⟩
    · simp only [Strand.run, hposted.1, hposted.2, List.nil_append]
      exact hr
    · rw [htrace, behaviourCalls_map]
    · rw [htrace, hooksRun_append]
      have hnone : hooksRun (messages.map Effect.behaviour) = [] := by
        clear hposted huser hreturns hr htrace
        induction messages with
        | nil => rfl
        | cons m rest ih => simpa [hooksRun] using ih
      rw [hnone, List.append_nil]
  · intro SeqMessage n y hseq hyrun hempty
    have hposted' := ReceiveEach_posted ((List.range n).map (BaseMessage.UserMessage SeqMessage))
      ({ exec := y, posted := [] } : Strand (List Nat))
    obtain ⟨r, hr, hreceived, _⟩ := SeqActor_receives th alive SeqMessage hseq (List.range n) y hyrun
    refine ⟨r, ?_, ?_⟩
    · simp only [Strand.run, hposted'.1, hposted'.2, List.nil_append]
      exact hr
    · rw [hreceived, hempty, List.nil_append]

/-- C34 on a `SeqActor` to which 0, 1, 2, 3, 4 are posted: it has received
0, 1, 2, 3, 4. -/
theorem C34_messages_processed_in_posting_order_witness :
    sampleSeqActor.actor.state_ = RunningState ∧
    (∀ m ∈ (List.range 5).map (BaseMessage.UserMessage 99),
      m.GetTypeId sampleHash ∉ sampleHash.lifecycle) ∧
    ∃ r : Exec (List Nat),
      Strand.run sampleHash (testing.SeqActor sampleHash 99) allAlive true
        (Actor.ReceiveEach ((List.range 5).map (BaseMessage.UserMessage 99))
          { exec := sampleSeqActor, posted := [] }) = .returned r ∧
      r.actor.derived = List.range 5 :=
  ⟨rfl, by decide,
   (C34_messages_processed_in_posting_order sampleHash (testing.SeqActor sampleHash 99) allAlive
      ((List.range 5).map (BaseMessage.UserMessage 99)) sampleSeqActor rfl (by decide)
      (by
        intro m _ a
        simp only [testing.SeqActor]
        split <;> rfl)).2.2 99 5 sampleSeqActor (by decide) rfl rfl⟩

end Order

/-! # Telling through a reference -/

section Telling

/-- The reference that `ActorSystem::GetActorRegistry` returns locks to the
registry object while that has an owner, as it has while the system, which
holds it in `actor_registry_`, is alive. -/
theorem GetActorRegistry_locks {U : Type} (env : TellEnv) (registry : ActorObject U)
    (howned : env.owned registry.address = true) :
    ∃ ref : ActorRef, ActorSystem.GetActorRegistry (some registry) = .ok ref ∧
      ref.actor_id_ = registry.actor.GetId ∧
      ActorRef.lockCached env ref = some registry.address := by
  refine ⟨_, rfl, rfl, ?_⟩
  simp [ActorRef.lockCached, howned]

/-- With a system whose reference to the registry does not lock to an actor (the
`System` of the test `ContextIsSetAndAccessible` returns
`ActorRef{1, weak_from_this()}`), `Tell` on a reference without a live cached
actor calls itself at every depth. -/
theorem Tell_without_registry_object (env : TellEnv) (registry : ActorRef)
    (hfacade : env.facade = some registry) (hsystem : registry.system_facade_ = true)
    (hregistry : ActorRef.lockCached env registry = none) (depth : Nat) :
    ∀ (self : ActorRef) (m : Told), ActorRef.lockCached env self = none →
      self.system_facade_ = true → ActorRef.Tell env depth self m = none := by
  induction depth with
  | zero => intro _ _ _ _; rfl
  | succ n ih =>
    intro self m hc hs
    simp only [ActorRef.Tell, hc, ActorRef.lockFacade, hs, if_true, hfacade]
    exact ih registry _ hregistry hsystem

/-- C33: `Tell(m)` on a reference, with enough depth for its calls of itself:
when `cached_actor_` locks, the actor it locks to receives `m` and nothing else
is received by anyone; otherwise, when `system_facade_` locks, and the reference
to the registry that the system returns locks to the registry (the system owns
it), the registry receives exactly one `FindActorWithCallbackMessage`, with the
identifier of the reference as `actor_id` and a callback that, called with a
reference that locks to an actor, makes that actor receive `m`, and nothing
else is received by anyone; otherwise nobody receives anything. -/
theorem C33_tell_policy (env : TellEnv) (self : ActorRef) (m : Told) (depth : Nat) :
    (∀ actor : Nat, ActorRef.lockCached env self = some actor →
      ActorRef.Tell env (depth + 1) self m = some [{ address := actor, message := m }]) ∧
    (∀ (registry : ActorRef) (registry_actor : Nat),
      ActorRef.lockCached env self = none →
      ActorRef.lockFacade env self = some registry →
      ActorRef.lockCached env registry = some registry_actor →
      ActorRef.Tell env (depth + 2) self m
        = some [{ address := registry_actor,
                  message := .FindActorWithCallbackMessage self.actor_id_ self m }] ∧
      ∀ (ref : ActorRef) (found : Nat), ActorRef.lockCached env ref = some found →
        ActorRef.callback env (depth + 1) self m ref
          = some ([{ address := found, message := m }],
                  { self with cached_actor_ := ref.cached_actor_ })) ∧
    (ActorRef.lockCached env self = none → ActorRef.lockFacade env self = none →
      ActorRef.Tell env (depth + 1) self m = some []) := by
  refine ⟨fun actor h => ?_, fun registry registry_actor hc hf hr => ⟨?_, fun ref found h => ?_⟩,
    fun hc hf => ?_⟩
  · simp [ActorRef.Tell, h]
  · simp [ActorRef.Tell, hc, hf, hr]
  · simp [ActorRef.callback, ActorRef.Tell, h]
  · simp [ActorRef.Tell, hc, hf]

/-- C33 in the worked system: a reference cached on the live actor at 60
delivers to it; a reference to actor 7 by identifier alone asks the registry
at 50; a reference whose system is gone drops the message. -/
theorem C33_tell_policy_witness :
    ActorRef.Tell sampleTellEnv 1
        { actor_id_ := 6, system_facade_ := true, cached_actor_ := some 60 }
        (.message (.UserMessage 99 5))
      = some [{ address := 60, message := .message (.UserMessage 99 5) }] ∧
    ActorRef.Tell sampleTellEnv 2
        { actor_id_ := 7, system_facade_ := true, cached_actor_ := none }
        (.message (.UserMessage 99 5))
      = some [{ address := 50,
                message := .FindActorWithCallbackMessage 7
                  { actor_id_ := 7, system_facade_ := true, cached_actor_ := none }
                  (.message (.UserMessage 99 5)) }] ∧
    ActorRef.Tell sampleTellEnv 1
        { actor_id_ := 7, system_facade_ := false, cached_actor_ := some 70 }
        (.message (.UserMessage 99 5))
      = some [] :=
  ⟨(C33_tell_policy sampleTellEnv
      { actor_id_ := 6, system_facade_ := true, cached_actor_ := some 60 }
      (.message (.UserMessage 99 5)) 0).1 60 (by decide),
   ((C33_tell_policy sampleTellEnv
      { actor_id_ := 7, system_facade_ := true, cached_actor_ := none }
      (.message (.UserMessage 99 5)) 0).2.1
      { actor_id_ := 0, system_facade_ := true, cached_actor_ := some 50 } 50
      (by decide) (by decide) (by decide)).1,
   (C33_tell_policy sampleTellEnv
      { actor_id_ := 7, system_facade_ := false, cached_actor_ := some 70 }
      (.message (.UserMessage 99 5)) 0).2.2 (by decide) (by decide)⟩

end Telling

/-! # Message pools -/

section Pools

variable (sizeof : MessageVariant → Nat)

/-! ## What one release does -/

/-- Whether `intrusive_ptr_release` deletes, read off the object at the address:
it deletes the object whose counter is at 1, and no other. -/
theorem release_deleted (address : Nat) (objects : List LiveMessage) :
    (intrusive_ptr_release address objects).2
      = match objects.find? (fun object => decide (object.address = address)) with
        | some object => if object.use_count - 1 = 0 then some object else none
        | none => none := by
  induction objects with
  | nil => rfl
  | cons o rest ih =>
    by_cases h : o.address = address
    · by_cases hc : o.use_count - 1 = 0 <;> simp [intrusive_ptr_release, List.find?, h, hc]
    · simp [intrusive_ptr_release, List.find?, h, ih]

/-- `intrusive_ptr_add_ref` deletes nothing and creates nothing. -/
theorem add_ref_alive (V : MessageVariant) (address : Nat) (objects : List LiveMessage) :
    (intrusive_ptr_add_ref address objects).countP (fun object => decide (object.variant = V))
      = objects.countP (fun object => decide (object.variant = V)) := by
  induction objects with
  | nil => rfl
  | cons o rest ih =>
    by_cases h : o.address = address
    · simp [intrusive_ptr_add_ref, h, List.countP_cons]
    · simp [intrusive_ptr_add_ref, h, List.countP_cons, ih]

/-- After `intrusive_ptr_add_ref` every object is referred to, as before. -/
theorem add_ref_positive (address : Nat) (objects : List LiveMessage)
    (hpos : ∀ object ∈ objects, 1 ≤ object.use_count) :
    ∀ object ∈ intrusive_ptr_add_ref address objects, 1 ≤ object.use_count := by
  induction objects with
  | nil => intro o ho; simp [intrusive_ptr_add_ref] at ho
  | cons o rest ih =>
    intro q hq
    by_cases h : o.address = address
    · simp only [intrusive_ptr_add_ref, h, if_true, List.mem_cons] at hq
      rcases hq with rfl | hq
      · simp
      · exact hpos q (List.mem_cons_of_mem _ hq)
    · simp only [intrusive_ptr_add_ref, h, if_false, List.mem_cons] at hq
      rcases hq with rfl | hq
      · exact hpos _ (List.mem_cons_self _ _)
      · exact ih (fun k hk => hpos k (List.mem_cons_of_mem _ hk)) q hq

/-- A change of the member handles of an object deletes nothing and creates
nothing. -/
theorem updateMembers_alive (V : MessageVariant) (address : Nat)
    (change : List Nat → List Nat) (objects : List LiveMessage) :
    (updateMembers address change objects).countP (fun object => decide (object.variant = V))
      = objects.countP (fun object => decide (object.variant = V)) := by
  induction objects with
  | nil => rfl
  | cons o rest ih =>
    by_cases h : o.address = address
    · simp [updateMembers, h, List.countP_cons]
    · simp [updateMembers, h, List.countP_cons, ih]

/-- A change of the member handles of an object leaves every counter alone. -/
theorem updateMembers_positive (address : Nat) (change : List Nat → List Nat)
    (objects : List LiveMessage) (hpos : ∀ object ∈ objects, 1 ≤ object.use_count) :
    ∀ object ∈ updateMembers address change objects, 1 ≤ object.use_count := by
  induction objects with
  | nil => intro o ho; simp [updateMembers] at ho
  | cons o rest ih =>
    intro q hq
    by_cases h : o.address = address
    · simp only [updateMembers, h, if_true, List.mem_cons] at hq
      rcases hq with rfl | hq
      · exact hpos o (List.mem_cons_self _ _)
      · exact hpos q (List.mem_cons_of_mem _ hq)
    · simp only [updateMembers, h, if_false, List.mem_cons] at hq
      rcases hq with rfl | hq
      · exact hpos _ (List.mem_cons_self _ _)
      · exact ih (fun k hk => hpos k (List.mem_cons_of_mem _ hk)) q hq

/-- `intrusive_ptr_release` takes away the object it deletes and no other. -/
theorem release_alive (V : MessageVariant) (address : Nat) (objects : List LiveMessage) :
    objects.countP (fun object => decide (object.variant = V))
      = (intrusive_ptr_release address objects).1.countP
          (fun object => decide (object.variant = V))
        + (intrusive_ptr_release address objects).2.toList.countP
            (fun object => decide (object.variant = V)) := by
  induction objects with
  | nil => rfl
  | cons o rest ih =>
    by_cases h : o.address = address
    · by_cases hc : o.use_count - 1 = 0
      · by_cases hv : o.variant = V <;>
          simp [intrusive_ptr_release, h, hc, hv, List.countP_cons]
      · simp [intrusive_ptr_release, h, hc, List.countP_cons]
    · simp only [intrusive_ptr_release, h, if_false, List.countP_cons]
      omega

/-- After `intrusive_ptr_release` every object left is referred to. -/
theorem release_positive (address : Nat) (objects : List LiveMessage)
    (hpos : ∀ object ∈ objects, 1 ≤ object.use_count) :
    ∀ object ∈ (intrusive_ptr_release address objects).1, 1 ≤ object.use_count := by
  induction objects with
  | nil => intro o ho; simp [intrusive_ptr_release] at ho
  | cons o rest ih =>
    intro q hq
    by_cases h : o.address = address
    · by_cases hc : o.use_count - 1 = 0
      · simp only [intrusive_ptr_release, h, hc, if_true] at hq
        exact hpos q (List.mem_cons_of_mem _ hq)
      · simp only [intrusive_ptr_release, h, hc, if_true, if_false, List.mem_cons] at hq
        rcases hq with rfl | hq
        · show 1 ≤ o.use_count - 1
          omega
        · exact hpos q (List.mem_cons_of_mem _ hq)
    · simp only [intrusive_ptr_release, h, if_false, List.mem_cons] at hq
      rcases hq with rfl | hq
      · exact hpos _ (List.mem_cons_self _ _)
      · exact ih (fun k hk => hpos k (List.mem_cons_of_mem _ hk)) q hq

/-- The member handles of the objects before a release are those of the objects
left and those of the object deleted. -/
theorem release_members (address : Nat) (objects : List LiveMessage) :
    (objects.map (fun object => object.members.length)).sum
      = ((intrusive_ptr_release address objects).1.map
          (fun object => object.members.length)).sum
        + ((intrusive_ptr_release address objects).2.toList.map
            (fun object => object.members.length)).sum := by
  induction objects with
  | nil => rfl
  | cons o rest ih =>
    by_cases h : o.address = address
    · by_cases hc : o.use_count - 1 = 0
      · simp [intrusive_ptr_release, h, hc]
        omega
      · simp [intrusive_ptr_release, h, hc]
    · simp only [intrusive_ptr_release, h, if_false, List.map_cons, List.sum_cons]
      omega

/-! ## What a chain of releases does -/

/-- No release, nothing done. -/
theorem releaseAll_nil (calls : Nat) (objects : List LiveMessage) :
    releaseAll calls [] objects = (objects, []) := by
  cases calls <;> rfl

/-- One step of a chain of releases. -/
theorem releaseAll_cons (calls : Nat) (address : Nat) (pending : List Nat)
    (objects : List LiveMessage) :
    releaseAll (calls + 1) (address :: pending) objects
      = match (intrusive_ptr_release address objects).2 with
        | some object =>
          ((releaseAll calls (object.members ++ pending)
              (intrusive_ptr_release address objects).1).1,
           object :: (releaseAll calls (object.members ++ pending)
              (intrusive_ptr_release address objects).1).2)
        | none => releaseAll calls pending (intrusive_ptr_release address objects).1 := by
  simp only [releaseAll]

/-- A chain of releases takes away the objects it deletes and no other. -/
theorem releaseAll_alive (V : MessageVariant) (calls : Nat) :
    ∀ (pending : List Nat) (objects : List LiveMessage),
      objects.countP (fun object => decide (object.variant = V))
        = (releaseAll calls pending objects).1.countP
            (fun object => decide (object.variant = V))
          + (releaseAll calls pending objects).2.countP
              (fun object => decide (object.variant = V)) := by
  induction calls with
  | zero => intro pending objects; simp [releaseAll]
  | succ n ih =>
    intro pending objects
    cases pending with
    | nil => simp [releaseAll_nil]
    | cons a rest =>
      have hone := release_alive V a objects
      rw [releaseAll_cons]
      cases hdel : (intrusive_ptr_release a objects).2 with
      | none =>
        rw [hdel] at hone
        simp only [Option.toList, List.countP_nil, Nat.add_zero] at hone
        rw [hone]
        exact ih rest _
      | some o =>
        rw [hdel] at hone
        have hrest := ih (o.members ++ rest) (intrusive_ptr_release a objects).1
        simp only [Option.toList, List.countP_cons, List.countP_nil, Nat.zero_add] at hone
        simp only [List.countP_cons]
        omega

/-- After a chain of releases every object left is referred to. -/
theorem releaseAll_positive (calls : Nat) :
    ∀ (pending : List Nat) (objects : List LiveMessage),
      (∀ object ∈ objects, 1 ≤ object.use_count) →
      ∀ object ∈ (releaseAll calls pending objects).1, 1 ≤ object.use_count := by
  induction calls with
  | zero => intro pending objects hpos; simpa [releaseAll] using hpos
  | succ n ih =>
    intro pending objects hpos
    cases pending with
    | nil => simpa [releaseAll_nil] using hpos
    | cons a rest =>
      have hone := release_positive a objects hpos
      rw [releaseAll_cons]
      cases hdel : (intrusive_ptr_release a objects).2 with
      | none => exact ih rest _ hone
      | some o => exact ih (o.members ++ rest) _ hone

/-- The bound is enough: a chain of releases given at least as many calls as its
bound ends by itself, and more calls change nothing. -/
theorem releaseAll_enough (calls : Nat) :
    ∀ (pending : List Nat) (objects : List LiveMessage) (more : Nat),
      releaseBound pending objects ≤ calls →
      releaseAll (calls + more) pending objects = releaseAll calls pending objects := by
  induction calls with
  | zero =>
    intro pending objects more hbound
    cases pending with
    | nil => simp [releaseAll_nil]
    | cons a rest => simp [releaseBound] at hbound
  | succ n ih =>
    intro pending objects more hbound
    cases pending with
    | nil => simp [releaseAll_nil]
    | cons a rest =>
      have hmembers := release_members a objects
      have hshift : n + 1 + more = (n + more) + 1 := by omega
      rw [hshift, releaseAll_cons, releaseAll_cons]
      cases hdel : (intrusive_ptr_release a objects).2 with
      | none =>
        rw [hdel] at hmembers
        simp only [Option.toList, List.map_nil, List.sum_nil, Nat.add_zero] at hmembers
        have hle : releaseBound rest (intrusive_ptr_release a objects).1 ≤ n := by
          simp only [releaseBound, List.length_cons] at hbound ⊢
          omega
        exact ih rest _ more hle
      | some o =>
        rw [hdel] at hmembers
        simp only [Option.toList, List.map_cons, List.map_nil, List.sum_cons, List.sum_nil,
          Nat.add_zero] at hmembers
        have hle : releaseBound (o.members ++ rest) (intrusive_ptr_release a objects).1 ≤ n := by
          simp only [releaseBound, List.length_cons, List.length_append] at hbound ⊢
          omega
        simp only [ih (o.members ++ rest) _ more hle]

/-! ## The pools after a chain of releases -/

/-- The statistics of a variant after `operator delete` for each of a list of
deleted objects: the allocation counters are as before, and the deallocation
counters have moved by the number of deleted objects of the variant and by
their bytes. -/
theorem deallocateEach_counts (V : MessageVariant) (deleted : List LiveMessage) :
    ∀ pool : MessageVariant → PoolStats,
      (pool V).deallocations < 2 ^ 64 → (pool V).bytes_deallocated < 2 ^ 64 →
      (deallocateEach sizeof deleted pool V).allocations = (pool V).allocations ∧
      (deallocateEach sizeof deleted pool V).bytes_allocated = (pool V).bytes_allocated ∧
      (deallocateEach sizeof deleted pool V).deallocations
        = ((pool V).deallocations
            + deleted.countP (fun object => decide (object.variant = V))) % 2 ^ 64 ∧
      (deallocateEach sizeof deleted pool V).bytes_deallocated
        = ((pool V).bytes_deallocated
            + deleted.countP (fun object => decide (object.variant = V)) * sizeof V) % 2 ^ 64 := by
  induction deleted with
  | nil =>
    intro pool hd hbd
    have hnil : deallocateEach sizeof [] pool = pool := rfl
    rw [hnil]
    refine ⟨rfl, rfl, ?_, ?_⟩
    · rw [List.countP_nil, Nat.add_zero, Nat.mod_eq_of_lt hd]
    · rw [List.countP_nil, Nat.zero_mul, Nat.add_zero, Nat.mod_eq_of_lt hbd]
  | cons o rest ih =>
    intro pool hd hbd
    obtain ⟨next, hnext⟩ : ∃ next : MessageVariant → PoolStats,
        next = fun W => if W = o.variant then
            Message.operator_delete (sizeof o.variant) (some o.address) (pool W)
          else pool W := ⟨_, rfl⟩
    have hcons : deallocateEach sizeof (o :: rest) pool = deallocateEach sizeof rest next := by
      rw [hnext]
      rfl
    rw [hcons]
    by_cases hv : o.variant = V
    · have hV : next V = MonitoredPoolResource.do_deallocate (pool V) (sizeof V) := by
        rw [hnext]
        simp [hv, Message.operator_delete]
      have ha : (next V).allocations = (pool V).allocations := by rw [hV]; rfl
      have hba : (next V).bytes_allocated = (pool V).bytes_allocated := by rw [hV]; rfl
      have hdd : (next V).deallocations = ((pool V).deallocations + 1) % 2 ^ 64 := by
        rw [hV]; rfl
      have hbdd : (next V).bytes_deallocated
          = ((pool V).bytes_deallocated + sizeof V) % 2 ^ 64 := by
        rw [hV]; rfl
      obtain ⟨h1, h2, h3, h4⟩ := ih next
        (by rw [hdd]; exact Nat.mod_lt _ (by norm_num))
        (by rw [hbdd]; exact Nat.mod_lt _ (by norm_num))
      rw [h1, h2, h3, h4, ha, hba, hdd, hbdd]
      have hcount : (o :: rest).countP (fun object => decide (object.variant = V))
          = rest.countP (fun object => decide (object.variant = V)) + 1 := by
        simp [List.countP_cons, hv]
      rw [hcount, Nat.add_mul, Nat.one_mul]
      refine ⟨rfl, rfl, ?_, ?_⟩ <;> omega
    · have hVo : ¬ V = o.variant := fun e => hv e.symm
      have hsame : next V = pool V := by
        rw [hnext]
        simp [hVo]
      obtain ⟨h1, h2, h3, h4⟩ := ih next (by rw [hsame]; exact hd) (by rw [hsame]; exact hbd)
      rw [h1, h2, h3, h4, hsame]
      have hcount : (o :: rest).countP (fun object => decide (object.variant = V))
          = rest.countP (fun object => decide (object.variant = V)) := by
        simp [List.countP_cons, hv]
      rw [hcount]
      exact ⟨rfl, rfl, rfl, rfl⟩

/-- A chain of releases keeps the counters of a variant in step with its live
objects. -/
theorem release_inStep (V : MessageVariant) (pending : List Nat) (mem : MessageMemory)
    (h : mem.inStep sizeof V) : (mem.release sizeof pending).inStep sizeof V := by
  obtain ⟨hd, hbd, ha, hba, hpos⟩ := h
  have hcount := releaseAll_alive V (releaseBound pending mem.live) pending mem.live
  have hposn := releaseAll_positive (releaseBound pending mem.live) pending mem.live hpos
  obtain ⟨h1, h2, h3, h4⟩ := deallocateEach_counts sizeof V
    (releaseAll (releaseBound pending mem.live) pending mem.live).2 mem.pool_ hd hbd
  refine ⟨?_, ?_, ?_, ?_, hposn⟩
  · simp only [MessageMemory.release, h3]
    exact Nat.mod_lt _ (by norm_num)
  · simp only [MessageMemory.release, h4]
    exact Nat.mod_lt _ (by norm_num)
  · simp only [MessageMemory.release, MessageMemory.alive, h1, h3]
    rw [ha]
    simp only [MessageMemory.alive]
    rw [hcount]
    omega
  · simp only [MessageMemory.release, MessageMemory.alive, h2, h4]
    rw [hba]
    simp only [MessageMemory.alive]
    rw [hcount, Nat.add_mul]
    omega

/-- A change of the member handles of an object keeps the counters in step. -/
theorem updateMembers_inStep (V : MessageVariant) (address : Nat)
    (change : List Nat → List Nat) (mem : MessageMemory) (h : mem.inStep sizeof V) :
    MessageMemory.inStep sizeof V
      { mem with live := updateMembers address change mem.live } := by
  obtain ⟨hd, hbd, ha, hba, hpos⟩ := h
  have halive := updateMembers_alive V address change mem.live
  exact ⟨hd, hbd, by simpa [MessageMemory.alive, halive] using ha,
    by simpa [MessageMemory.alive, halive] using hba,
    updateMembers_positive address change mem.live hpos⟩

/-- One operation keeps the counters of a variant in step with its live objects. -/
theorem step_inStep (V : MessageVariant) (mem : MessageMemory) (op : MemoryOp)
    (h : mem.inStep sizeof V) : (mem.step sizeof op).inStep sizeof V := by
  cases op with
  | make T =>
    obtain ⟨hd, hbd, ha, hba, hpos⟩ := h
    have hposn : ∀ object ∈ mem.live ++
        [({ address := mem.constructed, variant := T, use_count := 1, members := [] } :
          LiveMessage)],
        1 ≤ object.use_count := by
      intro o ho
      rcases List.mem_append.mp ho with ho | ho
      · exact hpos o ho
      · rw [List.mem_singleton.mp ho]
    by_cases hT : T = V
    · subst hT
      have halive : (mem.MakeMessage sizeof T).1.alive T = mem.alive T + 1 := by
        simp [MessageMemory.MakeMessage, MessageMemory.alive, List.countP_append,
          List.countP_cons]
      refine ⟨?_, ?_, ?_, ?_, hposn⟩
      · simpa [MessageMemory.step, MessageMemory.MakeMessage, Message.operator_new,
          MonitoredPoolResource.do_allocate] using hd
      · simpa [MessageMemory.step, MessageMemory.MakeMessage, Message.operator_new,
          MonitoredPoolResource.do_allocate] using hbd
      · simp only [MessageMemory.step, halive]
        simp only [MessageMemory.MakeMessage, Message.operator_new,
          MonitoredPoolResource.do_allocate, if_true, ne_eq, not_true_eq_false, if_false]
        rw [ha]
        omega
      · simp only [MessageMemory.step, halive, Nat.add_mul, Nat.one_mul]
        simp only [MessageMemory.MakeMessage, Message.operator_new,
          MonitoredPoolResource.do_allocate, if_true, ne_eq, not_true_eq_false, if_false]
        rw [hba]
        omega
    · have hVT : ¬ V = T := fun e => hT e.symm
      have halive : (mem.MakeMessage sizeof T).1.alive V = mem.alive V := by
        simp [MessageMemory.MakeMessage, MessageMemory.alive, List.countP_append,
          List.countP_cons, hT]
      have hpool : (mem.MakeMessage sizeof T).1.pool_ V = mem.pool_ V := by
        simp [MessageMemory.MakeMessage, hVT]
      exact ⟨by simpa [MessageMemory.step, hpool] using hd,
        by simpa [MessageMemory.step, hpool] using hbd,
        by simpa [MessageMemory.step, hpool, halive] using ha,
        by simpa [MessageMemory.step, hpool, halive] using hba, hposn⟩
  | copy address =>
    obtain ⟨hd, hbd, ha, hba, hpos⟩ := h
    have halive : (mem.copy address).alive V = mem.alive V :=
      add_ref_alive V address mem.live
    exact ⟨hd, hbd, by simpa [MessageMemory.step, halive] using ha,
      by simpa [MessageMemory.step, halive] using hba,
      add_ref_positive address mem.live hpos⟩
  | drop address => exact release_inStep sizeof V [address] mem h
  | assign holder member =>
    simp only [MessageMemory.step, MessageMemory.assign]
    cases mem.find holder with
    | none => exact h
    | some _ =>
      obtain ⟨hd, hbd, ha, hba, hpos⟩ :=
        updateMembers_inStep sizeof V holder (fun members => member :: members) mem h
      have halive := add_ref_alive V member
        (updateMembers holder (fun members => member :: members) mem.live)
      exact ⟨hd, hbd, by simpa [MessageMemory.alive, halive] using ha,
        by simpa [MessageMemory.alive, halive] using hba,
        add_ref_positive member _ hpos⟩
  | reset holder member =>
    simp only [MessageMemory.step, MessageMemory.reset]
    cases mem.find holder with
    | none => exact h
    | some object =>
      by_cases hmember : member ∈ object.members
      · simp only [hmember, if_true]
        exact release_inStep sizeof V [member] _
          (updateMembers_inStep sizeof V holder (fun members => members.erase member) mem h)
      · simp only [hmember, if_false]
        exact h

/-! ## Creation, copies and drops -/

/-- Statistics with the same four counters are the same. -/
theorem PoolStats.eq_of_fields (p q : PoolStats) (h1 : p.allocations = q.allocations)
    (h2 : p.deallocations = q.deallocations) (h3 : p.bytes_allocated = q.bytes_allocated)
    (h4 : p.bytes_deallocated = q.bytes_deallocated) : p = q := by
  cases p
  cases q
  simp only [PoolStats.mk.injEq]
  exact ⟨h1, h2, h3, h4⟩

/-- The objects that the end of one `MPtr` deletes, read off the object at the
address: none unless its counter is at 1, and then the object itself, followed
by what the release of its member handles deletes. -/
theorem deleted_of_find (address : Nat) (mem : MessageMemory) :
    mem.deleted address
      = match mem.find address with
        | some object =>
          if object.use_count - 1 = 0 then
            object :: (releaseAll (mem.live.map (fun o => o.members.length)).sum
              (object.members ++ []) (intrusive_ptr_release address mem.live).1).2
          else []
        | none => [] := by
  have hbound : releaseBound [address] mem.live
      = (mem.live.map (fun o => o.members.length)).sum + 1 := by
    simp only [releaseBound, List.length_singleton]
    omega
  have hdel := release_deleted address mem.live
  simp only [MessageMemory.deleted, hbound, releaseAll_cons, MessageMemory.find]
  cases hfind : mem.live.find? (fun object => decide (object.address = address)) with
  | none =>
    rw [hfind] at hdel
    simp only [hdel, releaseAll_nil]
  | some o =>
    rw [hfind] at hdel
    by_cases hc : o.use_count - 1 = 0
    · simp only [hc, if_true] at hdel ⊢
      simp only [hdel]
    · simp only [hc, if_false] at hdel ⊢
      simp only [hdel, releaseAll_nil]

/-- C31 is false as stated: after the `catch` block of `HandleUserMessage` the
message that failed is held by `failed_message` of the failure event alone;
the drop of the last reference to the failure event deletes the event and,
through its destructor, the message, so it moves `deallocations` and
`bytes_deallocated` of the variant of the message, which is another variant.
And the drop of the last reference to an escalation, whose `failed_message`
holds the failure event of the child alone, moves `deallocations` of
`ActorFailureEvent` by 2. -/
theorem C31_last_drop_reaches_other_messages_counterexample :
    sampleFailureMemory.find 1
      = some { address := 1, variant := events.ActorFailureEvent, use_count := 1,
               members := [0] } ∧
    testing.SimpleTestMessage ≠ events.ActorFailureEvent ∧
    sampleFailureMemory.pool_ testing.SimpleTestMessage
      = { allocations := 1, deallocations := 0, bytes_allocated := 16,
          bytes_deallocated := 0 } ∧
    (sampleFailureMemory.drop events.sizeof 1).pool_ testing.SimpleTestMessage
      = { allocations := 1, deallocations := 1, bytes_allocated := 16,
          bytes_deallocated := 16 } ∧
    (sampleFailureMemory.drop events.sizeof 1).pool_ testing.SimpleTestMessage
      ≠ sampleFailureMemory.pool_ testing.SimpleTestMessage ∧
    sampleEscalationMemory.find 2
      = some { address := 2, variant := events.ActorFailureEvent, use_count := 1,
               members := [1] } ∧
    (sampleEscalationMemory.pool_ events.ActorFailureEvent).deallocations = 0 ∧
    ((sampleEscalationMemory.drop events.sizeof 2).pool_
      events.ActorFailureEvent).deallocations = 2 := by
  decide

/-- C31, amended: the counters of the pools move on creation and on deletion
only.  Creating a message of variant `V` moves `allocations` of `V` by 1 and
`bytes_allocated` of `V` by `sizeof(V)`, in the arithmetic of `std::size_t`
(so by exactly that much while the counter has room), and nothing else;
copying a reference, into a local or into a member of a message, and dropping
a reference that is not the last one move no counter.  Dropping the last
reference to a message deletes it and, through its destructor, drops the
references among its members, which can delete further messages: for every
variant `W`, `deallocations` of `W` moves by the number of messages of `W`
deleted and `bytes_deallocated` of `W` by as many times `sizeof(W)`, and no
allocation counter moves.  So for a message of `V` that holds no reference,
dropping the last reference moves `deallocations` of `V` by 1 and
`bytes_deallocated` of `V` by `sizeof(V)`, and no counter of another variant. -/
theorem C31_counters_move_on_creation_and_deletion (mem : MessageMemory)
    (V : MessageVariant) :
    (mem.MakeMessage sizeof V).1.pool_ V
      = { allocations := ((mem.pool_ V).allocations + 1) % 2 ^ 64,
          deallocations := (mem.pool_ V).deallocations,
          bytes_allocated := ((mem.pool_ V).bytes_allocated + sizeof V) % 2 ^ 64,
          bytes_deallocated := (mem.pool_ V).bytes_deallocated } ∧
    ((mem.pool_ V).allocations + 1 < 2 ^ 64 →
      ((mem.MakeMessage sizeof V).1.pool_ V).allocations = (mem.pool_ V).allocations + 1) ∧
    ((mem.pool_ V).bytes_allocated + sizeof V < 2 ^ 64 →
      ((mem.MakeMessage sizeof V).1.pool_ V).bytes_allocated
        = (mem.pool_ V).bytes_allocated + sizeof V) ∧
    (∀ W : MessageVariant, W ≠ V → (mem.MakeMessage sizeof V).1.pool_ W = mem.pool_ W) ∧
    (∀ address : Nat, (mem.copy address).pool_ = mem.pool_) ∧
    (∀ holder member : Nat, (mem.assign holder member).pool_ = mem.pool_) ∧
    (∀ (address : Nat) (object : LiveMessage), mem.find address = some object →
      1 < object.use_count →
      mem.deleted address = [] ∧ (mem.drop sizeof address).pool_ = mem.pool_) ∧
    (∀ (address : Nat) (object : LiveMessage), mem.find address = some object →
      object.use_count = 1 →
      ∃ further : List LiveMessage, mem.deleted address = object :: further ∧
        (object.members = [] → further = [])) ∧
    (∀ (address : Nat) (W : MessageVariant),
      (mem.pool_ W).deallocations < 2 ^ 64 → (mem.pool_ W).bytes_deallocated < 2 ^ 64 →
      (mem.drop sizeof address).pool_ W
        = { allocations := (mem.pool_ W).allocations,
            deallocations := ((mem.pool_ W).deallocations
              + (mem.deleted address).countP (fun object => decide (object.variant = W)))
              % 2 ^ 64,
            bytes_allocated := (mem.pool_ W).bytes_allocated,
            bytes_deallocated := ((mem.pool_ W).bytes_deallocated
              + (mem.deleted address).countP (fun object => decide (object.variant = W))
                * sizeof W) % 2 ^ 64 }) ∧
    (∀ (address : Nat) (object : LiveMessage), mem.find address = some object →
      object.use_count = 1 → object.members = [] → object.variant = V →
      (mem.drop sizeof address).pool_ V
        = { allocations := (mem.pool_ V).allocations,
            deallocations := ((mem.pool_ V).deallocations + 1) % 2 ^ 64,
            bytes_allocated := (mem.pool_ V).bytes_allocated,
            bytes_deallocated := ((mem.pool_ V).bytes_deallocated + sizeof V) % 2 ^ 64 } ∧
      ((mem.pool_ V).deallocations + 1 < 2 ^ 64 →
        ((mem.drop sizeof address).pool_ V).deallocations = (mem.pool_ V).deallocations + 1) ∧
      ((mem.pool_ V).bytes_deallocated + sizeof V < 2 ^ 64 →
        ((mem.drop sizeof address).pool_ V).bytes_deallocated
          = (mem.pool_ V).bytes_deallocated + sizeof V) ∧
      ∀ W : MessageVariant, W ≠ V → (mem.drop sizeof address).pool_ W = mem.pool_ W) := by
  have hmake : (mem.MakeMessage sizeof V).1.pool_ V
      = { allocations := ((mem.pool_ V).allocations + 1) % 2 ^ 64,
          deallocations := (mem.pool_ V).deallocations,
          bytes_allocated := ((mem.pool_ V).bytes_allocated + sizeof V) % 2 ^ 64,
          bytes_deallocated := (mem.pool_ V).bytes_deallocated } := by
    simp [MessageMemory.MakeMessage, Message.operator_new, MonitoredPoolResource.do_allocate]
  have hdrop : ∀ address : Nat,
      (mem.drop sizeof address).pool_ = deallocateEach sizeof (mem.deleted address) mem.pool_ :=
    fun _ => rfl
  refine ⟨hmake, fun h => ?_, fun h => ?_, fun W hW => ?_, fun _ => rfl, fun holder member => ?_,
    fun address object hfind hcount => ?_, fun address object hfind hcount => ?_,
    fun address W hd hbd => ?_, fun address object hfind hcount hflat hvariant => ?_⟩
  · rw [hmake]
    exact Nat.mod_eq_of_lt h
  · rw [hmake]
    exact Nat.mod_eq_of_lt h
  · simp [MessageMemory.MakeMessage, hW]
  · simp only [MessageMemory.assign]
    cases mem.find holder <;> rfl
  · have hdeleted : mem.deleted address = [] := by
      rw [deleted_of_find, hfind]
      have hne : ¬ object.use_count - 1 = 0 := by omega
      simp only [hne, if_false]
    refine ⟨hdeleted, ?_⟩
    rw [hdrop, hdeleted]
    rfl
  · have hzero : object.use_count - 1 = 0 := by omega
    refine ⟨(releaseAll (mem.live.map (fun o => o.members.length)).sum (object.members ++ [])
      (intrusive_ptr_release address mem.live).1).2, ?_, fun hflat => ?_⟩
    · rw [deleted_of_find, hfind]
      simp only [hzero, if_true]
    · rw [hflat]
      simp only [List.append_nil, releaseAll_nil]
  · obtain ⟨h1, h2, h3, h4⟩ :=
      deallocateEach_counts sizeof W (mem.deleted address) mem.pool_ hd hbd
    rw [hdrop]
    exact PoolStats.eq_of_fields _ _ h1 h3 h2 h4
  · have hzero : object.use_count - 1 = 0 := by omega
    have hdeleted : mem.deleted address = [object] := by
      rw [deleted_of_find, hfind]
      simp only [hzero, if_true, hflat, List.append_nil, releaseAll_nil]
    have hpool : (mem.drop sizeof address).pool_ V
        = { allocations := (mem.pool_ V).allocations,
            deallocations := ((mem.pool_ V).deallocations + 1) % 2 ^ 64,
            bytes_allocated := (mem.pool_ V).bytes_allocated,
            bytes_deallocated := ((mem.pool_ V).bytes_deallocated + sizeof V) % 2 ^ 64 } := by
      rw [hdrop, hdeleted]
      simp [deallocateEach, hvariant, Message.operator_delete,
        MonitoredPoolResource.do_deallocate]
    refine ⟨hpool, fun h => ?_, fun h => ?_, fun W hW => ?_⟩
    · rw [hpool]
      exact Nat.mod_eq_of_lt h
    · rw [hpool]
      exact Nat.mod_eq_of_lt h
    · rw [hdrop, hdeleted]
      simp [deallocateEach, hvariant, hW]

/-- C31 amended, on the test `PoolDeallocatesOnZeroRefCount` and on the failure
event: with the sentinel and the message allocated and the message referred to
twice, `msg.reset()` moves no counter and the end of `another_ref` moves
`deallocations` by 1; and the drop of the last reference to the failure event
deletes the event and the message it holds, one of each variant. -/
theorem C31_counters_move_on_creation_and_deletion_witness :
    samplePoolMemory.find 1
      = some { address := 1, variant := testing.SimpleTestMessage, use_count := 2,
               members := [] } ∧
    samplePoolMemory.pool_ testing.SimpleTestMessage
      = { allocations := 2, deallocations := 0, bytes_allocated := 32, bytes_deallocated := 0 } ∧
    (samplePoolMemory.drop testing.sizeof 1).pool_ = samplePoolMemory.pool_ ∧
    (samplePoolMemory.drop testing.sizeof 1).find 1
      = some { address := 1, variant := testing.SimpleTestMessage, use_count := 1,
               members := [] } ∧
    (((samplePoolMemory.drop testing.sizeof 1).drop testing.sizeof 1).pool_
        testing.SimpleTestMessage).deallocations
      = ((samplePoolMemory.drop testing.sizeof 1).pool_
          testing.SimpleTestMessage).deallocations + 1 ∧
    sampleFailureMemory.deleted 1
      = [{ address := 1, variant := events.ActorFailureEvent, use_count := 1, members := [0] },
         { address := 0, variant := testing.SimpleTestMessage, use_count := 1, members := [] }] ∧
    (sampleFailureMemory.drop events.sizeof 1).pool_ testing.SimpleTestMessage
      = { allocations := (sampleFailureMemory.pool_ testing.SimpleTestMessage).allocations,
          deallocations := ((sampleFailureMemory.pool_ testing.SimpleTestMessage).deallocations
            + (sampleFailureMemory.deleted 1).countP
                (fun object => decide (object.variant = testing.SimpleTestMessage))) % 2 ^ 64,
          bytes_allocated :=
            (sampleFailureMemory.pool_ testing.SimpleTestMessage).bytes_allocated,
          bytes_deallocated :=
            ((sampleFailureMemory.pool_ testing.SimpleTestMessage).bytes_deallocated
              + (sampleFailureMemory.deleted 1).countP
                  (fun object => decide (object.variant = testing.SimpleTestMessage))
                * events.sizeof testing.SimpleTestMessage) % 2 ^ 64 } :=
  ⟨by decide, by decide,
   ((C31_counters_move_on_creation_and_deletion testing.sizeof samplePoolMemory
      testing.SimpleTestMessage).2.2.2.2.2.2.1 1
      { address := 1, variant := testing.SimpleTestMessage, use_count := 2, members := [] }
      (by decide) (by decide)).2,
   by decide,
   ((C31_counters_move_on_creation_and_deletion testing.sizeof
      (samplePoolMemory.drop testing.sizeof 1) testing.SimpleTestMessage).2.2.2.2.2.2.2.2.2 1
      { address := 1, variant := testing.SimpleTestMessage, use_count := 1, members := [] }
      (by decide) rfl rfl rfl).2.1 (by decide),
   by decide,
   (C31_counters_move_on_creation_and_deletion events.sizeof sampleFailureMemory
      testing.SimpleTestMessage).2.2.2.2.2.2.2.2.1 1 testing.SimpleTestMessage
      (by decide) (by decide)⟩

/-- A sequence of operations keeps the counters of a variant in step. -/
theorem run_inStep (V : MessageVariant) (ops : List MemoryOp) :
    ∀ mem : MessageMemory, mem.inStep sizeof V → (mem.run sizeof ops).inStep sizeof V := by
  induction ops with
  | nil => intro mem h; exact h
  | cons op rest ih =>
    intro mem h
    exact ih (mem.step sizeof op) (step_inStep sizeof V mem op h)

/-- With every live object referred to, a variant without live references has
no live object. -/
theorem no_references_no_objects (V : MessageVariant) (objects : List LiveMessage)
    (hpos : ∀ object ∈ objects, 1 ≤ object.use_count)
    (hnone : ((objects.filter (fun object => decide (object.variant = V))).map
      (fun object => object.use_count)).sum = 0) :
    objects.countP (fun object => decide (object.variant = V)) = 0 := by
  induction objects with
  | nil => rfl
  | cons o rest ih =>
    have ho := hpos o (List.mem_cons_self _ _)
    by_cases hv : o.variant = V
    · simp only [List.filter_cons, hv, decide_True, if_true, List.map_cons, List.sum_cons] at hnone
      omega
    · simp only [List.filter_cons, hv, decide_False, Bool.false_eq_true, if_false] at hnone
      simp only [List.countP_cons, hv, decide_False, Bool.false_eq_true, if_false, Nat.add_zero]
      exact ih (fun k hk => hpos k (List.mem_cons_of_mem _ hk)) hnone

/-- C32: from a memory in which the counters of `V` are balanced and no message
of `V` is alive, after every sequence of creations, copies of references and
drops of references: `allocations` of `V` is `deallocations` plus the number
`k` of live messages of `V`, and `bytes_allocated` is `bytes_deallocated` plus
`k * sizeof(V)`, in the arithmetic of `std::size_t` (so `allocations` minus
`deallocations` is `k` while the counter has not wrapped); and once no live
reference to a message of `V` remains, `allocations` equals `deallocations` and
`bytes_allocated` equals `bytes_deallocated`. -/
theorem C32_pool_balance (V : MessageVariant) (mem : MessageMemory) (ops : List MemoryOp)
    (hsize : (mem.pool_ V).allocations < 2 ^ 64 ∧ (mem.pool_ V).bytes_allocated < 2 ^ 64)
    (hbalanced : (mem.pool_ V).allocations = (mem.pool_ V).deallocations ∧
      (mem.pool_ V).bytes_allocated = (mem.pool_ V).bytes_deallocated)
    (hnone : mem.alive V = 0)
    (hreferred : ∀ object ∈ mem.live, 1 ≤ object.use_count) :
    ((mem.run sizeof ops).pool_ V).allocations
      = (((mem.run sizeof ops).pool_ V).deallocations + (mem.run sizeof ops).alive V) % 2 ^ 64 ∧
    ((mem.run sizeof ops).pool_ V).bytes_allocated
      = (((mem.run sizeof ops).pool_ V).bytes_deallocated
          + (mem.run sizeof ops).alive V * sizeof V) % 2 ^ 64 ∧
    (((mem.run sizeof ops).pool_ V).deallocations + (mem.run sizeof ops).alive V < 2 ^ 64 →
      ((mem.run sizeof ops).pool_ V).allocations - ((mem.run sizeof ops).pool_ V).deallocations
        = (mem.run sizeof ops).alive V) ∧
    ((mem.run sizeof ops).alive V = 0 →
      ((mem.run sizeof ops).pool_ V).allocations = ((mem.run sizeof ops).pool_ V).deallocations ∧
      ((mem.run sizeof ops).pool_ V).bytes_allocated
        = ((mem.run sizeof ops).pool_ V).bytes_deallocated) ∧
    ((mem.run sizeof ops).references V = 0 →
      ((mem.run sizeof ops).pool_ V).allocations = ((mem.run sizeof ops).pool_ V).deallocations ∧
      ((mem.run sizeof ops).pool_ V).bytes_allocated
        = ((mem.run sizeof ops).pool_ V).bytes_deallocated) := by
  have hstart : mem.inStep sizeof V := by
    refine ⟨by rw [← hbalanced.1]; exact hsize.1, by rw [← hbalanced.2]; exact hsize.2, ?_, ?_,
      hreferred⟩
    · rw [hnone, Nat.add_zero, ← hbalanced.1, Nat.mod_eq_of_lt hsize.1]
    · rw [hnone, Nat.zero_mul, Nat.add_zero, ← hbalanced.2, Nat.mod_eq_of_lt hsize.2]
  obtain ⟨hd, hbd, ha, hba, hpos⟩ := run_inStep sizeof V ops mem hstart
  have hzero : (mem.run sizeof ops).alive V = 0 →
      ((mem.run sizeof ops).pool_ V).allocations = ((mem.run sizeof ops).pool_ V).deallocations ∧
      ((mem.run sizeof ops).pool_ V).bytes_allocated
        = ((mem.run sizeof ops).pool_ V).bytes_deallocated := by
    intro hk
    rw [hk] at ha hba
    rw [Nat.add_zero, Nat.mod_eq_of_lt hd] at ha
    rw [Nat.zero_mul, Nat.add_zero, Nat.mod_eq_of_lt hbd] at hba
    exact ⟨ha, hba⟩
  refine ⟨ha, hba, fun hroom => ?_, hzero, fun href => ?_⟩
  · rw [ha, Nat.mod_eq_of_lt hroom]
    omega
  · exact hzero (no_references_no_objects V (mem.run sizeof ops).live hpos href)

/-- C32 on the pattern of the test `NoLeaks_WhenCreatingAndDeletingManyMessages`,
with three messages: when all references are gone, three allocations and three
deallocations, of 48 bytes each way. -/
theorem C32_pool_balance_witness :
    (MessageMemory.run testing.sizeof
        [.make testing.SimpleTestMessage, .make testing.SimpleTestMessage,
         .make testing.SimpleTestMessage, .copy 1, .drop 0, .drop 1, .drop 2, .drop 1]
        MessageMemory.fresh).references testing.SimpleTestMessage = 0 ∧
    (MessageMemory.run testing.sizeof
        [.make testing.SimpleTestMessage, .make testing.SimpleTestMessage,
         .make testing.SimpleTestMessage, .copy 1, .drop 0, .drop 1, .drop 2, .drop 1]
        MessageMemory.fresh).pool_ testing.SimpleTestMessage
      = { allocations := 3, deallocations := 3, bytes_allocated := 48,
          bytes_deallocated := 48 } ∧
    ((MessageMemory.run testing.sizeof
        [.make testing.SimpleTestMessage, .make testing.SimpleTestMessage,
         .make testing.SimpleTestMessage, .copy 1, .drop 0, .drop 1, .drop 2, .drop 1]
        MessageMemory.fresh).pool_ testing.SimpleTestMessage).allocations
      = ((MessageMemory.run testing.sizeof
        [.make testing.SimpleTestMessage, .make testing.SimpleTestMessage,
         .make testing.SimpleTestMessage, .copy 1, .drop 0, .drop 1, .drop 2, .drop 1]
        MessageMemory.fresh).pool_ testing.SimpleTestMessage).deallocations :=
  ⟨by decide, by decide,
   ((C32_pool_balance testing.sizeof testing.SimpleTestMessage MessageMemory.fresh
      [.make testing.SimpleTestMessage, .make testing.SimpleTestMessage,
       .make testing.SimpleTestMessage, .copy 1, .drop 0, .drop 1, .drop 2, .drop 1]
      ⟨by decide, by decide⟩ ⟨rfl, rfl⟩ rfl
      (fun _ h => absurd h (List.not_mem_nil _))).2.2.2.2 (by decide)).1⟩

end Pools

end oxherdcpp
